import Mathlib

/-!
Basic_Collision: bounding spheres, line/plane intersection, point-in-triangle.

A shallow embedding of the collision routines of
`src/Basic_Collision/Basic_Collision.cpp`.

The C++ code computes on `float`.  The embedding is written over an arbitrary
linearly ordered field `α`, and the two `<math.h>` functions that are not field
operations, `sqrt` and `acos`, are taken as parameters of the routines that call
them.  The definitions are therefore ordinary computable functions.  The
theorems read float arithmetic as exact real arithmetic: they instantiate
`α := ℝ`, `sqrt := Real.sqrt`, `acos := Real.arccos`, and the decimal literals
`0.001`, `6.28`, `0.01` denote the decimal numbers themselves.
-/

namespace BasicCollision

/-! ## Data model -/

/-- Modelled from the spec: the header `vector3f.h` is not part of the sources.
A `vector3f` is a value with three components `x`, `y`, `z`. -/
structure vector3f (α : Type) where
  x : α
  y : α
  z : α

/-- The `enum Collision` of the sample. -/
inductive Collision where
  | COLLISION_NO
  | COLLISION_YES
  | COLLISION_NOT_CHECKED
  deriving DecidableEq, Repr

/-- The `struct triangle` of the sample: three vertices, a face normal and the
cached bounding sphere. -/
structure triangle (α : Type) where
  v0 : vector3f α
  v1 : vector3f α
  v2 : vector3f α
  vNormal : vector3f α
  vCenter : vector3f α
  fRadius : α

section Ops

variable {α : Type} [LinearOrderedField α]

/-- Modelled from the spec: `operator-` of the missing `vector3f.h`,
componentwise subtraction. -/
instance : Sub (vector3f α) :=
  ⟨fun a b => ⟨a.x - b.x, a.y - b.y, a.z - b.z⟩⟩

/-- Modelled from the spec: `dotProduct` of the missing `vector3f.h`. -/
def dotProduct (a b : vector3f α) : α :=
  a.x * b.x + a.y * b.y + a.z * b.z

/-- Modelled from the spec: `crossProduct` of the missing `vector3f.h`. -/
def crossProduct (a b : vector3f α) : vector3f α :=
  ⟨a.y * b.z - a.z * b.y, a.z * b.x - a.x * b.z, a.x * b.y - a.y * b.x⟩

/-- Modelled from the spec: `vector3f::length` of the missing `vector3f.h`,
the magnitude of a vector. -/
def length (sqrt : α → α) (a : vector3f α) : α :=
  sqrt (a.x * a.x + a.y * a.y + a.z * a.z)

/-- Modelled from the spec: `vector3f::normalize` of the missing `vector3f.h`,
which divides each component by the magnitude. -/
def normalize (sqrt : α → α) (a : vector3f α) : vector3f α :=
  let fLength := length sqrt a
  ⟨a.x / fLength, a.y / fLength, a.z / fLength⟩

/-! ## The routines of `Basic_Collision.cpp` -/

/-- The function `createBoundingSphere`: the centre of the axis-aligned box of
the vertices, and the largest of the three distances from it to a vertex. The
triangle is updated in place in the source; here the updated triangle is
returned. -/
def createBoundingSphere (sqrt : α → α) (tri : triangle α) : triangle α :=
  let fMinX := tri.v0.x
  let fMaxX := tri.v0.x
  let fMinY := tri.v0.y
  let fMaxY := tri.v0.y
  let fMinZ := tri.v0.z
  let fMaxZ := tri.v0.z
  let fMinX := if tri.v1.x < fMinX then tri.v1.x else fMinX
  let fMinX := if tri.v2.x < fMinX then tri.v2.x else fMinX
  let fMinY := if tri.v1.y < fMinY then tri.v1.y else fMinY
  let fMinY := if tri.v2.y < fMinY then tri.v2.y else fMinY
  let fMinZ := if tri.v1.z < fMinZ then tri.v1.z else fMinZ
  let fMinZ := if tri.v2.z < fMinZ then tri.v2.z else fMinZ
  let fMaxX := if tri.v1.x > fMaxX then tri.v1.x else fMaxX
  let fMaxX := if tri.v2.x > fMaxX then tri.v2.x else fMaxX
  let fMaxY := if tri.v1.y > fMaxY then tri.v1.y else fMaxY
  let fMaxY := if tri.v2.y > fMaxY then tri.v2.y else fMaxY
  let fMaxZ := if tri.v1.z > fMaxZ then tri.v1.z else fMaxZ
  let fMaxZ := if tri.v2.z > fMaxZ then tri.v2.z else fMaxZ
  let cx := (fMinX + fMaxX) / 2
  let cy := (fMinY + fMaxY) / 2
  let cz := (fMinZ + fMaxZ) / 2
  let fRadius1 := sqrt (((cx - tri.v0.x) * (cx - tri.v0.x)) +
                        ((cy - tri.v0.y) * (cy - tri.v0.y)) +
                        ((cz - tri.v0.z) * (cz - tri.v0.z)))
  let fRadius2 := sqrt (((cx - tri.v1.x) * (cx - tri.v1.x)) +
                        ((cy - tri.v1.y) * (cy - tri.v1.y)) +
                        ((cz - tri.v1.z) * (cz - tri.v1.z)))
  let fRadius1 := if fRadius1 < fRadius2 then fRadius2 else fRadius1
  let fRadius2 := sqrt (((cx - tri.v2.x) * (cx - tri.v2.x)) +
                        ((cy - tri.v2.y) * (cy - tri.v2.y)) +
                        ((cz - tri.v2.z) * (cz - tri.v2.z)))
  let fRadius1 := if fRadius1 < fRadius2 then fRadius2 else fRadius1
  { tri with vCenter := ⟨cx, cy, cz⟩, fRadius := fRadius1 }

/-- The function `doSpheresIntersect`: the distance between the two cached
centres is compared, strictly, with the sum of the two cached radii. -/
def doSpheresIntersect (sqrt : α → α) (tri1 tri2 : triangle α) : Bool :=
  let fDistance := tri1.fRadius + tri2.fRadius
  let fRadius := sqrt (((tri2.vCenter.x - tri1.vCenter.x) * (tri2.vCenter.x - tri1.vCenter.x)) +
                       ((tri2.vCenter.y - tri1.vCenter.y) * (tri2.vCenter.y - tri1.vCenter.y)) +
                       ((tri2.vCenter.z - tri1.vCenter.z) * (tri2.vCenter.z - tri1.vCenter.z)))
  if fRadius < fDistance then true else false

/-- The function `getLinePlaneIntersectionPoint`. The source returns a `bool`
and writes the crossing point through the pointer `vIntersection` only on the
path that returns `true`; here the incoming value of `vIntersection` is an
argument and the pair (returned flag, value of `vIntersection` afterwards) is
the result. -/
def getLinePlaneIntersectionPoint (vLineStart vLineEnd vPointInPlane vPlaneNormal
    vIntersection : vector3f α) : Bool × vector3f α :=
  let vDirection : vector3f α :=
    ⟨vLineEnd.x - vLineStart.x, vLineEnd.y - vLineStart.y, vLineEnd.z - vLineStart.z⟩
  let fLineLength := dotProduct vDirection vPlaneNormal
  if |fLineLength| < 0.001 then (false, vIntersection)
  else
    let L1 : vector3f α :=
      ⟨vPointInPlane.x - vLineStart.x, vPointInPlane.y - vLineStart.y,
       vPointInPlane.z - vLineStart.z⟩
    let fDistanceFromPlane := dotProduct L1 vPlaneNormal
    let fPercentage := fDistanceFromPlane / fLineLength
    if fPercentage < 0 ∨ fPercentage > 1 then (false, vIntersection)
    else
      (true, ⟨vLineStart.x + vDirection.x * fPercentage,
              vLineStart.y + vDirection.y * fPercentage,
              vLineStart.z + vDirection.z * fPercentage⟩)

/-- The function `isPointInsideTriangle`: the angle-sum test with the literal
constants `6.28` and `0.01`. -/
def isPointInsideTriangle (sqrt acos : α → α) (vIntersectionPoint : vector3f α)
    (tri : triangle α) : Bool :=
  let vVectors0 := normalize sqrt (vIntersectionPoint - tri.v0)
  let vVectors1 := normalize sqrt (vIntersectionPoint - tri.v1)
  let vVectors2 := normalize sqrt (vIntersectionPoint - tri.v2)
  let fTotalAngle := acos (dotProduct vVectors0 vVectors1)
  let fTotalAngle := fTotalAngle + acos (dotProduct vVectors1 vVectors2)
  let fTotalAngle := fTotalAngle + acos (dotProduct vVectors2 vVectors0)
  if |fTotalAngle - 6.28| < 0.01 then true else false

/-- The function `doTrianglesIntersect`: the three edges of `tri2` are tested,
in the order `v0 v1`, `v1 v2`, `v2 v0`, against the plane of `tri1` and then
against `tri1` itself. `tri1` is passed by value and its `vNormal` field is
overwritten in the copy; `vPoint` is the local that receives the crossing point
(its initial value is whatever the default constructor leaves, passed here as
`vPoint0`). -/
def doTrianglesIntersect (sqrt acos : α → α) (vPoint0 : vector3f α)
    (tri1 tri2 : triangle α) : Bool :=
  let vPoint := vPoint0
  let vEdgeVec1 := tri1.v1 - tri1.v0
  let vEdgeVec2 := tri1.v2 - tri1.v0
  let tri1 : triangle α := { tri1 with vNormal := crossProduct vEdgeVec1 vEdgeVec2 }
  let r := getLinePlaneIntersectionPoint tri2.v0 tri2.v1 tri1.v0 tri1.vNormal vPoint
  let bIntersect := r.1
  let vPoint := r.2
  if (bIntersect && isPointInsideTriangle sqrt acos vPoint tri1) = true then true
  else
    let r := getLinePlaneIntersectionPoint tri2.v1 tri2.v2 tri1.v0 tri1.vNormal vPoint
    let bIntersect := r.1
    let vPoint := r.2
    if (bIntersect && isPointInsideTriangle sqrt acos vPoint tri1) = true then true
    else
      let r := getLinePlaneIntersectionPoint tri2.v2 tri2.v0 tri1.v0 tri1.vNormal vPoint
      let bIntersect := r.1
      let vPoint := r.2
      if (bIntersect && isPointInsideTriangle sqrt acos vPoint tri1) = true then true
      else false

/-- The squared Euclidean distance between two points. -/
def distSq (a b : vector3f α) : α :=
  (a.x - b.x) ^ 2 + (a.y - b.y) ^ 2 + (a.z - b.z) ^ 2

/-- A triangle whose cached sphere has centre `(cx, 0, 0)` and radius `r`; all
three vertices sit at the centre. -/
def sphereAt (cx r : α) : triangle α :=
  { v0 := ⟨cx, 0, 0⟩, v1 := ⟨cx, 0, 0⟩, v2 := ⟨cx, 0, 0⟩, vNormal := ⟨0, 0, 0⟩,
    vCenter := ⟨cx, 0, 0⟩, fRadius := r }

/-- A triangle given by its three vertices, with the normal and the cached
sphere zeroed (as `init` leaves `vNormal` before the sphere is built). -/
def triangleOf (v0 v1 v2 : vector3f α) : triangle α :=
  { v0 := v0, v1 := v1, v2 := v2, vNormal := ⟨0, 0, 0⟩, vCenter := ⟨0, 0, 0⟩, fRadius := 0 }

/-- In the spec's words: `u` is the unit vector in the direction of `d`, that is,
`u` is a positive multiple of `d` and has length one. -/
def IsUnitDir (u d : vector3f α) : Prop :=
  (∃ k : α, 0 < k ∧ u.x = k * d.x ∧ u.y = k * d.y ∧ u.z = k * d.z) ∧ dotProduct u u = 1

/-- A triangle is non-degenerate when `cross (v1 - v0) (v2 - v0)` is not the zero
vector, that is, when its vertices are neither collinear nor coincident. -/
def NonDegenerate (tri : triangle α) : Prop :=
  crossProduct (tri.v1 - tri.v0) (tri.v2 - tri.v0) ≠ ⟨0, 0, 0⟩

/-- The point `P` is the combination `a * v0 + b * v1 + c * v2` of the vertices, with
weights that sum to one. -/
def IsCombination (P : vector3f α) (tri : triangle α) (a b c : α) : Prop :=
  a + b + c = 1 ∧
  P.x = a * tri.v0.x + b * tri.v1.x + c * tri.v2.x ∧
  P.y = a * tri.v0.y + b * tri.v1.y + c * tri.v2.y ∧
  P.z = a * tri.v0.z + b * tri.v1.z + c * tri.v2.z

/-- The point `P` is strictly inside the triangle: a convex combination of the
vertices with all three weights positive. -/
def StrictlyInside (P : vector3f α) (tri : triangle α) : Prop :=
  ∃ a b c : α, 0 < a ∧ 0 < b ∧ 0 < c ∧ IsCombination P tri a b c

/-- The point `P` lies within the closed triangle: a convex combination of the
vertices with non-negative weights. -/
def InClosedTriangle (P : vector3f α) (tri : triangle α) : Prop :=
  ∃ a b c : α, 0 ≤ a ∧ 0 ≤ b ∧ 0 ≤ c ∧ IsCombination P tri a b c

/-- The point `P` lies in the plane of the triangle. -/
def InPlane (P : vector3f α) (tri : triangle α) : Prop :=
  dotProduct (P - tri.v0) (crossProduct (tri.v1 - tri.v0) (tri.v2 - tri.v0)) = 0

/-- The triangle `B` lies in the plane of the triangle `A`: its three vertices do. -/
def LiesInPlaneOf (B A : triangle α) : Prop :=
  InPlane B.v0 A ∧ InPlane B.v1 A ∧ InPlane B.v2 A

/-- The centroid of a triangle. -/
def centroid (tri : triangle α) : vector3f α :=
  ⟨(tri.v0.x + tri.v1.x + tri.v2.x) / 3, (tri.v0.y + tri.v1.y + tri.v2.y) / 3,
   (tri.v0.z + tri.v1.z + tri.v2.z) / 3⟩

/-- The first default triangle of the sample, as `init` fills in its vertices. -/
def sampleTriangle1 : triangle α :=
  triangleOf ⟨1, -1, 1⟩ ⟨-1, 1, 1⟩ ⟨-3, -1, 1⟩

/-- A long thin-based triangle in the plane `z = 0`, with the edge `v0 v1` on the
x-axis. -/
def grazingTriangle : triangle α :=
  triangleOf ⟨-999999, 0, 0⟩ ⟨999999, 0, 0⟩ ⟨0, 1, 0⟩

/-- A point of the plane `z = 0` just below the middle of the edge `v0 v1` of
`grazingTriangle`, outside that triangle. -/
def grazingPoint : vector3f α :=
  ⟨0, -2000, 0⟩

/-- The collision check of `render`, applied to the two global triangles with their
cached spheres. The first two components are `nCollisionStateOfSpheres` and
`nCollisionStateOfTris` as they stand when the check is finished; the third
component counts the calls of `doTrianglesIntersect` made on the path taken. The
local `vPoint` of each call of `doTrianglesIntersect` starts from `vPoint0`. -/
def collisionCheck (sqrt acos : α → α) (vPoint0 : vector3f α) (g_tri1 g_tri2 : triangle α) :
    Collision × Collision × Nat :=
  let nCollisionStateOfSpheres := Collision.COLLISION_NO
  let nCollisionStateOfTris := Collision.COLLISION_NO
  if doSpheresIntersect sqrt g_tri1 g_tri2 = true then
    let nCollisionStateOfSpheres := Collision.COLLISION_YES
    if doTrianglesIntersect sqrt acos vPoint0 g_tri1 g_tri2 = true then
      (nCollisionStateOfSpheres, Collision.COLLISION_YES, 1)
    else
      if doTrianglesIntersect sqrt acos vPoint0 g_tri2 g_tri1 = true then
        (nCollisionStateOfSpheres, Collision.COLLISION_YES, 2)
      else
        (nCollisionStateOfSpheres, nCollisionStateOfTris, 2)
  else
    (nCollisionStateOfSpheres, Collision.COLLISION_NOT_CHECKED, 0)

/-- The second default triangle of the sample, as `init` fills in its vertices. -/
def sampleTriangle2 : triangle α :=
  triangleOf ⟨0, 2, 0⟩ ⟨0, -2, 2⟩ ⟨0, -2, -2⟩

/-- A long triangle in the plane `z = 0` whose edge `v0 v1` lies on the x-axis and
whose third vertex is far away on the y-axis. -/
def farTriangle : triangle α :=
  triangleOf ⟨-999999, 0, 0⟩ ⟨999999, 0, 0⟩ ⟨0, 1000000000, 0⟩

/-- A small triangle whose edge `v0 v1` crosses the plane `z = 0` at
`grazingPoint`. -/
def tinyTriangle : triangle α :=
  triangleOf ⟨0, -2000, -1⟩ ⟨0, -2000, 1⟩ ⟨0, -2001, 0⟩

/-- A right triangle with the vertex `v0` at the origin, in the quadrant of negative
coordinates of the plane `z = 0`. -/
def rightTriangleNeg : triangle α :=
  triangleOf ⟨0, 0, 0⟩ ⟨-6, -8, 0⟩ ⟨-6, 0, 0⟩

/-- The mirror image of `rightTriangleNeg` through the origin. -/
def rightTrianglePos : triangle α :=
  triangleOf ⟨0, 0, 0⟩ ⟨6, 8, 0⟩ ⟨6, 0, 0⟩

/-- A triangle in the plane `z = 0`. -/
def coplanarA : triangle α :=
  triangleOf ⟨0, 0, 0⟩ ⟨4, 0, 0⟩ ⟨0, 4, 0⟩

/-- The triangle `coplanarA` shifted by `(1, 1, 0)`; it overlaps `coplanarA`. -/
def coplanarB : triangle α :=
  triangleOf ⟨1, 1, 0⟩ ⟨5, 1, 0⟩ ⟨1, 5, 0⟩

/-- A large triangle in the plane `z = 0` around the origin. -/
def bigTriangle : triangle α :=
  triangleOf ⟨-10, -10, 0⟩ ⟨10, -10, 0⟩ ⟨0, 10, 0⟩

/-- A small triangle in the plane `y = 0` whose edge `v0 v1` pierces `bigTriangle`
at the origin. -/
def smallTriangle : triangle α :=
  triangleOf ⟨0, 0, -1⟩ ⟨0, 0, 1⟩ ⟨-1, 0, 0⟩

/-- The motion step of `render`, on the state made of the global `g_tri1` and the
static local `bMoveBack`; `g_bMoveSpheres` and `g_fElapsedTime` are the globals it
reads. The four `x` fields are updated in place in the source. -/
def motionStep (g_bMoveSpheres : Bool) (g_fElapsedTime : α) (g_tri1 : triangle α)
    (bMoveBack : Bool) : triangle α × Bool :=
  if g_bMoveSpheres = true then
    let fMoveAmount := 2 * g_fElapsedTime
    if bMoveBack = true then
      let g_tri1 : triangle α :=
        { g_tri1 with
          v0 := ⟨g_tri1.v0.x - fMoveAmount, g_tri1.v0.y, g_tri1.v0.z⟩
          v1 := ⟨g_tri1.v1.x - fMoveAmount, g_tri1.v1.y, g_tri1.v1.z⟩
          v2 := ⟨g_tri1.v2.x - fMoveAmount, g_tri1.v2.y, g_tri1.v2.z⟩
          vCenter := ⟨g_tri1.vCenter.x - fMoveAmount, g_tri1.vCenter.y, g_tri1.vCenter.z⟩ }
      if g_tri1.vCenter.x < -7 then (g_tri1, false) else (g_tri1, bMoveBack)
    else
      let g_tri1 : triangle α :=
        { g_tri1 with
          v0 := ⟨g_tri1.v0.x + fMoveAmount, g_tri1.v0.y, g_tri1.v0.z⟩
          v1 := ⟨g_tri1.v1.x + fMoveAmount, g_tri1.v1.y, g_tri1.v1.z⟩
          v2 := ⟨g_tri1.v2.x + fMoveAmount, g_tri1.v2.y, g_tri1.v2.z⟩
          vCenter := ⟨g_tri1.vCenter.x + fMoveAmount, g_tri1.vCenter.y, g_tri1.vCenter.z⟩ }
      if g_tri1.vCenter.x > 7 then (g_tri1, true) else (g_tri1, bMoveBack)
  else
    (g_tri1, bMoveBack)

/-- The motion steps of a sequence of frames; each frame comes with the values of
`g_bMoveSpheres` and `g_fElapsedTime` that its `render` call reads. -/
def motionSteps (frames : List (Bool × α)) (st : triangle α × Bool) : triangle α × Bool :=
  frames.foldl (fun st frame => motionStep frame.1 frame.2 st.1 st.2) st

/-- The triangle with the offset `d` added to the `x` coordinate of `v0`, `v1`, `v2`
and `vCenter`, and every other field unchanged. -/
def translateX (d : α) (tri : triangle α) : triangle α :=
  { tri with
    v0 := ⟨tri.v0.x + d, tri.v0.y, tri.v0.z⟩
    v1 := ⟨tri.v1.x + d, tri.v1.y, tri.v1.z⟩
    v2 := ⟨tri.v2.x + d, tri.v2.y, tri.v2.z⟩
    vCenter := ⟨tri.vCenter.x + d, tri.vCenter.y, tri.vCenter.z⟩ }

/-- The cached sphere of `tri` is what `createBoundingSphere` computes from the
current vertices of `tri`. -/
def IsFresh (sqrt : α → α) (tri : triangle α) : Prop :=
  tri.vCenter = (createBoundingSphere sqrt tri).vCenter ∧
  tri.fRadius = (createBoundingSphere sqrt tri).fRadius

/-- The vector `k * n`. -/
def scale (k : α) (n : vector3f α) : vector3f α :=
  ⟨k * n.x, k * n.y, k * n.z⟩

/-- The function `doTrianglesIntersect` once more, with the nesting of the source
(`isPointInsideTriangle` is called only inside `if( bIntersect == true )`) and, next
to the returned flag, the number of calls of `isPointInsideTriangle` made on the
path taken. -/
def doTrianglesIntersectTraced (sqrt acos : α → α) (vPoint0 : vector3f α)
    (tri1 tri2 : triangle α) : Bool × Nat :=
  let vPoint := vPoint0
  let vEdgeVec1 := tri1.v1 - tri1.v0
  let vEdgeVec2 := tri1.v2 - tri1.v0
  let tri1 : triangle α := { tri1 with vNormal := crossProduct vEdgeVec1 vEdgeVec2 }
  let nCalls := 0
  let r := getLinePlaneIntersectionPoint tri2.v0 tri2.v1 tri1.v0 tri1.vNormal vPoint
  let bIntersect := r.1
  let vPoint := r.2
  let nCalls := if bIntersect = true then nCalls + 1 else nCalls
  if bIntersect = true ∧ isPointInsideTriangle sqrt acos vPoint tri1 = true then (true, nCalls)
  else
    let r := getLinePlaneIntersectionPoint tri2.v1 tri2.v2 tri1.v0 tri1.vNormal vPoint
    let bIntersect := r.1
    let vPoint := r.2
    let nCalls := if bIntersect = true then nCalls + 1 else nCalls
    if bIntersect = true ∧ isPointInsideTriangle sqrt acos vPoint tri1 = true then
      (true, nCalls)
    else
      let r := getLinePlaneIntersectionPoint tri2.v2 tri2.v0 tri1.v0 tri1.vNormal vPoint
      let bIntersect := r.1
      let vPoint := r.2
      let nCalls := if bIntersect = true then nCalls + 1 else nCalls
      if bIntersect = true ∧ isPointInsideTriangle sqrt acos vPoint tri1 = true then
        (true, nCalls)
      else (false, nCalls)

/-- The vertex of a triangle with a given index. -/
def vertex (tri : triangle α) (i : Fin 3) : vector3f α :=
  match i with
  | 0 => tri.v0
  | 1 => tri.v1
  | 2 => tri.v2

/-- The triangle whose vertices are those of `tri` in the order given by the
permutation `σ`. -/
def permuteVertices (σ : Equiv.Perm (Fin 3)) (tri : triangle α) : triangle α :=
  { tri with v0 := vertex tri (σ 0), v1 := vertex tri (σ 1), v2 := vertex tri (σ 2) }

/-- A triangle whose three vertices lie on the x-axis. -/
def collinearTriangle : triangle α :=
  triangleOf ⟨0, 0, 0⟩ ⟨1, 0, 0⟩ ⟨2, 0, 0⟩

end Ops

/-- A `vector3f` over the reals as a vector of Euclidean three-space. -/
def toE (a : vector3f ℝ) : EuclideanSpace ℝ (Fin 3) :=
  ![a.x, a.y, a.z]

end BasicCollision

/-! ## SDL_Blit_Sprite: the frame counters of `render` -/

namespace SDLBlitSprite

/-- The fields of an `SDL_Rect`. -/
structure SDL_Rect where
  x : Int
  y : Int
  w : Int
  h : Int
  deriving DecidableEq, Repr

/-- The two static locals of `render` in `SDL_Blit_Sprite.cxx`. -/
structure RenderState where
  nPosition : Int
  nFrame : Int
  deriving DecidableEq, Repr

/-- The source rectangle that `render` builds from `nFrame`; `%` and `/` are the
truncating operations of C on `int`. -/
def srcRect (nFrame : Int) : SDL_Rect :=
  { x := (nFrame.tmod 5) * 64, y := (nFrame.tdiv 5) * 64, w := 64, h := 64 }

/-- The destination rectangle that `render` builds from `nPosition`. -/
def destRect (nPosition : Int) : SDL_Rect :=
  { x := nPosition, y := 200, w := 64, h := 64 }

/-- The update of the static locals made by one call of `render`. The counters are
C `int`s; the increments are written on `Int`, no value of a run that starts at zero
comes near the range of `int`. -/
def render (s : RenderState) : RenderState :=
  let nFrame := s.nFrame + 1
  let nFrame := if nFrame > 29 then 0 else nFrame
  let nPosition := s.nPosition + 1
  let nPosition := if nPosition > 640 then 0 else nPosition
  { nPosition := nPosition, nFrame := nFrame }

/-- The static locals after `n` calls of `render`, both starting at zero. -/
def afterCalls (n : Nat) : RenderState :=
  Nat.iterate render n { nPosition := 0, nFrame := 0 }

end SDLBlitSprite

/-! ## GLX_Sample: the BGR to RGB loop of `getBitmapImageData` -/

namespace GLXSample

/-- The loop `for( i = 0; i < nTotalImagesize; i += 3 )` at the end of
`getBitmapImageData`, from the current value of `i`, on the buffer `data` of
`pImage`. A read at an index outside the buffer makes the result `none`; the two
writes go to the indices just read.
The index `i` is a C `int`; it is a `Nat` here, it never exceeds `nTotalImagesize`,
itself an `int`. -/
def getBitmapImageData_loop {β : Type} (nTotalImagesize : Nat) (i : Nat) (data : List β) :
    Option (List β) :=
  if i < nTotalImagesize then
    match data[i]? with
    | none => none
    | some charTemp =>
      match data[i + 2]? with
      | none => none
      | some b =>
        getBitmapImageData_loop nTotalImagesize (i + 3) ((data.set i b).set (i + 2) charTemp)
  else some data
termination_by nTotalImagesize - i
decreasing_by omega

end GLXSample

namespace BasicCollision

lemma vector3f_ext {α : Type} {a b : vector3f α} (hx : a.x = b.x) (hy : a.y = b.y)
    (hz : a.z = b.z) : a = b := by
  cases a; cases b; simp only [vector3f.mk.injEq]; exact ⟨hx, hy, hz⟩

section OpsLemmas

variable {α : Type} [LinearOrderedField α]

@[simp] lemma sub_x (a b : vector3f α) : (a - b).x = a.x - b.x := rfl

@[simp] lemma sub_y (a b : vector3f α) : (a - b).y = a.y - b.y := rfl

@[simp] lemma sub_z (a b : vector3f α) : (a - b).z = a.z - b.z := rfl

lemma dotProduct_comm (a b : vector3f α) : dotProduct a b = dotProduct b a := by
  simp only [dotProduct]; ring

lemma dotProduct_self_nonneg (a : vector3f α) : 0 ≤ dotProduct a a := by
  simp only [dotProduct]; nlinarith [mul_self_nonneg a.x, mul_self_nonneg a.y, mul_self_nonneg a.z]

lemma dotProduct_self_eq_zero {a : vector3f α} (h : dotProduct a a = 0) :
    a.x = 0 ∧ a.y = 0 ∧ a.z = 0 := by
  simp only [dotProduct] at h
  have hx := mul_self_nonneg a.x
  have hy := mul_self_nonneg a.y
  have hz := mul_self_nonneg a.z
  refine ⟨?_, ?_, ?_⟩ <;> apply mul_self_eq_zero.1 <;> linarith

lemma dotProduct_sub_self_pos {a b : vector3f α} (h : a ≠ b) :
    0 < dotProduct (a - b) (a - b) := by
  rcases (dotProduct_self_nonneg (a - b)).lt_or_eq with h' | h'
  · exact h'
  · exfalso
    obtain ⟨hx, hy, hz⟩ := dotProduct_self_eq_zero h'.symm
    simp only [sub_x, sub_y, sub_z] at hx hy hz
    exact h (vector3f_ext (sub_eq_zero.1 hx) (sub_eq_zero.1 hy) (sub_eq_zero.1 hz))

end OpsLemmas

/-! ## Bounding sphere and broad phase -/

/-- The running maximum kept in `fRadius1` dominates its three candidates. -/
lemma running_max_ge {α : Type} [LinearOrderedField α] (a b c : α) :
    a ≤ (if (if a < b then b else a) < c then c else (if a < b then b else a)) ∧
    b ≤ (if (if a < b then b else a) < c then c else (if a < b then b else a)) ∧
    c ≤ (if (if a < b then b else a) < c then c else (if a < b then b else a)) := by
  refine ⟨?_, ?_, ?_⟩ <;> split_ifs <;> linarith

/-- The radius chosen by `createBoundingSphere` dominates the three candidate
distances, for any `sqrt`. -/
lemma createBoundingSphere_radius_ge {α : Type} [LinearOrderedField α] (sqrt : α → α)
    (tri : triangle α) :
    let t := createBoundingSphere sqrt tri
    sqrt ((t.vCenter.x - t.v0.x) * (t.vCenter.x - t.v0.x) +
          (t.vCenter.y - t.v0.y) * (t.vCenter.y - t.v0.y) +
          (t.vCenter.z - t.v0.z) * (t.vCenter.z - t.v0.z)) ≤ t.fRadius ∧
    sqrt ((t.vCenter.x - t.v1.x) * (t.vCenter.x - t.v1.x) +
          (t.vCenter.y - t.v1.y) * (t.vCenter.y - t.v1.y) +
          (t.vCenter.z - t.v1.z) * (t.vCenter.z - t.v1.z)) ≤ t.fRadius ∧
    sqrt ((t.vCenter.x - t.v2.x) * (t.vCenter.x - t.v2.x) +
          (t.vCenter.y - t.v2.y) * (t.vCenter.y - t.v2.y) +
          (t.vCenter.z - t.v2.z) * (t.vCenter.z - t.v2.z)) ≤ t.fRadius :=
  running_max_ge _ _ _

lemma distSq_eq_mul {α : Type} [LinearOrderedField α] (a b : vector3f α) :
    distSq a b = (a.x - b.x) * (a.x - b.x) + (a.y - b.y) * (a.y - b.y) +
      (a.z - b.z) * (a.z - b.z) := by
  simp only [distSq]; ring

/-- C1. After `createBoundingSphere`, the Euclidean distance from `vCenter` to
each of the three vertices is at most `fRadius` (exact real arithmetic). -/
theorem createBoundingSphere_contains_vertices (tri : triangle ℝ) :
    Real.sqrt (distSq (createBoundingSphere Real.sqrt tri).vCenter
        (createBoundingSphere Real.sqrt tri).v0) ≤ (createBoundingSphere Real.sqrt tri).fRadius ∧
    Real.sqrt (distSq (createBoundingSphere Real.sqrt tri).vCenter
        (createBoundingSphere Real.sqrt tri).v1) ≤ (createBoundingSphere Real.sqrt tri).fRadius ∧
    Real.sqrt (distSq (createBoundingSphere Real.sqrt tri).vCenter
        (createBoundingSphere Real.sqrt tri).v2) ≤ (createBoundingSphere Real.sqrt tri).fRadius := by
  simp only [distSq_eq_mul]
  exact createBoundingSphere_radius_ge Real.sqrt tri

/-- The flag returned by `doSpheresIntersect`, for any `sqrt`. -/
lemma doSpheresIntersect_eq_true_iff {α : Type} [LinearOrderedField α] (sqrt : α → α)
    (tri1 tri2 : triangle α) :
    doSpheresIntersect sqrt tri1 tri2 = true ↔
      sqrt ((tri2.vCenter.x - tri1.vCenter.x) * (tri2.vCenter.x - tri1.vCenter.x) +
            (tri2.vCenter.y - tri1.vCenter.y) * (tri2.vCenter.y - tri1.vCenter.y) +
            (tri2.vCenter.z - tri1.vCenter.z) * (tri2.vCenter.z - tri1.vCenter.z))
        < tri1.fRadius + tri2.fRadius := by
  simp only [doSpheresIntersect]
  split_ifs with h <;> simp [h]

lemma distSq_comm {α : Type} [LinearOrderedField α] (a b : vector3f α) :
    distSq a b = distSq b a := by
  simp only [distSq]; ring

/-- With `Real.sqrt`, `doSpheresIntersect` compares the Euclidean distance of the
centres with the sum of the radii. -/
lemma doSpheresIntersect_real_iff (tri1 tri2 : triangle ℝ) :
    doSpheresIntersect Real.sqrt tri1 tri2 = true ↔
      Real.sqrt (distSq tri1.vCenter tri2.vCenter) < tri1.fRadius + tri2.fRadius := by
  rw [doSpheresIntersect_eq_true_iff, distSq_comm, distSq_eq_mul]

/-- C2. `doSpheresIntersect` returns true exactly when the Euclidean distance `d`
between the two centres satisfies `d < r1 + r2`; when `d = r1 + r2` (tangent
spheres) it returns false. -/
theorem doSpheresIntersect_iff_dist_lt (tri1 tri2 : triangle ℝ) :
    (doSpheresIntersect Real.sqrt tri1 tri2 = true ↔
      Real.sqrt (distSq tri1.vCenter tri2.vCenter) < tri1.fRadius + tri2.fRadius) ∧
    (Real.sqrt (distSq tri1.vCenter tri2.vCenter) = tri1.fRadius + tri2.fRadius →
      doSpheresIntersect Real.sqrt tri1 tri2 = false) := by
  refine ⟨doSpheresIntersect_real_iff tri1 tri2, fun h => ?_⟩
  rw [← Bool.not_eq_true, doSpheresIntersect_real_iff, h]
  exact lt_irrefl _

/-- The distance between the centres of `sphereAt 0 1` and `sphereAt 2 1` is 2. -/
lemma sphereAt_dist :
    Real.sqrt (distSq (sphereAt (0 : ℝ) 1).vCenter (sphereAt (2 : ℝ) 1).vCenter) = 2 := by
  have h : distSq (sphereAt (0 : ℝ) 1).vCenter (sphereAt (2 : ℝ) 1).vCenter = 2 * 2 := by
    simp only [distSq, sphereAt]; norm_num
  rw [h, Real.sqrt_mul_self (by norm_num)]

/-- C3, counterexample. Two unit spheres with centres `(0,0,0)` and `(2,0,0)` touch
(distance 2 = 1 + 1), yet `doSpheresIntersect` returns false: the claimed
equivalence with `d ≤ r1 + r2` fails there. -/
theorem doSpheresIntersect_touching_not_le :
    0 ≤ (sphereAt (0 : ℝ) 1).fRadius ∧ 0 ≤ (sphereAt (2 : ℝ) 1).fRadius ∧
    ¬ (doSpheresIntersect Real.sqrt (sphereAt (0 : ℝ) 1) (sphereAt (2 : ℝ) 1) = true ↔
        Real.sqrt (distSq (sphereAt (0 : ℝ) 1).vCenter (sphereAt (2 : ℝ) 1).vCenter)
          ≤ (sphereAt (0 : ℝ) 1).fRadius + (sphereAt (2 : ℝ) 1).fRadius) := by
  refine ⟨by simp [sphereAt], by simp [sphereAt], ?_⟩
  rw [doSpheresIntersect_real_iff, sphereAt_dist]
  simp only [sphereAt]
  norm_num

/-- C3, amended. For every pair of bounding volumes (whatever the radii, so in
particular for radii `≥ 0`), `doSpheresIntersect` returns true exactly when the
distance of the centres is strictly less than the sum of the radii; among the
closed spheres that overlap or touch (`d ≤ r1 + r2`) it returns false exactly
for the ones that only touch (`d = r1 + r2`). -/
theorem doSpheresIntersect_strict_overlap (tri1 tri2 : triangle ℝ) :
    (doSpheresIntersect Real.sqrt tri1 tri2 = true ↔
      Real.sqrt (distSq tri1.vCenter tri2.vCenter) < tri1.fRadius + tri2.fRadius) ∧
    (Real.sqrt (distSq tri1.vCenter tri2.vCenter) ≤ tri1.fRadius + tri2.fRadius →
      (doSpheresIntersect Real.sqrt tri1 tri2 = false ↔
        Real.sqrt (distSq tri1.vCenter tri2.vCenter) = tri1.fRadius + tri2.fRadius)) := by
  refine ⟨doSpheresIntersect_real_iff tri1 tri2, fun hle => ?_⟩
  rw [← Bool.not_eq_true, doSpheresIntersect_real_iff, not_lt]
  exact ⟨fun h => le_antisymm hle h, fun h => h.ge⟩

/-- C4. `doSpheresIntersect` is symmetric in its two triangles, whatever `sqrt`
computes. -/
theorem doSpheresIntersect_comm {α : Type} [LinearOrderedField α] (sqrt : α → α)
    (A B : triangle α) :
    doSpheresIntersect sqrt A B = doSpheresIntersect sqrt B A := by
  have h : ∀ X Y : triangle α,
      (Y.vCenter.x - X.vCenter.x) * (Y.vCenter.x - X.vCenter.x) +
      (Y.vCenter.y - X.vCenter.y) * (Y.vCenter.y - X.vCenter.y) +
      (Y.vCenter.z - X.vCenter.z) * (Y.vCenter.z - X.vCenter.z) =
      (X.vCenter.x - Y.vCenter.x) * (X.vCenter.x - Y.vCenter.x) +
      (X.vCenter.y - Y.vCenter.y) * (X.vCenter.y - Y.vCenter.y) +
      (X.vCenter.z - Y.vCenter.z) * (X.vCenter.z - Y.vCenter.z) := by
    intro X Y; ring
  rw [Bool.eq_iff_iff, doSpheresIntersect_eq_true_iff, doSpheresIntersect_eq_true_iff,
    h A B, add_comm A.fRadius B.fRadius]

/-! ## Line segment against plane -/

/-- The body of `getLinePlaneIntersectionPoint` with its locals written out in
terms of `dotProduct` and vector subtraction. -/
lemma getLinePlaneIntersectionPoint_eq {α : Type} [LinearOrderedField α]
    (vLineStart vLineEnd vPointInPlane vPlaneNormal vIntersection : vector3f α) :
    getLinePlaneIntersectionPoint vLineStart vLineEnd vPointInPlane vPlaneNormal
        vIntersection =
      if |dotProduct (vLineEnd - vLineStart) vPlaneNormal| < 0.001 then (false, vIntersection)
      else if (dotProduct (vPointInPlane - vLineStart) vPlaneNormal /
            dotProduct (vLineEnd - vLineStart) vPlaneNormal < 0 ∨
          dotProduct (vPointInPlane - vLineStart) vPlaneNormal /
            dotProduct (vLineEnd - vLineStart) vPlaneNormal > 1) then (false, vIntersection)
      else (true,
        ⟨vLineStart.x + (vLineEnd.x - vLineStart.x) *
          (dotProduct (vPointInPlane - vLineStart) vPlaneNormal /
            dotProduct (vLineEnd - vLineStart) vPlaneNormal),
         vLineStart.y + (vLineEnd.y - vLineStart.y) *
          (dotProduct (vPointInPlane - vLineStart) vPlaneNormal /
            dotProduct (vLineEnd - vLineStart) vPlaneNormal),
         vLineStart.z + (vLineEnd.z - vLineStart.z) *
          (dotProduct (vPointInPlane - vLineStart) vPlaneNormal /
            dotProduct (vLineEnd - vLineStart) vPlaneNormal)⟩) :=
  rfl

/-- The flag returned by `getLinePlaneIntersectionPoint`. -/
lemma getLinePlaneIntersectionPoint_fst_iff {α : Type} [LinearOrderedField α]
    (vLineStart vLineEnd vPointInPlane vPlaneNormal vIntersection : vector3f α) :
    (getLinePlaneIntersectionPoint vLineStart vLineEnd vPointInPlane vPlaneNormal
        vIntersection).1 = true ↔
      ¬ |dotProduct (vLineEnd - vLineStart) vPlaneNormal| < 0.001 ∧
      ¬ (dotProduct (vPointInPlane - vLineStart) vPlaneNormal /
            dotProduct (vLineEnd - vLineStart) vPlaneNormal < 0 ∨
          dotProduct (vPointInPlane - vLineStart) vPlaneNormal /
            dotProduct (vLineEnd - vLineStart) vPlaneNormal > 1) := by
  rw [getLinePlaneIntersectionPoint_eq]
  split_ifs with h1 h2
  · simp [h1]
  · simp only [Bool.false_eq_true, false_iff, not_and, not_not]
    exact fun _ => h2
  · simp only [true_iff]
    exact ⟨h1, h2⟩

/-- The point left in `vIntersection` when `getLinePlaneIntersectionPoint`
returns true. -/
lemma getLinePlaneIntersectionPoint_snd {α : Type} [LinearOrderedField α]
    (vLineStart vLineEnd vPointInPlane vPlaneNormal vIntersection : vector3f α)
    (h : (getLinePlaneIntersectionPoint vLineStart vLineEnd vPointInPlane vPlaneNormal
        vIntersection).1 = true) :
    (getLinePlaneIntersectionPoint vLineStart vLineEnd vPointInPlane vPlaneNormal
        vIntersection).2 =
      ⟨vLineStart.x + (vLineEnd.x - vLineStart.x) *
          (dotProduct (vPointInPlane - vLineStart) vPlaneNormal /
            dotProduct (vLineEnd - vLineStart) vPlaneNormal),
       vLineStart.y + (vLineEnd.y - vLineStart.y) *
          (dotProduct (vPointInPlane - vLineStart) vPlaneNormal /
            dotProduct (vLineEnd - vLineStart) vPlaneNormal),
       vLineStart.z + (vLineEnd.z - vLineStart.z) *
          (dotProduct (vPointInPlane - vLineStart) vPlaneNormal /
            dotProduct (vLineEnd - vLineStart) vPlaneNormal)⟩ := by
  have h' := (getLinePlaneIntersectionPoint_fst_iff _ _ _ _ _).1 h
  rw [getLinePlaneIntersectionPoint_eq, if_neg h'.1, if_neg h'.2]

/-- C5. With `denom = dot (end - start) n` and `t = dot (p - start) n / denom`,
`getLinePlaneIntersectionPoint` returns true exactly when `|denom| ≥ 0.001` and
`0 ≤ t ≤ 1`. So `t = 0` and `t = 1` are accepted (when `|denom| ≥ 0.001`), and a
segment with `denom = 0` is rejected wherever it is, also when both its endpoints
lie in the plane. -/
theorem getLinePlaneIntersectionPoint_true_iff (vLineStart vLineEnd vPointInPlane
    vPlaneNormal vIntersection : vector3f ℝ) :
    ((getLinePlaneIntersectionPoint vLineStart vLineEnd vPointInPlane vPlaneNormal
        vIntersection).1 = true ↔
      (0.001 ≤ |dotProduct (vLineEnd - vLineStart) vPlaneNormal| ∧
        0 ≤ dotProduct (vPointInPlane - vLineStart) vPlaneNormal /
              dotProduct (vLineEnd - vLineStart) vPlaneNormal ∧
        dotProduct (vPointInPlane - vLineStart) vPlaneNormal /
              dotProduct (vLineEnd - vLineStart) vPlaneNormal ≤ 1)) ∧
    (0.001 ≤ |dotProduct (vLineEnd - vLineStart) vPlaneNormal| →
      (dotProduct (vPointInPlane - vLineStart) vPlaneNormal /
          dotProduct (vLineEnd - vLineStart) vPlaneNormal = 0 ∨
        dotProduct (vPointInPlane - vLineStart) vPlaneNormal /
          dotProduct (vLineEnd - vLineStart) vPlaneNormal = 1) →
      (getLinePlaneIntersectionPoint vLineStart vLineEnd vPointInPlane vPlaneNormal
        vIntersection).1 = true) ∧
    (dotProduct (vLineEnd - vLineStart) vPlaneNormal = 0 →
      (getLinePlaneIntersectionPoint vLineStart vLineEnd vPointInPlane vPlaneNormal
        vIntersection).1 = false) ∧
    (dotProduct (vLineEnd - vLineStart) vPlaneNormal = 0 →
      dotProduct (vLineStart - vPointInPlane) vPlaneNormal = 0 →
      dotProduct (vLineEnd - vPointInPlane) vPlaneNormal = 0 →
      (getLinePlaneIntersectionPoint vLineStart vLineEnd vPointInPlane vPlaneNormal
        vIntersection).1 = false) := by
  have key := getLinePlaneIntersectionPoint_fst_iff vLineStart vLineEnd vPointInPlane
    vPlaneNormal vIntersection
  have hz : dotProduct (vLineEnd - vLineStart) vPlaneNormal = 0 →
      (getLinePlaneIntersectionPoint vLineStart vLineEnd vPointInPlane vPlaneNormal
        vIntersection).1 = false := by
    intro h0
    rw [← Bool.not_eq_true, key, h0]
    norm_num
  refine ⟨?_, ?_, hz, fun h0 _ _ => hz h0⟩
  · rw [key, not_lt, not_or, not_lt, not_lt]
  · intro hd ht
    rw [key, not_lt, not_or, not_lt, not_lt]
    rcases ht with ht | ht <;> rw [ht] <;> exact ⟨hd, by norm_num, by norm_num⟩

/-- C6. Whenever `getLinePlaneIntersectionPoint` returns true, the point `q` it
leaves in `vIntersection` is `start + t * (end - start)` with
`t = dot (p - start) n / dot (end - start) n`; `0 ≤ t ≤ 1`, so `q` is on the closed
segment; and `q` lies in the plane: `dot (q - p) n = 0`. -/
theorem getLinePlaneIntersectionPoint_point (vLineStart vLineEnd vPointInPlane
    vPlaneNormal vIntersection : vector3f ℝ)
    (h : (getLinePlaneIntersectionPoint vLineStart vLineEnd vPointInPlane vPlaneNormal
        vIntersection).1 = true) :
    (getLinePlaneIntersectionPoint vLineStart vLineEnd vPointInPlane vPlaneNormal
        vIntersection).2 =
      ⟨vLineStart.x + dotProduct (vPointInPlane - vLineStart) vPlaneNormal /
          dotProduct (vLineEnd - vLineStart) vPlaneNormal * (vLineEnd.x - vLineStart.x),
       vLineStart.y + dotProduct (vPointInPlane - vLineStart) vPlaneNormal /
          dotProduct (vLineEnd - vLineStart) vPlaneNormal * (vLineEnd.y - vLineStart.y),
       vLineStart.z + dotProduct (vPointInPlane - vLineStart) vPlaneNormal /
          dotProduct (vLineEnd - vLineStart) vPlaneNormal * (vLineEnd.z - vLineStart.z)⟩ ∧
    0 ≤ dotProduct (vPointInPlane - vLineStart) vPlaneNormal /
          dotProduct (vLineEnd - vLineStart) vPlaneNormal ∧
    dotProduct (vPointInPlane - vLineStart) vPlaneNormal /
          dotProduct (vLineEnd - vLineStart) vPlaneNormal ≤ 1 ∧
    dotProduct ((getLinePlaneIntersectionPoint vLineStart vLineEnd vPointInPlane vPlaneNormal
        vIntersection).2 - vPointInPlane) vPlaneNormal = 0 := by
  have h' := (getLinePlaneIntersectionPoint_fst_iff _ _ _ _ _).1 h
  rw [not_lt, not_or, not_lt, not_lt] at h'
  obtain ⟨hd, ht0, ht1⟩ := h'
  have hne : dotProduct (vLineEnd - vLineStart) vPlaneNormal ≠ 0 := by
    intro h0
    rw [h0, abs_zero] at hd
    norm_num at hd
  rw [getLinePlaneIntersectionPoint_snd _ _ _ _ _ h]
  refine ⟨?_, ht0, ht1, ?_⟩
  · simp only [mul_comm]
  · have hsub : ∀ a b : vector3f ℝ, a - b = ⟨a.x - b.x, a.y - b.y, a.z - b.z⟩ := fun _ _ => rfl
    simp only [hsub, dotProduct] at hne ⊢
    field_simp
    ring

/-- C6 at the segment from `(0,0,-1)` to `(0,0,1)` and the plane `z = 0`. -/
theorem getLinePlaneIntersectionPoint_point_witness :
    (getLinePlaneIntersectionPoint (⟨0, 0, -1⟩ : vector3f ℝ) ⟨0, 0, 1⟩ ⟨0, 0, 0⟩ ⟨0, 0, 1⟩
        ⟨0, 0, 0⟩).1 = true ∧
    dotProduct ((getLinePlaneIntersectionPoint (⟨0, 0, -1⟩ : vector3f ℝ) ⟨0, 0, 1⟩ ⟨0, 0, 0⟩
        ⟨0, 0, 1⟩ ⟨0, 0, 0⟩).2 - ⟨0, 0, 0⟩) ⟨0, 0, 1⟩ = 0 :=
  have h : (getLinePlaneIntersectionPoint (⟨0, 0, -1⟩ : vector3f ℝ) ⟨0, 0, 1⟩ ⟨0, 0, 0⟩
      ⟨0, 0, 1⟩ ⟨0, 0, 0⟩).1 = true := by
    rw [getLinePlaneIntersectionPoint_fst_iff]
    norm_num [dotProduct]
  ⟨h, (getLinePlaneIntersectionPoint_point _ _ _ _ _ h).2.2.2⟩

/-! ## Point in triangle -/

/-- With `Real.sqrt`, `length` of a non-zero vector is positive and squares to the
dot product of the vector with itself. -/
lemma length_real (a : vector3f ℝ) : length Real.sqrt a = Real.sqrt (dotProduct a a) := rfl

/-- For a non-zero `d`, `normalize Real.sqrt d` is the unit vector in the direction
of `d`. -/
lemma normalize_isUnitDir {d : vector3f ℝ} (hd : 0 < dotProduct d d) :
    IsUnitDir (normalize Real.sqrt d) d := by
  have hs : 0 < Real.sqrt (dotProduct d d) := Real.sqrt_pos.2 hd
  have hsq : Real.sqrt (dotProduct d d) * Real.sqrt (dotProduct d d) = dotProduct d d :=
    Real.mul_self_sqrt hd.le
  refine ⟨⟨(Real.sqrt (dotProduct d d))⁻¹, inv_pos.2 hs, ?_, ?_, ?_⟩, ?_⟩
  · simp only [normalize, length_real]; rw [div_eq_inv_mul]
  · simp only [normalize, length_real]; rw [div_eq_inv_mul]
  · simp only [normalize, length_real]; rw [div_eq_inv_mul]
  · simp only [normalize, length_real]
    have h1 : dotProduct (⟨d.x / Real.sqrt (dotProduct d d), d.y / Real.sqrt (dotProduct d d),
        d.z / Real.sqrt (dotProduct d d)⟩ : vector3f ℝ) ⟨d.x / Real.sqrt (dotProduct d d),
        d.y / Real.sqrt (dotProduct d d), d.z / Real.sqrt (dotProduct d d)⟩ =
        dotProduct d d / (Real.sqrt (dotProduct d d) * Real.sqrt (dotProduct d d)) := by
      simp only [dotProduct]
      field_simp
    rw [h1, hsq, div_self hd.ne']

/-- The unit vector in a given direction is unique: it is what `normalize`
computes. -/
lemma IsUnitDir.eq_normalize {u d : vector3f ℝ} (h : IsUnitDir u d) :
    u = normalize Real.sqrt d := by
  obtain ⟨⟨k, hk, hx, hy, hz⟩, hu⟩ := h
  have hdd : dotProduct d d = (k⁻¹) ^ 2 := by
    have h1 : k ^ 2 * dotProduct d d = 1 := by
      rw [← hu]; simp only [dotProduct, hx, hy, hz]; ring
    field_simp
    linarith
  have hs : Real.sqrt (dotProduct d d) = k⁻¹ := by
    rw [hdd, Real.sqrt_sq (inv_pos.2 hk).le]
  apply vector3f_ext
  · simp only [normalize, length_real, hs, hx, div_inv_eq_mul, mul_comm]
  · simp only [normalize, length_real, hs, hy, div_inv_eq_mul, mul_comm]
  · simp only [normalize, length_real, hs, hz, div_inv_eq_mul, mul_comm]

/-- The flag returned by `isPointInsideTriangle`. -/
lemma isPointInsideTriangle_eq_true_iff {α : Type} [LinearOrderedField α] (sqrt acos : α → α)
    (P : vector3f α) (tri : triangle α) :
    isPointInsideTriangle sqrt acos P tri = true ↔
      |acos (dotProduct (normalize sqrt (P - tri.v0)) (normalize sqrt (P - tri.v1))) +
        acos (dotProduct (normalize sqrt (P - tri.v1)) (normalize sqrt (P - tri.v2))) +
        acos (dotProduct (normalize sqrt (P - tri.v2)) (normalize sqrt (P - tri.v0))) - 6.28|
        < 0.01 := by
  simp only [isPointInsideTriangle]
  split_ifs with h <;> simp [h]

/-- C7. For a point `P` distinct from the three vertices, the vectors that
`isPointInsideTriangle` normalizes are the unit vectors in the directions
`P - vi`, and for the unit vectors `u0 u1 u2` in these directions the function
returns true exactly when `|S - 6.28| < 0.01`, where
`S = arccos (u0 . u1) + arccos (u1 . u2) + arccos (u2 . u0)`. -/
theorem isPointInsideTriangle_iff_angle_sum (P : vector3f ℝ) (tri : triangle ℝ)
    (h0 : P ≠ tri.v0) (h1 : P ≠ tri.v1) (h2 : P ≠ tri.v2) :
    (IsUnitDir (normalize Real.sqrt (P - tri.v0)) (P - tri.v0) ∧
      IsUnitDir (normalize Real.sqrt (P - tri.v1)) (P - tri.v1) ∧
      IsUnitDir (normalize Real.sqrt (P - tri.v2)) (P - tri.v2)) ∧
    ∀ u0 u1 u2 : vector3f ℝ,
      IsUnitDir u0 (P - tri.v0) → IsUnitDir u1 (P - tri.v1) → IsUnitDir u2 (P - tri.v2) →
      (isPointInsideTriangle Real.sqrt Real.arccos P tri = true ↔
        |Real.arccos (dotProduct u0 u1) + Real.arccos (dotProduct u1 u2) +
          Real.arccos (dotProduct u2 u0) - 6.28| < 0.01) := by
  refine ⟨⟨normalize_isUnitDir (dotProduct_sub_self_pos h0),
    normalize_isUnitDir (dotProduct_sub_self_pos h1),
    normalize_isUnitDir (dotProduct_sub_self_pos h2)⟩, ?_⟩
  intro u0 u1 u2 hu0 hu1 hu2
  rw [hu0.eq_normalize, hu1.eq_normalize, hu2.eq_normalize, isPointInsideTriangle_eq_true_iff]

/-- C7 at the first default triangle of the sample and the point `(0,0,1)`. -/
theorem isPointInsideTriangle_iff_angle_sum_witness :
    ((⟨0, 0, 1⟩ : vector3f ℝ) ≠ (triangleOf ⟨1, -1, 1⟩ ⟨-1, 1, 1⟩ ⟨-3, -1, 1⟩).v0 ∧
      (⟨0, 0, 1⟩ : vector3f ℝ) ≠ (triangleOf ⟨1, -1, 1⟩ ⟨-1, 1, 1⟩ ⟨-3, -1, 1⟩).v1 ∧
      (⟨0, 0, 1⟩ : vector3f ℝ) ≠ (triangleOf ⟨1, -1, 1⟩ ⟨-1, 1, 1⟩ ⟨-3, -1, 1⟩).v2) ∧
    ∀ u0 u1 u2 : vector3f ℝ,
      IsUnitDir u0 (⟨0, 0, 1⟩ - (triangleOf ⟨1, -1, 1⟩ ⟨-1, 1, 1⟩ ⟨-3, -1, 1⟩).v0) →
      IsUnitDir u1 (⟨0, 0, 1⟩ - (triangleOf ⟨1, -1, 1⟩ ⟨-1, 1, 1⟩ ⟨-3, -1, 1⟩).v1) →
      IsUnitDir u2 (⟨0, 0, 1⟩ - (triangleOf ⟨1, -1, 1⟩ ⟨-1, 1, 1⟩ ⟨-3, -1, 1⟩).v2) →
      (isPointInsideTriangle Real.sqrt Real.arccos ⟨0, 0, 1⟩
          (triangleOf ⟨1, -1, 1⟩ ⟨-1, 1, 1⟩ ⟨-3, -1, 1⟩) = true ↔
        |Real.arccos (dotProduct u0 u1) + Real.arccos (dotProduct u1 u2) +
          Real.arccos (dotProduct u2 u0) - 6.28| < 0.01) :=
  have h0 : (⟨0, 0, 1⟩ : vector3f ℝ) ≠ (triangleOf ⟨1, -1, 1⟩ ⟨-1, 1, 1⟩ ⟨-3, -1, 1⟩).v0 := by
    simp [triangleOf]
  have h1 : (⟨0, 0, 1⟩ : vector3f ℝ) ≠ (triangleOf ⟨1, -1, 1⟩ ⟨-1, 1, 1⟩ ⟨-3, -1, 1⟩).v1 := by
    simp [triangleOf]
  have h2 : (⟨0, 0, 1⟩ : vector3f ℝ) ≠ (triangleOf ⟨1, -1, 1⟩ ⟨-1, 1, 1⟩ ⟨-3, -1, 1⟩).v2 := by
    simp [triangleOf]
  ⟨⟨h0, h1, h2⟩, (isPointInsideTriangle_iff_angle_sum _ _ h0 h1 h2).2⟩

/-! ### The angle sum at an interior point -/

lemma inner_toE (a b : vector3f ℝ) : inner (toE a) (toE b) = dotProduct a b := by
  simp [toE, dotProduct, PiLp.inner_apply, Fin.sum_univ_three]

lemma norm_toE (a : vector3f ℝ) : ‖toE a‖ = Real.sqrt (dotProduct a a) := by
  rw [norm_eq_sqrt_real_inner, inner_toE]

lemma toE_eq_zero {a : vector3f ℝ} (h : toE a = 0) : a = ⟨0, 0, 0⟩ := by
  have hn : ‖toE a‖ = 0 := by rw [h, norm_zero]
  rw [norm_toE, Real.sqrt_eq_zero (dotProduct_self_nonneg a)] at hn
  obtain ⟨hx, hy, hz⟩ := dotProduct_self_eq_zero hn
  exact vector3f_ext hx hy hz

/-- The angle that `isPointInsideTriangle` computes from two normalized vectors is
the angle between the two vectors. -/
lemma arccos_dotProduct_normalize (a b : vector3f ℝ) :
    Real.arccos (dotProduct (normalize Real.sqrt a) (normalize Real.sqrt b)) =
      InnerProductGeometry.angle (toE a) (toE b) := by
  unfold InnerProductGeometry.angle
  rw [inner_toE, norm_toE, norm_toE]
  congr 1
  simp only [normalize, length_real, dotProduct]
  ring

/-- Inside the cone spanned by `x` and `y` the angle is additive. -/
lemma angle_add_of_pos_comb {V : Type} [NormedAddCommGroup V] [InnerProductSpace ℝ V]
    (x y : V) {a b : ℝ} (ha : 0 < a) (hb : 0 < b) (hx : x ≠ 0) (hw : a • x + b • y ≠ 0) :
    InnerProductGeometry.angle x (a • x + b • y) +
      InnerProductGeometry.angle (a • x + b • y) y = InnerProductGeometry.angle x y := by
  have h := InnerProductGeometry.angle_add_angle_sub_add_angle_sub_eq_pi
    (smul_ne_zero ha.ne' hx) hw
  rw [sub_add_cancel_left, add_sub_cancel_left, InnerProductGeometry.angle_neg_right,
    InnerProductGeometry.angle_smul_left_of_pos _ _ ha,
    InnerProductGeometry.angle_smul_left_of_pos _ _ ha,
    InnerProductGeometry.angle_smul_right_of_pos _ _ hb,
    InnerProductGeometry.angle_smul_right_of_pos _ _ hb] at h
  linarith

/-- Three vectors with a vanishing positive combination are seen under angles that
add up to a full turn. -/
lemma angle_sum_of_pos_comb_eq_zero {V : Type} [NormedAddCommGroup V] [InnerProductSpace ℝ V]
    (x y z : V) {a b c : ℝ} (ha : 0 < a) (hb : 0 < b) (hc : 0 < c)
    (h : a • x + b • y + c • z = 0) (hx : x ≠ 0) (hz : z ≠ 0) :
    InnerProductGeometry.angle x y + InnerProductGeometry.angle y z +
      InnerProductGeometry.angle z x = 2 * Real.pi := by
  have hw : a • x + b • y = -(c • z) := eq_neg_of_add_eq_zero_left h
  have hw0 : a • x + b • y ≠ 0 := by
    rw [hw]; exact neg_ne_zero.2 (smul_ne_zero hc.ne' hz)
  have hadd := angle_add_of_pos_comb x y ha hb hx hw0
  have hyz : InnerProductGeometry.angle y z =
      Real.pi - InnerProductGeometry.angle (a • x + b • y) y := by
    rw [hw, InnerProductGeometry.angle_neg_left,
      InnerProductGeometry.angle_smul_left_of_pos _ _ hc, InnerProductGeometry.angle_comm z y]
    ring
  have hzx : InnerProductGeometry.angle z x =
      Real.pi - InnerProductGeometry.angle x (a • x + b • y) := by
    rw [hw, InnerProductGeometry.angle_neg_right,
      InnerProductGeometry.angle_smul_right_of_pos _ _ hc, InnerProductGeometry.angle_comm z x]
    ring
  rw [hyz, hzx]
  linarith

lemma toE_sub_smul_sum {P : vector3f ℝ} {tri : triangle ℝ} {a b c : ℝ}
    (h : IsCombination P tri a b c) :
    a • toE (P - tri.v0) + b • toE (P - tri.v1) + c • toE (P - tri.v2) = 0 := by
  obtain ⟨hsum, hx, hy, hz⟩ := h
  ext i
  fin_cases i
  · simp only [toE, sub_x, sub_y, sub_z, Fin.zero_eta, Fin.isValue, PiLp.add_apply,
      PiLp.smul_apply, Matrix.cons_val_zero, smul_eq_mul, PiLp.zero_apply]
    linear_combination P.x * hsum + hx
  · simp only [toE, sub_x, sub_y, sub_z, Fin.mk_one, Fin.isValue, PiLp.add_apply,
      PiLp.smul_apply, Matrix.cons_val_one, Matrix.head_cons, smul_eq_mul, PiLp.zero_apply]
    linear_combination P.y * hsum + hy
  · simp only [toE, sub_x, sub_y, sub_z, Fin.reduceFinMk, Fin.isValue, PiLp.add_apply,
      PiLp.smul_apply, Matrix.cons_val_two, Matrix.tail_cons, Matrix.head_cons, smul_eq_mul,
      PiLp.zero_apply]
    linear_combination P.z * hsum + hz

/-- A point strictly inside a non-degenerate triangle is not the vertex `v0`. -/
lemma ne_v0_of_strictlyInside {P : vector3f ℝ} {tri : triangle ℝ} {a b c : ℝ}
    (hnd : NonDegenerate tri) (hb : 0 < b) (h : IsCombination P tri a b c) : P ≠ tri.v0 := by
  obtain ⟨hsum, hx, hy, hz⟩ := h
  intro hP
  apply hnd
  have ex : b * (tri.v1.x - tri.v0.x) + c * (tri.v2.x - tri.v0.x) = 0 := by
    rw [hP] at hx; linear_combination (-tri.v0.x) * hsum - hx
  have ey : b * (tri.v1.y - tri.v0.y) + c * (tri.v2.y - tri.v0.y) = 0 := by
    rw [hP] at hy; linear_combination (-tri.v0.y) * hsum - hy
  have ez : b * (tri.v1.z - tri.v0.z) + c * (tri.v2.z - tri.v0.z) = 0 := by
    rw [hP] at hz; linear_combination (-tri.v0.z) * hsum - hz
  apply vector3f_ext
  · apply (mul_eq_zero.1 _).resolve_left hb.ne'
    simp only [crossProduct, sub_x, sub_y, sub_z]
    linear_combination (tri.v2.z - tri.v0.z) * ey - (tri.v2.y - tri.v0.y) * ez
  · apply (mul_eq_zero.1 _).resolve_left hb.ne'
    simp only [crossProduct, sub_x, sub_y, sub_z]
    linear_combination (tri.v2.x - tri.v0.x) * ez - (tri.v2.z - tri.v0.z) * ex
  · apply (mul_eq_zero.1 _).resolve_left hb.ne'
    simp only [crossProduct, sub_x, sub_y, sub_z]
    linear_combination (tri.v2.y - tri.v0.y) * ex - (tri.v2.x - tri.v0.x) * ey

/-- A point strictly inside a non-degenerate triangle is not the vertex `v2`. -/
lemma ne_v2_of_strictlyInside {P : vector3f ℝ} {tri : triangle ℝ} {a b c : ℝ}
    (hnd : NonDegenerate tri) (hb : 0 < b) (h : IsCombination P tri a b c) : P ≠ tri.v2 := by
  obtain ⟨hsum, hx, hy, hz⟩ := h
  intro hP
  apply hnd
  have ex : a * (tri.v0.x - tri.v2.x) + b * (tri.v1.x - tri.v2.x) = 0 := by
    rw [hP] at hx; linear_combination (-tri.v2.x) * hsum - hx
  have ey : a * (tri.v0.y - tri.v2.y) + b * (tri.v1.y - tri.v2.y) = 0 := by
    rw [hP] at hy; linear_combination (-tri.v2.y) * hsum - hy
  have ez : a * (tri.v0.z - tri.v2.z) + b * (tri.v1.z - tri.v2.z) = 0 := by
    rw [hP] at hz; linear_combination (-tri.v2.z) * hsum - hz
  apply vector3f_ext
  · apply (mul_eq_zero.1 _).resolve_left hb.ne'
    simp only [crossProduct, sub_x, sub_y, sub_z]
    linear_combination (-(tri.v0.z - tri.v2.z)) * ey + (tri.v0.y - tri.v2.y) * ez
  · apply (mul_eq_zero.1 _).resolve_left hb.ne'
    simp only [crossProduct, sub_x, sub_y, sub_z]
    linear_combination (-(tri.v0.x - tri.v2.x)) * ez + (tri.v0.z - tri.v2.z) * ex
  · apply (mul_eq_zero.1 _).resolve_left hb.ne'
    simp only [crossProduct, sub_x, sub_y, sub_z]
    linear_combination (-(tri.v0.y - tri.v2.y)) * ex + (tri.v0.x - tri.v2.x) * ey

lemma toE_ne_zero_of_ne {a b : vector3f ℝ} (h : a ≠ b) : toE (a - b) ≠ 0 := by
  intro h0
  have h1 := toE_eq_zero h0
  apply h
  apply vector3f_ext
  · have := congrArg vector3f.x h1; simp only [sub_x] at this; linarith
  · have := congrArg vector3f.y h1; simp only [sub_y] at this; linarith
  · have := congrArg vector3f.z h1; simp only [sub_z] at this; linarith

/-- The sum of the three angles computed by `isPointInsideTriangle` at a point
strictly inside a non-degenerate triangle is a full turn. -/
lemma angle_sum_of_strictlyInside {P : vector3f ℝ} {tri : triangle ℝ}
    (hnd : NonDegenerate tri) (hin : StrictlyInside P tri) :
    Real.arccos (dotProduct (normalize Real.sqrt (P - tri.v0))
        (normalize Real.sqrt (P - tri.v1))) +
      Real.arccos (dotProduct (normalize Real.sqrt (P - tri.v1))
        (normalize Real.sqrt (P - tri.v2))) +
      Real.arccos (dotProduct (normalize Real.sqrt (P - tri.v2))
        (normalize Real.sqrt (P - tri.v0))) = 2 * Real.pi := by
  obtain ⟨a, b, c, ha, hb, hc, hcomb⟩ := hin
  rw [arccos_dotProduct_normalize, arccos_dotProduct_normalize, arccos_dotProduct_normalize]
  exact angle_sum_of_pos_comb_eq_zero _ _ _ ha hb hc (toE_sub_smul_sum hcomb)
    (toE_ne_zero_of_ne (ne_v0_of_strictlyInside hnd hb hcomb))
    (toE_ne_zero_of_ne (ne_v2_of_strictlyInside hnd hb hcomb))

lemma two_pi_in_window : |2 * Real.pi - 6.28| < (0.01 : ℝ) := by
  have h1 := Real.pi_gt_d6
  have h2 := Real.pi_lt_d6
  rw [abs_lt]
  constructor <;> norm_num at h1 h2 ⊢ <;> linarith

lemma centroid_strictlyInside (tri : triangle ℝ) : StrictlyInside (centroid tri) tri := by
  refine ⟨1 / 3, 1 / 3, 1 / 3, by norm_num, by norm_num, by norm_num, by norm_num, ?_, ?_, ?_⟩
  · simp only [centroid]; ring
  · simp only [centroid]; ring
  · simp only [centroid]; ring

/-- C8. For a non-degenerate triangle and a point `P` strictly inside it, the three
angles computed by `isPointInsideTriangle` sum to exactly `2 * pi` and the function
returns true; in particular it returns true at the centroid. -/
theorem isPointInsideTriangle_of_strictlyInside (P : vector3f ℝ) (tri : triangle ℝ)
    (hnd : NonDegenerate tri) (hin : StrictlyInside P tri) :
    Real.arccos (dotProduct (normalize Real.sqrt (P - tri.v0))
        (normalize Real.sqrt (P - tri.v1))) +
      Real.arccos (dotProduct (normalize Real.sqrt (P - tri.v1))
        (normalize Real.sqrt (P - tri.v2))) +
      Real.arccos (dotProduct (normalize Real.sqrt (P - tri.v2))
        (normalize Real.sqrt (P - tri.v0))) = 2 * Real.pi ∧
    isPointInsideTriangle Real.sqrt Real.arccos P tri = true ∧
    isPointInsideTriangle Real.sqrt Real.arccos (centroid tri) tri = true := by
  refine ⟨angle_sum_of_strictlyInside hnd hin, ?_, ?_⟩
  · rw [isPointInsideTriangle_eq_true_iff, angle_sum_of_strictlyInside hnd hin]
    exact two_pi_in_window
  · rw [isPointInsideTriangle_eq_true_iff,
      angle_sum_of_strictlyInside hnd (centroid_strictlyInside tri)]
    exact two_pi_in_window

/-- C8 at the first default triangle of the sample and its centroid
`(-1, -1/3, 1)`. -/
theorem isPointInsideTriangle_of_strictlyInside_witness :
    NonDegenerate (sampleTriangle1 : triangle ℝ) ∧
    StrictlyInside (⟨-1, -1 / 3, 1⟩ : vector3f ℝ) sampleTriangle1 ∧
    isPointInsideTriangle Real.sqrt Real.arccos ⟨-1, -1 / 3, 1⟩ sampleTriangle1 = true :=
  have hnd : NonDegenerate (sampleTriangle1 : triangle ℝ) := by
    norm_num [NonDegenerate, sampleTriangle1, triangleOf, crossProduct]
  have hin : StrictlyInside (⟨-1, -1 / 3, 1⟩ : vector3f ℝ) sampleTriangle1 :=
    ⟨1 / 3, 1 / 3, 1 / 3, by norm_num, by norm_num, by norm_num,
      by norm_num [IsCombination, sampleTriangle1, triangleOf]⟩
  ⟨hnd, hin, (isPointInsideTriangle_of_strictlyInside _ _ hnd hin).2.1⟩

/-! ### A point outside the triangle that passes the angle test -/

/-- A lower bound on `arccos` from an upper bound by a cosine. -/
lemma le_arccos_of_le_cos {x t : ℝ} (ht0 : 0 ≤ t) (htpi : t ≤ Real.pi) (h : x ≤ Real.cos t) :
    t ≤ Real.arccos x := by
  have h1 : Real.arcsin x ≤ Real.arcsin (Real.cos t) := Real.monotone_arcsin h
  rw [← Real.sin_pi_div_two_sub, Real.arcsin_sin (by linarith) (by linarith)] at h1
  rw [Real.arccos_eq_pi_div_two_sub_arcsin]
  linarith

lemma normalize_grazing0 :
    normalize Real.sqrt ((grazingPoint : vector3f ℝ) - (grazingTriangle : triangle ℝ).v0) =
      ⟨999999 / 1000001, -2000 / 1000001, 0⟩ := by
  have hs : Real.sqrt ((999999 : ℝ) * 999999 + (-2000) * (-2000) + 0 * 0) = 1000001 := by
    rw [show (999999 : ℝ) * 999999 + (-2000) * (-2000) + 0 * 0 = 1000001 * 1000001 by norm_num]
    exact Real.sqrt_mul_self (by norm_num)
  have hv : (grazingPoint : vector3f ℝ) - (grazingTriangle : triangle ℝ).v0 =
      ⟨999999, -2000, 0⟩ := by
    apply vector3f_ext <;> simp [grazingPoint, grazingTriangle, triangleOf]
  rw [hv]
  simp only [normalize, length, hs, zero_div]

lemma normalize_grazing1 :
    normalize Real.sqrt ((grazingPoint : vector3f ℝ) - (grazingTriangle : triangle ℝ).v1) =
      ⟨-999999 / 1000001, -2000 / 1000001, 0⟩ := by
  have hs : Real.sqrt ((-999999 : ℝ) * (-999999) + (-2000) * (-2000) + 0 * 0) = 1000001 := by
    rw [show (-999999 : ℝ) * (-999999) + (-2000) * (-2000) + 0 * 0 = 1000001 * 1000001
      by norm_num]
    exact Real.sqrt_mul_self (by norm_num)
  have hv : (grazingPoint : vector3f ℝ) - (grazingTriangle : triangle ℝ).v1 =
      ⟨-999999, -2000, 0⟩ := by
    apply vector3f_ext <;> simp [grazingPoint, grazingTriangle, triangleOf]
  rw [hv]
  simp only [normalize, length, hs, zero_div]

lemma normalize_grazing2 :
    normalize Real.sqrt ((grazingPoint : vector3f ℝ) - (grazingTriangle : triangle ℝ).v2) =
      ⟨0, -1, 0⟩ := by
  have hs : Real.sqrt ((0 : ℝ) * 0 + (-2001) * (-2001) + 0 * 0) = 2001 := by
    rw [show (0 : ℝ) * 0 + (-2001) * (-2001) + 0 * 0 = 2001 * 2001 by norm_num]
    exact Real.sqrt_mul_self (by norm_num)
  have hv : (grazingPoint : vector3f ℝ) - (grazingTriangle : triangle ℝ).v2 =
      ⟨0, -2001, 0⟩ := by
    apply vector3f_ext <;> norm_num [grazingPoint, grazingTriangle, triangleOf]
  rw [hv]
  simp only [normalize, length, hs, zero_div]
  norm_num

lemma cos_small_le : Real.cos 0.005 ≤ (999994000001 / 1000002000001 : ℝ) := by
  have h := Real.cos_bound (show |(0.005 : ℝ)| ≤ 1 by rw [abs_le]; constructor <;> norm_num)
  rw [abs_le] at h
  have h2 := h.2
  rw [abs_of_nonneg (by norm_num : (0 : ℝ) ≤ 0.005)] at h2
  norm_num at h2 ⊢
  linarith

lemma le_sin_small : (2000 / 1000001 : ℝ) ≤ Real.sin 0.0025 := by
  have h := Real.sin_gt_sub_cube (show (0 : ℝ) < 0.0025 by norm_num) (by norm_num)
  norm_num at h ⊢
  linarith

/-- The angle sum computed at `grazingPoint` for `grazingTriangle` exceeds `6.27`
and is below `6.29`. -/
lemma grazing_angle_sum :
    |Real.arccos (dotProduct
          (normalize Real.sqrt ((grazingPoint : vector3f ℝ) - (grazingTriangle : triangle ℝ).v0))
          (normalize Real.sqrt ((grazingPoint : vector3f ℝ) - (grazingTriangle : triangle ℝ).v1))) +
        Real.arccos (dotProduct
          (normalize Real.sqrt ((grazingPoint : vector3f ℝ) - (grazingTriangle : triangle ℝ).v1))
          (normalize Real.sqrt ((grazingPoint : vector3f ℝ) - (grazingTriangle : triangle ℝ).v2))) +
        Real.arccos (dotProduct
          (normalize Real.sqrt ((grazingPoint : vector3f ℝ) - (grazingTriangle : triangle ℝ).v2))
          (normalize Real.sqrt ((grazingPoint : vector3f ℝ) - (grazingTriangle : triangle ℝ).v0)))
        - 6.28| < (0.01 : ℝ) := by
  rw [normalize_grazing0, normalize_grazing1, normalize_grazing2]
  have d01 : dotProduct (⟨999999 / 1000001, -2000 / 1000001, 0⟩ : vector3f ℝ)
      ⟨-999999 / 1000001, -2000 / 1000001, 0⟩ = -(999994000001 / 1000002000001) := by
    simp only [dotProduct]; norm_num
  have d12 : dotProduct (⟨-999999 / 1000001, -2000 / 1000001, 0⟩ : vector3f ℝ) ⟨0, -1, 0⟩ =
      2000 / 1000001 := by
    simp only [dotProduct]; norm_num
  have d20 : dotProduct (⟨0, -1, 0⟩ : vector3f ℝ) ⟨999999 / 1000001, -2000 / 1000001, 0⟩ =
      2000 / 1000001 := by
    simp only [dotProduct]; norm_num
  rw [d01, d12, d20]
  have hpi1 := Real.pi_gt_d6
  have hpi2 := Real.pi_lt_d6
  have hbig : Real.pi - 0.005 ≤ Real.arccos (-(999994000001 / 1000002000001)) := by
    apply le_arccos_of_le_cos
    · norm_num at hpi1 ⊢; linarith
    · norm_num
    · rw [Real.cos_pi_sub]; exact neg_le_neg cos_small_le
  have hside : Real.pi / 2 - 0.0025 ≤ Real.arccos (2000 / 1000001) := by
    apply le_arccos_of_le_cos
    · norm_num at hpi1 ⊢; linarith
    · norm_num at hpi1 ⊢; linarith
    · rw [Real.cos_pi_div_two_sub]; exact le_sin_small
  have hbig' : Real.arccos (-(999994000001 / 1000002000001)) ≤ Real.pi := Real.arccos_le_pi _
  have hside' : Real.arccos (2000 / 1000001) ≤ Real.pi / 2 :=
    Real.arccos_le_pi_div_two.2 (by norm_num)
  rw [abs_lt]
  constructor <;> norm_num at hpi1 hpi2 hbig hside ⊢ <;> linarith

/-- C9, counterexample. `grazingTriangle` is non-degenerate, `grazingPoint` lies in
its plane and differs from its vertices, `isPointInsideTriangle` returns true, and
yet `grazingPoint` is not in the closed triangle. -/
theorem isPointInsideTriangle_accepts_outside_point :
    NonDegenerate (grazingTriangle : triangle ℝ) ∧
    InPlane (grazingPoint : vector3f ℝ) grazingTriangle ∧
    (grazingPoint : vector3f ℝ) ≠ (grazingTriangle : triangle ℝ).v0 ∧
    (grazingPoint : vector3f ℝ) ≠ (grazingTriangle : triangle ℝ).v1 ∧
    (grazingPoint : vector3f ℝ) ≠ (grazingTriangle : triangle ℝ).v2 ∧
    isPointInsideTriangle Real.sqrt Real.arccos grazingPoint grazingTriangle = true ∧
    ¬ InClosedTriangle (grazingPoint : vector3f ℝ) grazingTriangle := by
  refine ⟨?_, ?_, ?_, ?_, ?_, ?_, ?_⟩
  · norm_num [NonDegenerate, grazingTriangle, triangleOf, crossProduct]
  · norm_num [InPlane, grazingPoint, grazingTriangle, triangleOf, crossProduct, dotProduct]
  · norm_num [grazingPoint, grazingTriangle, triangleOf]
  · norm_num [grazingPoint, grazingTriangle, triangleOf]
  · norm_num [grazingPoint, grazingTriangle, triangleOf]
  · rw [isPointInsideTriangle_eq_true_iff]
    exact grazing_angle_sum
  · rintro ⟨a, b, c, ha, hb, hc, -, -, hy, -⟩
    simp only [grazingPoint, grazingTriangle, triangleOf] at hy
    linarith

/-! ### What acceptance by the angle test implies -/

lemma toE_sub (a b : vector3f ℝ) : toE (a - b) = toE a - toE b := by
  ext i
  fin_cases i <;> simp [toE]

/-- The angle at `P` between the directions to two points is the angle that the
classifier computes from `P - A` and `P - B`. -/
lemma angle_at_eq (A P B : vector3f ℝ) :
    EuclideanGeometry.angle (toE A) (toE P) (toE B) =
      InnerProductGeometry.angle (toE (P - A)) (toE (P - B)) := by
  unfold EuclideanGeometry.angle
  rw [vsub_eq_sub, vsub_eq_sub, toE_sub, toE_sub, ← neg_sub (toE P) (toE A),
    ← neg_sub (toE P) (toE B), InnerProductGeometry.angle_neg_neg]

/-- A point in the plane of a non-degenerate triangle is a combination of the
vertices with weights that sum to one. -/
lemma exists_combination_of_inPlane {P : vector3f ℝ} {tri : triangle ℝ}
    (hnd : NonDegenerate tri) (hpl : InPlane P tri) :
    ∃ a b c : ℝ, IsCombination P tri a b c := by
  have hnn : 0 < dotProduct (crossProduct (tri.v1 - tri.v0) (tri.v2 - tri.v0))
      (crossProduct (tri.v1 - tri.v0) (tri.v2 - tri.v0)) := by
    rcases (dotProduct_self_nonneg
      (crossProduct (tri.v1 - tri.v0) (tri.v2 - tri.v0))).lt_or_eq with h | h
    · exact h
    · exfalso
      obtain ⟨hx, hy, hz⟩ := dotProduct_self_eq_zero h.symm
      exact hnd (vector3f_ext hx hy hz)
  have hne := hnn.ne'
  simp only [InPlane, dotProduct, crossProduct, sub_x, sub_y, sub_z] at hpl
  simp only [dotProduct, crossProduct, sub_x, sub_y, sub_z] at hne
  refine ⟨1 - dotProduct (crossProduct (P - tri.v0) (tri.v2 - tri.v0))
        (crossProduct (tri.v1 - tri.v0) (tri.v2 - tri.v0)) /
        dotProduct (crossProduct (tri.v1 - tri.v0) (tri.v2 - tri.v0))
          (crossProduct (tri.v1 - tri.v0) (tri.v2 - tri.v0)) -
      dotProduct (crossProduct (tri.v1 - tri.v0) (P - tri.v0))
        (crossProduct (tri.v1 - tri.v0) (tri.v2 - tri.v0)) /
        dotProduct (crossProduct (tri.v1 - tri.v0) (tri.v2 - tri.v0))
          (crossProduct (tri.v1 - tri.v0) (tri.v2 - tri.v0)),
    dotProduct (crossProduct (P - tri.v0) (tri.v2 - tri.v0))
        (crossProduct (tri.v1 - tri.v0) (tri.v2 - tri.v0)) /
        dotProduct (crossProduct (tri.v1 - tri.v0) (tri.v2 - tri.v0))
          (crossProduct (tri.v1 - tri.v0) (tri.v2 - tri.v0)),
    dotProduct (crossProduct (tri.v1 - tri.v0) (P - tri.v0))
        (crossProduct (tri.v1 - tri.v0) (tri.v2 - tri.v0)) /
        dotProduct (crossProduct (tri.v1 - tri.v0) (tri.v2 - tri.v0))
          (crossProduct (tri.v1 - tri.v0) (tri.v2 - tri.v0)), by ring, ?_, ?_, ?_⟩
  · simp only [dotProduct, crossProduct, sub_x, sub_y, sub_z]
    field_simp
    linear_combination
      ((tri.v1.y - tri.v0.y) * (tri.v2.z - tri.v0.z) -
        (tri.v1.z - tri.v0.z) * (tri.v2.y - tri.v0.y)) * hpl
  · simp only [dotProduct, crossProduct, sub_x, sub_y, sub_z]
    field_simp
    linear_combination
      ((tri.v1.z - tri.v0.z) * (tri.v2.x - tri.v0.x) -
        (tri.v1.x - tri.v0.x) * (tri.v2.z - tri.v0.z)) * hpl
  · simp only [dotProduct, crossProduct, sub_x, sub_y, sub_z]
    field_simp
    linear_combination
      ((tri.v1.x - tri.v0.x) * (tri.v2.y - tri.v0.y) -
        (tri.v1.y - tri.v0.y) * (tri.v2.x - tri.v0.x)) * hpl

/-- When `z` lies in the closed cone spanned by `x` and `y` (a vanishing
combination with weights `p, q ≥ 0` on `x, y` and `r < 0` on `z`), the angle
between `x` and `y` is split by `z`. -/
lemma angle_split_of_cone {V : Type} [NormedAddCommGroup V] [InnerProductSpace ℝ V]
    {x y z : V} {p q r : ℝ} (hp : 0 ≤ p) (hq : 0 ≤ q) (hr : r < 0)
    (h : p • x + q • y + r • z = 0) (hx : x ≠ 0) (hy : y ≠ 0) (hz : z ≠ 0) :
    InnerProductGeometry.angle x z + InnerProductGeometry.angle z y =
      InnerProductGeometry.angle x y := by
  have hr' : 0 < -r := neg_pos.2 hr
  have hw : p • x + q • y = (-r) • z := by
    rw [neg_smul]; exact eq_neg_of_add_eq_zero_left h
  have hrz : (-r) • z ≠ 0 := smul_ne_zero hr'.ne' hz
  rcases hp.lt_or_eq with hp0 | hp0
  · rcases hq.lt_or_eq with hq0 | hq0
    · have hadd := angle_add_of_pos_comb x y hp0 hq0 hx (by rw [hw]; exact hrz)
      rw [hw, InnerProductGeometry.angle_smul_right_of_pos _ _ hr',
        InnerProductGeometry.angle_smul_left_of_pos _ _ hr'] at hadd
      exact hadd
    · rw [← hq0, zero_smul, add_zero] at hw
      have hxz : InnerProductGeometry.angle x z = 0 := by
        rw [← InnerProductGeometry.angle_smul_right_of_pos x z hr', ← hw,
          InnerProductGeometry.angle_smul_right_of_pos x x hp0]
        exact InnerProductGeometry.angle_self hx
      have hzy : InnerProductGeometry.angle z y = InnerProductGeometry.angle x y := by
        rw [← InnerProductGeometry.angle_smul_left_of_pos z y hr', ← hw,
          InnerProductGeometry.angle_smul_left_of_pos x y hp0]
      rw [hxz, hzy, zero_add]
  · rw [← hp0, zero_smul, zero_add] at hw
    have hq0 : 0 < q := by
      rcases hq.lt_or_eq with hq0 | hq0
      · exact hq0
      · exfalso; rw [← hq0, zero_smul] at hw; exact hrz hw.symm
    have hzy : InnerProductGeometry.angle z y = 0 := by
      rw [← InnerProductGeometry.angle_smul_left_of_pos z y hr', ← hw,
        InnerProductGeometry.angle_smul_left_of_pos y y hq0]
      exact InnerProductGeometry.angle_self hy
    have hxz : InnerProductGeometry.angle x z = InnerProductGeometry.angle x y := by
      rw [← InnerProductGeometry.angle_smul_right_of_pos x z hr', ← hw,
        InnerProductGeometry.angle_smul_right_of_pos x y hq0]
    rw [hxz, hzy, add_zero]

/-- Three non-zero vectors with a vanishing combination whose weights sum to one and
are not all non-negative: the three pairwise angles add up to twice one of them. -/
lemma angle_sum_eq_two_mul_of_outside {V : Type} [NormedAddCommGroup V]
    [InnerProductSpace ℝ V] {x y z : V} {a b c : ℝ} (hsum : a + b + c = 1)
    (h : a • x + b • y + c • z = 0) (hout : ¬ (0 ≤ a ∧ 0 ≤ b ∧ 0 ≤ c))
    (hx : x ≠ 0) (hy : y ≠ 0) (hz : z ≠ 0) :
    InnerProductGeometry.angle x y + InnerProductGeometry.angle y z +
        InnerProductGeometry.angle z x = 2 * InnerProductGeometry.angle x y ∨
    InnerProductGeometry.angle x y + InnerProductGeometry.angle y z +
        InnerProductGeometry.angle z x = 2 * InnerProductGeometry.angle y z ∨
    InnerProductGeometry.angle x y + InnerProductGeometry.angle y z +
        InnerProductGeometry.angle z x = 2 * InnerProductGeometry.angle z x := by
  have hneg : (-a) • x + (-b) • y + (-c) • z = 0 := by
    rw [neg_smul, neg_smul, neg_smul]
    have e : -(a • x) + -(b • y) + -(c • z) = -(a • x + b • y + c • z) := by abel
    rw [e, h, neg_zero]
  have cxy := InnerProductGeometry.angle_comm x y
  have cyz := InnerProductGeometry.angle_comm y z
  have czx := InnerProductGeometry.angle_comm z x
  rcases lt_or_le c 0 with hc | hc
  · rcases lt_or_le a 0 with ha | ha
    · -- `a, c < 0 < b`: `y` lies in the cone of `x` and `z`
      have hb : -b < 0 := by linarith
      have h' : (-a) • x + (-c) • z + (-b) • y = 0 := by rw [← hneg]; abel
      have := angle_split_of_cone (neg_pos.2 ha).le (neg_pos.2 hc).le hb h' hx hz hy
      right; right; linarith
    · rcases lt_or_le b 0 with hb | hb
      · -- `b, c < 0 < a`: `x` lies in the cone of `y` and `z`
        have ha' : -a < 0 := by linarith
        have h' : (-b) • y + (-c) • z + (-a) • x = 0 := by rw [← hneg]; abel
        have := angle_split_of_cone (neg_pos.2 hb).le (neg_pos.2 hc).le ha' h' hy hz hx
        right; left; linarith
      · -- `c < 0 ≤ a, b`: `z` lies in the cone of `x` and `y`
        have := angle_split_of_cone ha hb hc h hx hy hz
        left; linarith
  · rcases lt_or_le b 0 with hb | hb
    · rcases lt_or_le a 0 with ha | ha
      · -- `a, b < 0 < c`: `z` lies in the cone of `x` and `y`
        have hc' : -c < 0 := by linarith
        have := angle_split_of_cone (neg_pos.2 ha).le (neg_pos.2 hb).le hc' hneg hx hy hz
        left; linarith
      · -- `b < 0 ≤ a, c`: `y` lies in the cone of `x` and `z`
        have h' : a • x + c • z + b • y = 0 := by rw [← h]; abel
        have := angle_split_of_cone ha hc hb h' hx hz hy
        right; right; linarith
    · -- `a < 0 ≤ b, c`: `x` lies in the cone of `y` and `z`
      have ha : a < 0 := by
        by_contra hna
        exact hout ⟨not_lt.1 hna, hb, hc⟩
      have h' : b • y + c • z + a • x = 0 := by rw [← h]; abel
      have := angle_split_of_cone hb hc ha h' hy hz hx
      right; left; linarith

/-- C9, amended. For a non-degenerate triangle and a point `P` of its plane distinct
from the three vertices, if `isPointInsideTriangle` returns true then `P` lies within
the closed triangle, or `P` sees one of the three edges under an angle greater than
`3.135` radians (so `P` is, within the angular tolerance of the test, on that edge). -/
theorem isPointInsideTriangle_true_imp (P : vector3f ℝ) (tri : triangle ℝ)
    (hnd : NonDegenerate tri) (hpl : InPlane P tri)
    (h0 : P ≠ tri.v0) (h1 : P ≠ tri.v1) (h2 : P ≠ tri.v2)
    (h : isPointInsideTriangle Real.sqrt Real.arccos P tri = true) :
    InClosedTriangle P tri ∨
    3.135 < EuclideanGeometry.angle (toE tri.v0) (toE P) (toE tri.v1) ∨
    3.135 < EuclideanGeometry.angle (toE tri.v1) (toE P) (toE tri.v2) ∨
    3.135 < EuclideanGeometry.angle (toE tri.v2) (toE P) (toE tri.v0) := by
  obtain ⟨a, b, c, hcomb⟩ := exists_combination_of_inPlane hnd hpl
  by_cases hin : 0 ≤ a ∧ 0 ≤ b ∧ 0 ≤ c
  · exact Or.inl ⟨a, b, c, hin.1, hin.2.1, hin.2.2, hcomb⟩
  · right
    rw [isPointInsideTriangle_eq_true_iff, arccos_dotProduct_normalize,
      arccos_dotProduct_normalize, arccos_dotProduct_normalize, abs_lt] at h
    rw [angle_at_eq, angle_at_eq, angle_at_eq]
    have hS := angle_sum_eq_two_mul_of_outside hcomb.1 (toE_sub_smul_sum hcomb) hin
      (toE_ne_zero_of_ne h0) (toE_ne_zero_of_ne h1) (toE_ne_zero_of_ne h2)
    have hlow := h.1
    norm_num at hlow ⊢
    rcases hS with hS | hS | hS
    · left; linarith
    · right; left; linarith
    · right; right; linarith

/-- C9, amended, at `grazingPoint` and `grazingTriangle`: the point is accepted and
is seen to be near an edge rather than in the closed triangle. -/
theorem isPointInsideTriangle_true_imp_witness :
    NonDegenerate (grazingTriangle : triangle ℝ) ∧
    InPlane (grazingPoint : vector3f ℝ) grazingTriangle ∧
    isPointInsideTriangle Real.sqrt Real.arccos grazingPoint grazingTriangle = true ∧
    (InClosedTriangle (grazingPoint : vector3f ℝ) grazingTriangle ∨
      3.135 < EuclideanGeometry.angle (toE (grazingTriangle : triangle ℝ).v0)
        (toE (grazingPoint : vector3f ℝ)) (toE (grazingTriangle : triangle ℝ).v1) ∨
      3.135 < EuclideanGeometry.angle (toE (grazingTriangle : triangle ℝ).v1)
        (toE (grazingPoint : vector3f ℝ)) (toE (grazingTriangle : triangle ℝ).v2) ∨
      3.135 < EuclideanGeometry.angle (toE (grazingTriangle : triangle ℝ).v2)
        (toE (grazingPoint : vector3f ℝ)) (toE (grazingTriangle : triangle ℝ).v0)) :=
  have hnd : NonDegenerate (grazingTriangle : triangle ℝ) := by
    norm_num [NonDegenerate, grazingTriangle, triangleOf, crossProduct]
  have hpl : InPlane (grazingPoint : vector3f ℝ) grazingTriangle := by
    norm_num [InPlane, grazingPoint, grazingTriangle, triangleOf, crossProduct, dotProduct]
  have h0 : (grazingPoint : vector3f ℝ) ≠ (grazingTriangle : triangle ℝ).v0 := by
    norm_num [grazingPoint, grazingTriangle, triangleOf]
  have h1 : (grazingPoint : vector3f ℝ) ≠ (grazingTriangle : triangle ℝ).v1 := by
    norm_num [grazingPoint, grazingTriangle, triangleOf]
  have h2 : (grazingPoint : vector3f ℝ) ≠ (grazingTriangle : triangle ℝ).v2 := by
    norm_num [grazingPoint, grazingTriangle, triangleOf]
  have h : isPointInsideTriangle Real.sqrt Real.arccos (grazingPoint : vector3f ℝ)
      grazingTriangle = true := by
    rw [isPointInsideTriangle_eq_true_iff]
    exact grazing_angle_sum
  ⟨hnd, hpl, h, isPointInsideTriangle_true_imp _ _ hnd hpl h0 h1 h2 h⟩

/-! ## Narrow phase -/

/-- The test made on one edge by `doTrianglesIntersect` does not depend on the value
that `vPoint` holds before the call. -/
lemma edge_test_iff {α : Type} [LinearOrderedField α] (sqrt acos : α → α)
    (s e p n v w : vector3f α) (T : triangle α) :
    ((getLinePlaneIntersectionPoint s e p n v).1 &&
        isPointInsideTriangle sqrt acos (getLinePlaneIntersectionPoint s e p n v).2 T) = true ↔
      ((getLinePlaneIntersectionPoint s e p n w).1 = true ∧
        isPointInsideTriangle sqrt acos (getLinePlaneIntersectionPoint s e p n w).2 T = true) := by
  rw [Bool.and_eq_true]
  constructor
  · rintro ⟨h1, h2⟩
    have h1' : (getLinePlaneIntersectionPoint s e p n w).1 = true :=
      (getLinePlaneIntersectionPoint_fst_iff s e p n w).2
        ((getLinePlaneIntersectionPoint_fst_iff s e p n v).1 h1)
    refine ⟨h1', ?_⟩
    rw [getLinePlaneIntersectionPoint_snd s e p n w h1']
    rw [getLinePlaneIntersectionPoint_snd s e p n v h1] at h2
    exact h2
  · rintro ⟨h1, h2⟩
    have h1' : (getLinePlaneIntersectionPoint s e p n v).1 = true :=
      (getLinePlaneIntersectionPoint_fst_iff s e p n v).2
        ((getLinePlaneIntersectionPoint_fst_iff s e p n w).1 h1)
    refine ⟨h1', ?_⟩
    rw [getLinePlaneIntersectionPoint_snd s e p n v h1']
    rw [getLinePlaneIntersectionPoint_snd s e p n w h1] at h2
    exact h2

/-- The classifier `isPointInsideTriangle` reads only the three vertices. -/
lemma isPointInsideTriangle_vNormal {α : Type} [LinearOrderedField α] (sqrt acos : α → α)
    (P n : vector3f α) (T : triangle α) :
    isPointInsideTriangle sqrt acos P { T with vNormal := n } =
      isPointInsideTriangle sqrt acos P T :=
  rfl

/-- C10. `doTrianglesIntersect A B` returns true exactly when, for at least one of
the edges `v0 v1`, `v1 v2`, `v2 v0` of `B`, `getLinePlaneIntersectionPoint` against
the plane through `A.v0` with normal `cross (A.v1 - A.v0) (A.v2 - A.v0)` returns true
and `isPointInsideTriangle` of the returned point against `A` returns true. The
values `vPoint0` and `v` held by the output variables before the calls are
arbitrary. -/
theorem doTrianglesIntersect_iff_edge {α : Type} [LinearOrderedField α] (sqrt acos : α → α)
    (vPoint0 v : vector3f α) (A B : triangle α) :
    doTrianglesIntersect sqrt acos vPoint0 A B = true ↔
      ((getLinePlaneIntersectionPoint B.v0 B.v1 A.v0
            (crossProduct (A.v1 - A.v0) (A.v2 - A.v0)) v).1 = true ∧
        isPointInsideTriangle sqrt acos (getLinePlaneIntersectionPoint B.v0 B.v1 A.v0
            (crossProduct (A.v1 - A.v0) (A.v2 - A.v0)) v).2 A = true) ∨
      ((getLinePlaneIntersectionPoint B.v1 B.v2 A.v0
            (crossProduct (A.v1 - A.v0) (A.v2 - A.v0)) v).1 = true ∧
        isPointInsideTriangle sqrt acos (getLinePlaneIntersectionPoint B.v1 B.v2 A.v0
            (crossProduct (A.v1 - A.v0) (A.v2 - A.v0)) v).2 A = true) ∨
      ((getLinePlaneIntersectionPoint B.v2 B.v0 A.v0
            (crossProduct (A.v1 - A.v0) (A.v2 - A.v0)) v).1 = true ∧
        isPointInsideTriangle sqrt acos (getLinePlaneIntersectionPoint B.v2 B.v0 A.v0
            (crossProduct (A.v1 - A.v0) (A.v2 - A.v0)) v).2 A = true) := by
  have e1 := edge_test_iff sqrt acos B.v0 B.v1 A.v0
    (crossProduct (A.v1 - A.v0) (A.v2 - A.v0)) vPoint0 v A
  have e2 := edge_test_iff sqrt acos B.v1 B.v2 A.v0
    (crossProduct (A.v1 - A.v0) (A.v2 - A.v0))
    (getLinePlaneIntersectionPoint B.v0 B.v1 A.v0
      (crossProduct (A.v1 - A.v0) (A.v2 - A.v0)) vPoint0).2 v A
  have e3 := edge_test_iff sqrt acos B.v2 B.v0 A.v0
    (crossProduct (A.v1 - A.v0) (A.v2 - A.v0))
    (getLinePlaneIntersectionPoint B.v1 B.v2 A.v0
      (crossProduct (A.v1 - A.v0) (A.v2 - A.v0))
      (getLinePlaneIntersectionPoint B.v0 B.v1 A.v0
        (crossProduct (A.v1 - A.v0) (A.v2 - A.v0)) vPoint0).2).2 v A
  rw [← e1, ← e2, ← e3]
  simp only [doTrianglesIntersect, isPointInsideTriangle_vNormal]
  split_ifs with h1 h2 h3
  · simp only [h1, true_or]
  · simp only [h2, true_or, or_true]
  · simp only [h3, or_true]
  · simp only [Bool.false_eq_true, false_iff, not_or]
    exact ⟨h1, h2, h3⟩

/-! ## The collision check of `render` -/

/-- The outcome of `collisionCheck` when the spheres do not intersect. -/
lemma collisionCheck_of_spheres_false {α : Type} [LinearOrderedField α] (sqrt acos : α → α)
    (vPoint0 : vector3f α) (tri1 tri2 : triangle α)
    (h : doSpheresIntersect sqrt tri1 tri2 = false) :
    collisionCheck sqrt acos vPoint0 tri1 tri2 =
      (Collision.COLLISION_NO, Collision.COLLISION_NOT_CHECKED, 0) := by
  simp only [collisionCheck, h, Bool.false_eq_true, if_false]

/-- The outcome of `collisionCheck` when the spheres intersect. -/
lemma collisionCheck_of_spheres_true {α : Type} [LinearOrderedField α] (sqrt acos : α → α)
    (vPoint0 : vector3f α) (tri1 tri2 : triangle α)
    (h : doSpheresIntersect sqrt tri1 tri2 = true) :
    (collisionCheck sqrt acos vPoint0 tri1 tri2).1 = Collision.COLLISION_YES ∧
    (collisionCheck sqrt acos vPoint0 tri1 tri2).2.1 =
      (if doTrianglesIntersect sqrt acos vPoint0 tri1 tri2 = true ∨
          doTrianglesIntersect sqrt acos vPoint0 tri2 tri1 = true
        then Collision.COLLISION_YES else Collision.COLLISION_NO) := by
  simp only [collisionCheck, h, if_true]
  by_cases h12 : doTrianglesIntersect sqrt acos vPoint0 tri1 tri2 = true
  · simp [h12]
  · by_cases h21 : doTrianglesIntersect sqrt acos vPoint0 tri2 tri1 = true
    · simp [h12, h21]
    · simp [h12, h21]

lemma sqrt_hundred_sq : Real.sqrt ((100 : ℝ) * 100) = 100 :=
  Real.sqrt_mul_self (by norm_num)

/-- C11. When `doSpheresIntersect` returns false, the collision check yields
`sphereVerdict = COLLISION_NO` and `triangleVerdict = COLLISION_NOT_CHECKED` and makes
no call of `doTrianglesIntersect`; this is the case for any two spheres of radius 1
whose centres are 100 apart. -/
theorem collisionCheck_no_overlap (vPoint0 : vector3f ℝ) (tri1 tri2 : triangle ℝ) :
    (doSpheresIntersect Real.sqrt tri1 tri2 = false →
      (collisionCheck Real.sqrt Real.arccos vPoint0 tri1 tri2).1 = Collision.COLLISION_NO ∧
      (collisionCheck Real.sqrt Real.arccos vPoint0 tri1 tri2).2.1 =
        Collision.COLLISION_NOT_CHECKED ∧
      (collisionCheck Real.sqrt Real.arccos vPoint0 tri1 tri2).2.2 = 0) ∧
    (tri1.fRadius = 1 → tri2.fRadius = 1 →
      Real.sqrt (distSq tri1.vCenter tri2.vCenter) = 100 →
      collisionCheck Real.sqrt Real.arccos vPoint0 tri1 tri2 =
        (Collision.COLLISION_NO, Collision.COLLISION_NOT_CHECKED, 0)) := by
  constructor
  · intro h
    rw [collisionCheck_of_spheres_false _ _ _ _ _ h]
    exact ⟨rfl, rfl, rfl⟩
  · intro h1 h2 hd
    apply collisionCheck_of_spheres_false
    rw [← Bool.not_eq_true, doSpheresIntersect_real_iff, hd, h1, h2]
    norm_num

/-- C12. When `doSpheresIntersect` returns true, the collision check yields
`sphereVerdict = COLLISION_YES`, and `triangleVerdict = COLLISION_YES` if
`doTrianglesIntersect tri1 tri2` or `doTrianglesIntersect tri2 tri1` is true, and
`triangleVerdict = COLLISION_NO` otherwise. -/
theorem collisionCheck_overlap (vPoint0 : vector3f ℝ) (tri1 tri2 : triangle ℝ)
    (h : doSpheresIntersect Real.sqrt tri1 tri2 = true) :
    (collisionCheck Real.sqrt Real.arccos vPoint0 tri1 tri2).1 = Collision.COLLISION_YES ∧
    ((doTrianglesIntersect Real.sqrt Real.arccos vPoint0 tri1 tri2 = true ∨
        doTrianglesIntersect Real.sqrt Real.arccos vPoint0 tri2 tri1 = true) →
      (collisionCheck Real.sqrt Real.arccos vPoint0 tri1 tri2).2.1 =
        Collision.COLLISION_YES) ∧
    (¬ (doTrianglesIntersect Real.sqrt Real.arccos vPoint0 tri1 tri2 = true ∨
        doTrianglesIntersect Real.sqrt Real.arccos vPoint0 tri2 tri1 = true) →
      (collisionCheck Real.sqrt Real.arccos vPoint0 tri1 tri2).2.1 =
        Collision.COLLISION_NO) := by
  obtain ⟨hs, ht⟩ := collisionCheck_of_spheres_true Real.sqrt Real.arccos vPoint0 tri1 tri2 h
  refine ⟨hs, fun hy => ?_, fun hn => ?_⟩
  · rw [ht, if_pos hy]
  · rw [ht, if_neg hn]

/-- C13. The verdict pair of the collision check is one of `(NO, NOT_CHECKED)`,
`(YES, NO)`, `(YES, YES)`: `triangleVerdict = COLLISION_NOT_CHECKED` exactly when
`sphereVerdict = COLLISION_NO`, and `sphereVerdict` is never
`COLLISION_NOT_CHECKED`. -/
theorem collisionCheck_verdicts {α : Type} [LinearOrderedField α] (sqrt acos : α → α)
    (vPoint0 : vector3f α) (tri1 tri2 : triangle α) :
    ((collisionCheck sqrt acos vPoint0 tri1 tri2).2.1 = Collision.COLLISION_NOT_CHECKED ↔
      (collisionCheck sqrt acos vPoint0 tri1 tri2).1 = Collision.COLLISION_NO) ∧
    (collisionCheck sqrt acos vPoint0 tri1 tri2).1 ≠ Collision.COLLISION_NOT_CHECKED ∧
    (((collisionCheck sqrt acos vPoint0 tri1 tri2).1,
        (collisionCheck sqrt acos vPoint0 tri1 tri2).2.1) =
        (Collision.COLLISION_NO, Collision.COLLISION_NOT_CHECKED) ∨
      ((collisionCheck sqrt acos vPoint0 tri1 tri2).1,
        (collisionCheck sqrt acos vPoint0 tri1 tri2).2.1) =
        (Collision.COLLISION_YES, Collision.COLLISION_NO) ∨
      ((collisionCheck sqrt acos vPoint0 tri1 tri2).1,
        (collisionCheck sqrt acos vPoint0 tri1 tri2).2.1) =
        (Collision.COLLISION_YES, Collision.COLLISION_YES)) := by
  simp only [collisionCheck]
  split_ifs <;> simp

/-- C12 at two unit spheres whose centres are 1 apart. -/
theorem collisionCheck_overlap_witness :
    doSpheresIntersect Real.sqrt (sphereAt (0 : ℝ) 1) (sphereAt (1 : ℝ) 1) = true ∧
    (collisionCheck Real.sqrt Real.arccos ⟨0, 0, 0⟩ (sphereAt (0 : ℝ) 1)
      (sphereAt (1 : ℝ) 1)).1 = Collision.COLLISION_YES :=
  have h : doSpheresIntersect Real.sqrt (sphereAt (0 : ℝ) 1) (sphereAt (1 : ℝ) 1) = true := by
    rw [doSpheresIntersect_eq_true_iff]
    simp only [sphereAt]
    norm_num
  ⟨h, (collisionCheck_overlap ⟨0, 0, 0⟩ _ _ h).1⟩

/-! ## More on the bounding sphere -/

lemma ite_lt_eq_min {α : Type} [LinearOrderedField α] (a b : α) :
    (if b < a then b else a) = min a b := by
  rw [min_def]
  split_ifs with h1 h2 h2
  · exact absurd h2 (not_le.2 h1)
  · rfl
  · rfl
  · exact le_antisymm (not_lt.1 h1) (not_le.1 h2).le

lemma ite_gt_eq_max {α : Type} [LinearOrderedField α] (a b : α) :
    (if b > a then b else a) = max a b := by
  rw [max_def]
  split_ifs with h1 h2 h2
  · rfl
  · exact absurd h1.le h2
  · exact le_antisymm h2 (not_lt.1 h1)
  · rfl

/-- The centre chosen by `createBoundingSphere`, for any `sqrt`. -/
lemma createBoundingSphere_vCenter {α : Type} [LinearOrderedField α] (sqrt : α → α)
    (tri : triangle α) :
    (createBoundingSphere sqrt tri).vCenter =
      ⟨(min (min tri.v0.x tri.v1.x) tri.v2.x + max (max tri.v0.x tri.v1.x) tri.v2.x) / 2,
       (min (min tri.v0.y tri.v1.y) tri.v2.y + max (max tri.v0.y tri.v1.y) tri.v2.y) / 2,
       (min (min tri.v0.z tri.v1.z) tri.v2.z + max (max tri.v0.z tri.v1.z) tri.v2.z) / 2⟩ := by
  simp only [createBoundingSphere, ite_lt_eq_min, ite_gt_eq_max]

lemma sqrt_sq_sum_eq_zero {a b c : ℝ} (h : Real.sqrt (a * a + b * b + c * c) = 0) :
    a = 0 ∧ b = 0 ∧ c = 0 := by
  rw [Real.sqrt_eq_zero'] at h
  have ha := mul_self_nonneg a
  have hb := mul_self_nonneg b
  have hc := mul_self_nonneg c
  refine ⟨?_, ?_, ?_⟩ <;> apply mul_self_eq_zero.1 <;> linarith

/-- C19. The radius computed by `createBoundingSphere` is 0 exactly when the three
vertices coincide. -/
theorem createBoundingSphere_radius_eq_zero_iff (tri : triangle ℝ) :
    (createBoundingSphere Real.sqrt tri).fRadius = 0 ↔ tri.v0 = tri.v1 ∧ tri.v1 = tri.v2 := by
  constructor
  · intro h
    obtain ⟨h0, h1, h2⟩ := createBoundingSphere_radius_ge Real.sqrt tri
    rw [h] at h0 h1 h2
    obtain ⟨x0, y0, z0⟩ := sqrt_sq_sum_eq_zero (le_antisymm h0 (Real.sqrt_nonneg _))
    obtain ⟨x1, y1, z1⟩ := sqrt_sq_sum_eq_zero (le_antisymm h1 (Real.sqrt_nonneg _))
    obtain ⟨x2, y2, z2⟩ := sqrt_sq_sum_eq_zero (le_antisymm h2 (Real.sqrt_nonneg _))
    have e0 : (createBoundingSphere Real.sqrt tri).v0 = tri.v0 := rfl
    have e1 : (createBoundingSphere Real.sqrt tri).v1 = tri.v1 := rfl
    have e2 : (createBoundingSphere Real.sqrt tri).v2 = tri.v2 := rfl
    rw [e0] at x0 y0 z0
    rw [e1] at x1 y1 z1
    rw [e2] at x2 y2 z2
    constructor
    · apply vector3f_ext <;> linarith
    · apply vector3f_ext <;> linarith
  · rintro ⟨h01, h12⟩
    have hrad : (createBoundingSphere Real.sqrt tri).fRadius =
        (if (if Real.sqrt 0 < Real.sqrt 0 then Real.sqrt 0 else Real.sqrt 0) < Real.sqrt 0
          then Real.sqrt 0 else (if Real.sqrt 0 < Real.sqrt 0 then Real.sqrt 0
            else Real.sqrt 0)) := by
      simp only [createBoundingSphere, ← h12, ← h01, lt_self_iff_false, if_false,
        add_self_div_two, sub_self, mul_zero, add_zero]
    rw [hrad]
    simp

/-- C20. On each axis, the centre set by `createBoundingSphere` is
`(min (v0, v1, v2) + max (v0, v1, v2)) / 2` of that coordinate: the centre of the
axis-aligned bounding box of the vertices. -/
theorem createBoundingSphere_center_is_box_center (tri : triangle ℝ) :
    (createBoundingSphere Real.sqrt tri).vCenter.x =
      (min (min tri.v0.x tri.v1.x) tri.v2.x + max (max tri.v0.x tri.v1.x) tri.v2.x) / 2 ∧
    (createBoundingSphere Real.sqrt tri).vCenter.y =
      (min (min tri.v0.y tri.v1.y) tri.v2.y + max (max tri.v0.y tri.v1.y) tri.v2.y) / 2 ∧
    (createBoundingSphere Real.sqrt tri).vCenter.z =
      (min (min tri.v0.z tri.v1.z) tri.v2.z + max (max tri.v0.z tri.v1.z) tri.v2.z) / 2 := by
  rw [createBoundingSphere_vCenter]
  exact ⟨rfl, rfl, rfl⟩

/-! ## Points far from the triangle -/

/-- The dot product of two normalized vectors. -/
lemma dotProduct_normalize (a b : vector3f ℝ) :
    dotProduct (normalize Real.sqrt a) (normalize Real.sqrt b) =
      dotProduct a b / (Real.sqrt (dotProduct a a) * Real.sqrt (dotProduct b b)) := by
  simp only [normalize, length_real, dotProduct]
  ring

/-- Two vectors with non-negative dot product give an angle of at most a quarter
turn in `isPointInsideTriangle`. -/
lemma arccos_dotProduct_normalize_le (a b : vector3f ℝ) (h : 0 ≤ dotProduct a b) :
    Real.arccos (dotProduct (normalize Real.sqrt a) (normalize Real.sqrt b)) ≤ Real.pi / 2 := by
  rw [Real.arccos_le_pi_div_two, dotProduct_normalize]
  exact div_nonneg h (mul_nonneg (Real.sqrt_nonneg _) (Real.sqrt_nonneg _))

lemma distSq_eq_dotProduct (a b : vector3f ℝ) : distSq a b = dotProduct (a - b) (a - b) := by
  simp only [distSq, dotProduct, sub_x, sub_y, sub_z]
  ring

lemma distSq_nonneg (a b : vector3f ℝ) : 0 ≤ distSq a b := by
  rw [distSq_eq_dotProduct]; exact dotProduct_self_nonneg _

/-- Seen from a point at distance at least `10 * L` from two points that are at most
`L` apart, the two points lie in directions with non-negative dot product. -/
lemma dotProduct_nonneg_of_far {P A B : vector3f ℝ} {L : ℝ} (hL : 0 ≤ L)
    (hAB : Real.sqrt (distSq A B) ≤ L) (hA : 10 * L ≤ Real.sqrt (distSq P A))
    (hB : 10 * L ≤ Real.sqrt (distSq P B)) :
    0 ≤ dotProduct (P - A) (P - B) := by
  have h1 : distSq A B ≤ L ^ 2 := (Real.sqrt_le_left hL).1 hAB
  have h2 : (10 * L) ^ 2 ≤ distSq P A :=
    (Real.le_sqrt (by positivity) (distSq_nonneg P A)).1 hA
  have h3 : (10 * L) ^ 2 ≤ distSq P B :=
    (Real.le_sqrt (by positivity) (distSq_nonneg P B)).1 hB
  have key : 2 * dotProduct (P - A) (P - B) = distSq P A + distSq P B - distSq A B := by
    simp only [distSq, dotProduct, sub_x, sub_y, sub_z]
    ring
  nlinarith [sq_nonneg L]

/-- The first edge of a non-degenerate triangle has positive length. -/
lemma distSq_v0_v1_pos {tri : triangle ℝ} (hnd : NonDegenerate tri) :
    0 < distSq tri.v0 tri.v1 := by
  rw [distSq_eq_dotProduct]
  apply dotProduct_sub_self_pos
  intro h
  apply hnd
  simp only [crossProduct, sub_x, sub_y, sub_z, ← h]
  apply vector3f_ext <;> simp

/-- C18. For a non-degenerate triangle whose edges have length at most `L` (so in
particular for `L` the largest edge length) and a point `P` whose distance from each
of the three vertices is at least `10 * L`, the point differs from the three
vertices and `isPointInsideTriangle` returns false; this holds for every such point,
in the plane of the triangle or not. -/
theorem isPointInsideTriangle_far_false (P : vector3f ℝ) (tri : triangle ℝ) (L : ℝ)
    (hnd : NonDegenerate tri)
    (h01 : Real.sqrt (distSq tri.v0 tri.v1) ≤ L) (h12 : Real.sqrt (distSq tri.v1 tri.v2) ≤ L)
    (h20 : Real.sqrt (distSq tri.v2 tri.v0) ≤ L)
    (hf0 : 10 * L ≤ Real.sqrt (distSq P tri.v0)) (hf1 : 10 * L ≤ Real.sqrt (distSq P tri.v1))
    (hf2 : 10 * L ≤ Real.sqrt (distSq P tri.v2)) :
    (P ≠ tri.v0 ∧ P ≠ tri.v1 ∧ P ≠ tri.v2) ∧
    isPointInsideTriangle Real.sqrt Real.arccos P tri = false := by
  have hLpos : 0 < L := lt_of_lt_of_le (Real.sqrt_pos.2 (distSq_v0_v1_pos hnd)) h01
  have hne : ∀ v : vector3f ℝ, 10 * L ≤ Real.sqrt (distSq P v) → P ≠ v := by
    intro v hv hPv
    rw [hPv] at hv
    have : distSq v v = 0 := by simp only [distSq]; ring
    rw [this, Real.sqrt_zero] at hv
    linarith
  refine ⟨⟨hne _ hf0, hne _ hf1, hne _ hf2⟩, ?_⟩
  rw [← Bool.not_eq_true, isPointInsideTriangle_eq_true_iff, abs_lt]
  rintro ⟨hlow, -⟩
  have a01 := arccos_dotProduct_normalize_le _ _
    (dotProduct_nonneg_of_far hLpos.le h01 hf0 hf1)
  have a12 := arccos_dotProduct_normalize_le _ _
    (dotProduct_nonneg_of_far hLpos.le h12 hf1 hf2)
  have a20 := arccos_dotProduct_normalize_le _ _
    (dotProduct_nonneg_of_far hLpos.le h20 hf2 hf0)
  have hpi := Real.pi_lt_d2
  norm_num at hlow hpi
  linarith

lemma sqrt_le_of_le_sq {x y : ℝ} (hy : 0 ≤ y) (h : x ≤ y ^ 2) : Real.sqrt x ≤ y :=
  (Real.sqrt_le_left hy).2 h

/-- C18 at the triangle `(0,0,0), (3,0,0), (0,4,0)` with largest edge `5` and the
point `(100,0,0)`. -/
theorem isPointInsideTriangle_far_false_witness :
    NonDegenerate (triangleOf (⟨0, 0, 0⟩ : vector3f ℝ) ⟨3, 0, 0⟩ ⟨0, 4, 0⟩) ∧
    isPointInsideTriangle Real.sqrt Real.arccos ⟨100, 0, 0⟩
      (triangleOf (⟨0, 0, 0⟩ : vector3f ℝ) ⟨3, 0, 0⟩ ⟨0, 4, 0⟩) = false :=
  have hnd : NonDegenerate (triangleOf (⟨0, 0, 0⟩ : vector3f ℝ) ⟨3, 0, 0⟩ ⟨0, 4, 0⟩) := by
    norm_num [NonDegenerate, triangleOf, crossProduct]
  ⟨hnd, (isPointInsideTriangle_far_false ⟨100, 0, 0⟩ _ 5 hnd
    (sqrt_le_of_le_sq (by norm_num) (by norm_num [distSq, triangleOf]))
    (sqrt_le_of_le_sq (by norm_num) (by norm_num [distSq, triangleOf]))
    (sqrt_le_of_le_sq (by norm_num) (by norm_num [distSq, triangleOf]))
    (Real.le_sqrt_of_sq_le (by norm_num [distSq, triangleOf]))
    (Real.le_sqrt_of_sq_le (by norm_num [distSq, triangleOf]))
    (Real.le_sqrt_of_sq_le (by norm_num [distSq, triangleOf]))).2⟩

/-! ## Evaluating the checks on concrete triangles -/

@[simp] lemma createBoundingSphere_v0 {α : Type} [LinearOrderedField α] (sqrt : α → α)
    (tri : triangle α) : (createBoundingSphere sqrt tri).v0 = tri.v0 := rfl

@[simp] lemma createBoundingSphere_v1 {α : Type} [LinearOrderedField α] (sqrt : α → α)
    (tri : triangle α) : (createBoundingSphere sqrt tri).v1 = tri.v1 := rfl

@[simp] lemma createBoundingSphere_v2 {α : Type} [LinearOrderedField α] (sqrt : α → α)
    (tri : triangle α) : (createBoundingSphere sqrt tri).v2 = tri.v2 := rfl

/-- The classifier gives the same answer on a triangle and on the triangle with its
sphere rebuilt. -/
lemma isPointInsideTriangle_createBoundingSphere {α : Type} [LinearOrderedField α]
    (sqrt acos : α → α) (P : vector3f α) (tri : triangle α) :
    isPointInsideTriangle sqrt acos P (createBoundingSphere sqrt tri) =
      isPointInsideTriangle sqrt acos P tri :=
  rfl

/-- The narrow phase reads only the vertices, so rebuilding the spheres does not
change its answer. -/
lemma doTrianglesIntersect_createBoundingSphere {α : Type} [LinearOrderedField α]
    (sqrt acos : α → α) (vPoint0 : vector3f α) (A B : triangle α) :
    doTrianglesIntersect sqrt acos vPoint0 (createBoundingSphere sqrt A)
        (createBoundingSphere sqrt B) =
      doTrianglesIntersect sqrt acos vPoint0 A B :=
  rfl

/-- The narrow phase as the disjunction of its three edge tests. -/
lemma doTrianglesIntersect_eq_or {α : Type} [LinearOrderedField α] (sqrt acos : α → α)
    (vPoint0 v : vector3f α) (A B : triangle α) :
    doTrianglesIntersect sqrt acos vPoint0 A B =
      (((getLinePlaneIntersectionPoint B.v0 B.v1 A.v0
            (crossProduct (A.v1 - A.v0) (A.v2 - A.v0)) v).1 &&
          isPointInsideTriangle sqrt acos (getLinePlaneIntersectionPoint B.v0 B.v1 A.v0
            (crossProduct (A.v1 - A.v0) (A.v2 - A.v0)) v).2 A) ||
        (((getLinePlaneIntersectionPoint B.v1 B.v2 A.v0
            (crossProduct (A.v1 - A.v0) (A.v2 - A.v0)) v).1 &&
          isPointInsideTriangle sqrt acos (getLinePlaneIntersectionPoint B.v1 B.v2 A.v0
            (crossProduct (A.v1 - A.v0) (A.v2 - A.v0)) v).2 A) ||
        ((getLinePlaneIntersectionPoint B.v2 B.v0 A.v0
            (crossProduct (A.v1 - A.v0) (A.v2 - A.v0)) v).1 &&
          isPointInsideTriangle sqrt acos (getLinePlaneIntersectionPoint B.v2 B.v0 A.v0
            (crossProduct (A.v1 - A.v0) (A.v2 - A.v0)) v).2 A))) := by
  have e1 := edge_test_iff sqrt acos B.v0 B.v1 A.v0
    (crossProduct (A.v1 - A.v0) (A.v2 - A.v0)) vPoint0 v A
  have e2 := edge_test_iff sqrt acos B.v1 B.v2 A.v0
    (crossProduct (A.v1 - A.v0) (A.v2 - A.v0))
    (getLinePlaneIntersectionPoint B.v0 B.v1 A.v0
      (crossProduct (A.v1 - A.v0) (A.v2 - A.v0)) vPoint0).2 v A
  have e3 := edge_test_iff sqrt acos B.v2 B.v0 A.v0
    (crossProduct (A.v1 - A.v0) (A.v2 - A.v0))
    (getLinePlaneIntersectionPoint B.v1 B.v2 A.v0
      (crossProduct (A.v1 - A.v0) (A.v2 - A.v0))
      (getLinePlaneIntersectionPoint B.v0 B.v1 A.v0
        (crossProduct (A.v1 - A.v0) (A.v2 - A.v0)) vPoint0).2).2 v A
  rw [← Bool.and_eq_true] at e1 e2 e3
  rw [Bool.eq_iff_iff, Bool.or_eq_true, Bool.or_eq_true, ← e1, ← e2, ← e3]
  simp only [doTrianglesIntersect, isPointInsideTriangle_vNormal]
  split_ifs with h1 h2 h3
  · simp only [h1, true_or]
  · simp only [h2, true_or, or_true]
  · simp only [h3, or_true]
  · simp only [Bool.false_eq_true, false_iff, not_or]
    exact ⟨h1, h2, h3⟩

/-- A point strictly inside a non-degenerate triangle is accepted. -/
lemma isPointInsideTriangle_true_of_strictlyInside {P : vector3f ℝ} {tri : triangle ℝ}
    (hnd : NonDegenerate tri) (hin : StrictlyInside P tri) :
    isPointInsideTriangle Real.sqrt Real.arccos P tri = true := by
  rw [isPointInsideTriangle_eq_true_iff, angle_sum_of_strictlyInside hnd hin]
  exact two_pi_in_window

/-- A point from which the three vertices are seen in directions with pairwise
non-negative dot products is rejected. -/
lemma isPointInsideTriangle_false_of_dotProduct_nonneg {P : vector3f ℝ} {tri : triangle ℝ}
    (h01 : 0 ≤ dotProduct (P - tri.v0) (P - tri.v1))
    (h12 : 0 ≤ dotProduct (P - tri.v1) (P - tri.v2))
    (h20 : 0 ≤ dotProduct (P - tri.v2) (P - tri.v0)) :
    isPointInsideTriangle Real.sqrt Real.arccos P tri = false := by
  rw [← Bool.not_eq_true, isPointInsideTriangle_eq_true_iff, abs_lt]
  rintro ⟨hlow, -⟩
  have a01 := arccos_dotProduct_normalize_le _ _ h01
  have a12 := arccos_dotProduct_normalize_le _ _ h12
  have a20 := arccos_dotProduct_normalize_le _ _ h20
  have hpi := Real.pi_lt_d2
  norm_num at hlow hpi
  linarith

/-- A point in the relative interior of the edge `v0 v1` (the vector to `v1` is the
opposite of the vector to `v0`, up to the `toE` image) is accepted. -/
lemma isPointInsideTriangle_true_of_opposite {P : vector3f ℝ} {tri : triangle ℝ}
    (h0 : P ≠ tri.v0) (hopp : toE (P - tri.v1) = -toE (P - tri.v0)) :
    isPointInsideTriangle Real.sqrt Real.arccos P tri = true := by
  rw [isPointInsideTriangle_eq_true_iff, arccos_dotProduct_normalize,
    arccos_dotProduct_normalize, arccos_dotProduct_normalize, hopp,
    InnerProductGeometry.angle_self_neg_of_nonzero (toE_ne_zero_of_ne h0),
    InnerProductGeometry.angle_neg_left,
    InnerProductGeometry.angle_comm (toE (P - tri.v2)) (toE (P - tri.v0))]
  have e : Real.pi + (Real.pi - InnerProductGeometry.angle (toE (P - tri.v0))
      (toE (P - tri.v2))) + InnerProductGeometry.angle (toE (P - tri.v0))
      (toE (P - tri.v2)) = 2 * Real.pi := by ring
  rw [e]
  exact two_pi_in_window

/-- Freshly built spheres intersect as soon as the two centres are closer than the
first centre is to its vertex `v0`. -/
lemma doSpheresIntersect_of_dist_lt (A B : triangle ℝ)
    (h : distSq (createBoundingSphere Real.sqrt A).vCenter
        (createBoundingSphere Real.sqrt B).vCenter <
      distSq (createBoundingSphere Real.sqrt A).vCenter A.v0) :
    doSpheresIntersect Real.sqrt (createBoundingSphere Real.sqrt A)
      (createBoundingSphere Real.sqrt B) = true := by
  rw [doSpheresIntersect_real_iff]
  have hA := (createBoundingSphere_radius_ge Real.sqrt A).1
  have hB := (createBoundingSphere_radius_ge Real.sqrt B).1
  rw [← distSq_eq_mul] at hA hB
  have hB0 := Real.sqrt_nonneg (distSq (createBoundingSphere Real.sqrt B).vCenter
    (createBoundingSphere Real.sqrt B).v0)
  have hlt := Real.sqrt_lt_sqrt (distSq_nonneg _ _) h
  rw [createBoundingSphere_v0] at hA
  linarith

/-- The edge `v0 v1` of the second default triangle meets the plane of the first one
at `(0,0,1)`. -/
lemma sample_edge_crossing (v : vector3f ℝ) :
    getLinePlaneIntersectionPoint (sampleTriangle2 : triangle ℝ).v0
        (sampleTriangle2 : triangle ℝ).v1 (sampleTriangle1 : triangle ℝ).v0
        (crossProduct ((sampleTriangle1 : triangle ℝ).v1 - (sampleTriangle1 : triangle ℝ).v0)
          ((sampleTriangle1 : triangle ℝ).v2 - (sampleTriangle1 : triangle ℝ).v0)) v =
      (true, ⟨0, 0, 1⟩) := by
  rw [getLinePlaneIntersectionPoint_eq]
  norm_num [sampleTriangle1, sampleTriangle2, triangleOf, dotProduct, crossProduct]

/-- The point `(0,0,1)`, the midpoint of the edge `v0 v1` of the first default
triangle, is accepted by the classifier. -/
lemma sample_point_inside :
    isPointInsideTriangle Real.sqrt Real.arccos ⟨0, 0, 1⟩ (sampleTriangle1 : triangle ℝ)
      = true := by
  apply isPointInsideTriangle_true_of_opposite
  · norm_num [sampleTriangle1, triangleOf]
  · ext i
    fin_cases i <;> simp [toE, sampleTriangle1, triangleOf]

/-- C17. For the default triangles of the sample, with their spheres built by
`createBoundingSphere`, the collision check yields `sphereVerdict = COLLISION_YES`
and `triangleVerdict = COLLISION_YES`: the edge `(0,2,0)-(0,-2,2)` of Triangle2
meets the plane of Triangle1 at `(0,0,1)`, which is classified inside Triangle1. -/
theorem collisionCheck_sample_defaults (vPoint0 : vector3f ℝ) :
    getLinePlaneIntersectionPoint (⟨0, 2, 0⟩ : vector3f ℝ) ⟨0, -2, 2⟩
        (sampleTriangle1 : triangle ℝ).v0
        (crossProduct ((sampleTriangle1 : triangle ℝ).v1 - (sampleTriangle1 : triangle ℝ).v0)
          ((sampleTriangle1 : triangle ℝ).v2 - (sampleTriangle1 : triangle ℝ).v0)) vPoint0 =
      (true, ⟨0, 0, 1⟩) ∧
    isPointInsideTriangle Real.sqrt Real.arccos ⟨0, 0, 1⟩ (sampleTriangle1 : triangle ℝ)
      = true ∧
    (collisionCheck Real.sqrt Real.arccos vPoint0 (createBoundingSphere Real.sqrt sampleTriangle1)
      (createBoundingSphere Real.sqrt sampleTriangle2)).1 = Collision.COLLISION_YES ∧
    (collisionCheck Real.sqrt Real.arccos vPoint0 (createBoundingSphere Real.sqrt sampleTriangle1)
      (createBoundingSphere Real.sqrt sampleTriangle2)).2.1 = Collision.COLLISION_YES := by
  have hg := sample_edge_crossing vPoint0
  have hs : doSpheresIntersect Real.sqrt
      (createBoundingSphere Real.sqrt (sampleTriangle1 : triangle ℝ))
      (createBoundingSphere Real.sqrt (sampleTriangle2 : triangle ℝ)) = true := by
    apply doSpheresIntersect_of_dist_lt
    rw [createBoundingSphere_vCenter, createBoundingSphere_vCenter]
    norm_num [sampleTriangle1, sampleTriangle2, triangleOf, distSq]
  have ht : doTrianglesIntersect Real.sqrt Real.arccos vPoint0
      (createBoundingSphere Real.sqrt (sampleTriangle1 : triangle ℝ))
      (createBoundingSphere Real.sqrt (sampleTriangle2 : triangle ℝ)) = true := by
    rw [doTrianglesIntersect_createBoundingSphere,
      doTrianglesIntersect_eq_or Real.sqrt Real.arccos vPoint0 vPoint0, hg]
    simp only [sample_point_inside, Bool.and_self, Bool.true_or]
  refine ⟨hg, sample_point_inside, ?_, ?_⟩
  · simp only [collisionCheck, hs, ht, if_true]
  · simp only [collisionCheck, hs, ht, if_true]

/-! ### A pair on which the narrow phase is not symmetric -/

/-- No edge of `bigTriangle` is accepted against `smallTriangle`: the first edge is
parallel to its plane, the other two cross it at `(5,0,0)` and `(-5,0,0)`, which are
classified outside. -/
lemma doTrianglesIntersect_small_big (vPoint0 : vector3f ℝ) :
    doTrianglesIntersect Real.sqrt Real.arccos vPoint0 (smallTriangle : triangle ℝ)
      bigTriangle = false := by
  have g1 : getLinePlaneIntersectionPoint (bigTriangle : triangle ℝ).v0
      (bigTriangle : triangle ℝ).v1 (smallTriangle : triangle ℝ).v0
      (crossProduct ((smallTriangle : triangle ℝ).v1 - (smallTriangle : triangle ℝ).v0)
        ((smallTriangle : triangle ℝ).v2 - (smallTriangle : triangle ℝ).v0)) vPoint0 =
      (false, vPoint0) := by
    rw [getLinePlaneIntersectionPoint_eq]
    norm_num [smallTriangle, bigTriangle, triangleOf, dotProduct, crossProduct]
  have g2 : getLinePlaneIntersectionPoint (bigTriangle : triangle ℝ).v1
      (bigTriangle : triangle ℝ).v2 (smallTriangle : triangle ℝ).v0
      (crossProduct ((smallTriangle : triangle ℝ).v1 - (smallTriangle : triangle ℝ).v0)
        ((smallTriangle : triangle ℝ).v2 - (smallTriangle : triangle ℝ).v0)) vPoint0 =
      (true, ⟨5, 0, 0⟩) := by
    rw [getLinePlaneIntersectionPoint_eq]
    norm_num [smallTriangle, bigTriangle, triangleOf, dotProduct, crossProduct]
  have g3 : getLinePlaneIntersectionPoint (bigTriangle : triangle ℝ).v2
      (bigTriangle : triangle ℝ).v0 (smallTriangle : triangle ℝ).v0
      (crossProduct ((smallTriangle : triangle ℝ).v1 - (smallTriangle : triangle ℝ).v0)
        ((smallTriangle : triangle ℝ).v2 - (smallTriangle : triangle ℝ).v0)) vPoint0 =
      (true, ⟨-5, 0, 0⟩) := by
    rw [getLinePlaneIntersectionPoint_eq]
    norm_num [smallTriangle, bigTriangle, triangleOf, dotProduct, crossProduct]
  have p2 : isPointInsideTriangle Real.sqrt Real.arccos ⟨5, 0, 0⟩
      (smallTriangle : triangle ℝ) = false := by
    apply isPointInsideTriangle_false_of_dotProduct_nonneg <;>
      norm_num [smallTriangle, triangleOf, dotProduct]
  have p3 : isPointInsideTriangle Real.sqrt Real.arccos ⟨-5, 0, 0⟩
      (smallTriangle : triangle ℝ) = false := by
    apply isPointInsideTriangle_false_of_dotProduct_nonneg <;>
      norm_num [smallTriangle, triangleOf, dotProduct]
  rw [doTrianglesIntersect_eq_or Real.sqrt Real.arccos vPoint0 vPoint0, g1, g2, g3]
  simp only [p2, p3, Bool.false_and, Bool.and_false, Bool.or_self]

/-- The edge `v0 v1` of `smallTriangle` crosses `bigTriangle` at the origin, which
lies strictly inside `bigTriangle`. -/
lemma doTrianglesIntersect_big_small (vPoint0 : vector3f ℝ) :
    doTrianglesIntersect Real.sqrt Real.arccos vPoint0 (bigTriangle : triangle ℝ)
      smallTriangle = true := by
  have g1 : getLinePlaneIntersectionPoint (smallTriangle : triangle ℝ).v0
      (smallTriangle : triangle ℝ).v1 (bigTriangle : triangle ℝ).v0
      (crossProduct ((bigTriangle : triangle ℝ).v1 - (bigTriangle : triangle ℝ).v0)
        ((bigTriangle : triangle ℝ).v2 - (bigTriangle : triangle ℝ).v0)) vPoint0 =
      (true, ⟨0, 0, 0⟩) := by
    rw [getLinePlaneIntersectionPoint_eq]
    norm_num [smallTriangle, bigTriangle, triangleOf, dotProduct, crossProduct]
  have hnd : NonDegenerate (bigTriangle : triangle ℝ) := by
    norm_num [NonDegenerate, bigTriangle, triangleOf, crossProduct]
  have hin : StrictlyInside (⟨0, 0, 0⟩ : vector3f ℝ) bigTriangle :=
    ⟨1 / 4, 1 / 4, 1 / 2, by norm_num, by norm_num, by norm_num,
      by norm_num [IsCombination, bigTriangle, triangleOf]⟩
  rw [doTrianglesIntersect_eq_or Real.sqrt Real.arccos vPoint0 vPoint0, g1]
  simp only [isPointInsideTriangle_true_of_strictlyInside hnd hin, Bool.and_self, Bool.true_or]

/-- C16. The narrow phase is not symmetric: for `tri1 = smallTriangle` and
`tri2 = bigTriangle`, with their freshly built (overlapping) bounding spheres,
`doTrianglesIntersect tri1 tri2` returns false while `doTrianglesIntersect tri2 tri1`
returns true, and the two-direction collision check yields
`triangleVerdict = COLLISION_YES`. -/
theorem doTrianglesIntersect_not_symmetric (vPoint0 : vector3f ℝ) :
    ∃ tri1 tri2 : triangle ℝ,
      tri1 = createBoundingSphere Real.sqrt tri1 ∧ tri2 = createBoundingSphere Real.sqrt tri2 ∧
      doSpheresIntersect Real.sqrt tri1 tri2 = true ∧
      doTrianglesIntersect Real.sqrt Real.arccos vPoint0 tri1 tri2 = false ∧
      doTrianglesIntersect Real.sqrt Real.arccos vPoint0 tri2 tri1 = true ∧
      (collisionCheck Real.sqrt Real.arccos vPoint0 tri1 tri2).1 = Collision.COLLISION_YES ∧
      (collisionCheck Real.sqrt Real.arccos vPoint0 tri1 tri2).2.1 =
        Collision.COLLISION_YES := by
  have hs : doSpheresIntersect Real.sqrt
      (createBoundingSphere Real.sqrt (smallTriangle : triangle ℝ))
      (createBoundingSphere Real.sqrt (bigTriangle : triangle ℝ)) = true := by
    apply doSpheresIntersect_of_dist_lt
    rw [createBoundingSphere_vCenter, createBoundingSphere_vCenter]
    norm_num [smallTriangle, bigTriangle, triangleOf, distSq]
  have h12 : doTrianglesIntersect Real.sqrt Real.arccos vPoint0
      (createBoundingSphere Real.sqrt (smallTriangle : triangle ℝ))
      (createBoundingSphere Real.sqrt (bigTriangle : triangle ℝ)) = false := by
    rw [doTrianglesIntersect_createBoundingSphere]
    exact doTrianglesIntersect_small_big vPoint0
  have h21 : doTrianglesIntersect Real.sqrt Real.arccos vPoint0
      (createBoundingSphere Real.sqrt (bigTriangle : triangle ℝ))
      (createBoundingSphere Real.sqrt (smallTriangle : triangle ℝ)) = true := by
    rw [doTrianglesIntersect_createBoundingSphere]
    exact doTrianglesIntersect_big_small vPoint0
  refine ⟨createBoundingSphere Real.sqrt smallTriangle, createBoundingSphere Real.sqrt bigTriangle,
    rfl, rfl, hs, h12, h21, ?_, ?_⟩
  · simp only [collisionCheck, hs, h12, h21, if_true, Bool.false_eq_true, if_false]
  · simp only [collisionCheck, hs, h12, h21, if_true, Bool.false_eq_true, if_false]

/-! ### Triangles in a common plane -/

/-- A segment whose endpoints lie in the plane of `A` is rejected by
`getLinePlaneIntersectionPoint` against that plane: its direction is orthogonal to
the normal. -/
lemma getLinePlaneIntersectionPoint_of_inPlane {s e : vector3f ℝ} {A : triangle ℝ}
    (hs : InPlane s A) (he : InPlane e A) (v : vector3f ℝ) :
    (getLinePlaneIntersectionPoint s e A.v0
      (crossProduct (A.v1 - A.v0) (A.v2 - A.v0)) v).1 = false := by
  have hd : dotProduct (e - s) (crossProduct (A.v1 - A.v0) (A.v2 - A.v0)) = 0 := by
    simp only [InPlane, dotProduct, crossProduct, sub_x, sub_y, sub_z] at hs he ⊢
    linear_combination he - hs
  rw [← Bool.not_eq_true, getLinePlaneIntersectionPoint_fst_iff, hd]
  norm_num

/-- The narrow phase rejects a triangle that lies in the plane of the other one. -/
lemma doTrianglesIntersect_of_liesInPlaneOf {A B : triangle ℝ} (h : LiesInPlaneOf B A)
    (vPoint0 : vector3f ℝ) :
    doTrianglesIntersect Real.sqrt Real.arccos vPoint0 A B = false := by
  obtain ⟨h0, h1, h2⟩ := h
  rw [doTrianglesIntersect_eq_or Real.sqrt Real.arccos vPoint0 vPoint0,
    getLinePlaneIntersectionPoint_of_inPlane h0 h1,
    getLinePlaneIntersectionPoint_of_inPlane h1 h2,
    getLinePlaneIntersectionPoint_of_inPlane h2 h0]
  rfl

lemma coplanarB_liesInPlaneOf : LiesInPlaneOf (coplanarB : triangle ℝ) coplanarA := by
  refine ⟨?_, ?_, ?_⟩ <;>
    norm_num [InPlane, coplanarA, coplanarB, triangleOf, dotProduct, crossProduct]

lemma coplanarA_liesInPlaneOf : LiesInPlaneOf (coplanarA : triangle ℝ) coplanarB := by
  refine ⟨?_, ?_, ?_⟩ <;>
    norm_num [InPlane, coplanarA, coplanarB, triangleOf, dotProduct, crossProduct]

lemma coplanar_spheres_intersect :
    doSpheresIntersect Real.sqrt (createBoundingSphere Real.sqrt (coplanarA : triangle ℝ))
      (createBoundingSphere Real.sqrt (coplanarB : triangle ℝ)) = true := by
  apply doSpheresIntersect_of_dist_lt
  rw [createBoundingSphere_vCenter, createBoundingSphere_vCenter]
  norm_num [coplanarA, coplanarB, triangleOf, distSq]

/-- C15, counterexample. `coplanarA` and `coplanarB` are non-degenerate, lie in the
common plane `z = 0` and share the point `(3/2, 3/2, 0)` interior to both; their
freshly built bounding spheres intersect; yet `doTrianglesIntersect` returns false in
both directions and the collision check yields `triangleVerdict = COLLISION_NO`. -/
theorem coplanar_overlap_not_detected :
    NonDegenerate (coplanarA : triangle ℝ) ∧ NonDegenerate (coplanarB : triangle ℝ) ∧
    LiesInPlaneOf (coplanarB : triangle ℝ) coplanarA ∧
    LiesInPlaneOf (coplanarA : triangle ℝ) coplanarB ∧
    StrictlyInside (⟨3 / 2, 3 / 2, 0⟩ : vector3f ℝ) coplanarA ∧
    StrictlyInside (⟨3 / 2, 3 / 2, 0⟩ : vector3f ℝ) coplanarB ∧
    doSpheresIntersect Real.sqrt (createBoundingSphere Real.sqrt (coplanarA : triangle ℝ))
      (createBoundingSphere Real.sqrt (coplanarB : triangle ℝ)) = true ∧
    ¬ (doTrianglesIntersect Real.sqrt Real.arccos ⟨0, 0, 0⟩
          (createBoundingSphere Real.sqrt (coplanarA : triangle ℝ))
          (createBoundingSphere Real.sqrt (coplanarB : triangle ℝ)) = true ∨
        doTrianglesIntersect Real.sqrt Real.arccos ⟨0, 0, 0⟩
          (createBoundingSphere Real.sqrt (coplanarB : triangle ℝ))
          (createBoundingSphere Real.sqrt (coplanarA : triangle ℝ)) = true) ∧
    (collisionCheck Real.sqrt Real.arccos ⟨0, 0, 0⟩
      (createBoundingSphere Real.sqrt (coplanarA : triangle ℝ))
      (createBoundingSphere Real.sqrt (coplanarB : triangle ℝ))).2.1 =
      Collision.COLLISION_NO := by
  have hAB := doTrianglesIntersect_of_liesInPlaneOf coplanarB_liesInPlaneOf ⟨0, 0, 0⟩
  have hBA := doTrianglesIntersect_of_liesInPlaneOf coplanarA_liesInPlaneOf ⟨0, 0, 0⟩
  refine ⟨?_, ?_, coplanarB_liesInPlaneOf, coplanarA_liesInPlaneOf, ?_, ?_,
    coplanar_spheres_intersect, ?_, ?_⟩
  · norm_num [NonDegenerate, coplanarA, triangleOf, crossProduct]
  · norm_num [NonDegenerate, coplanarB, triangleOf, crossProduct]
  · exact ⟨1 / 4, 3 / 8, 3 / 8, by norm_num, by norm_num, by norm_num,
      by norm_num [IsCombination, coplanarA, triangleOf]⟩
  · exact ⟨3 / 4, 1 / 8, 1 / 8, by norm_num, by norm_num, by norm_num,
      by norm_num [IsCombination, coplanarB, triangleOf]⟩
  · rw [doTrianglesIntersect_createBoundingSphere, doTrianglesIntersect_createBoundingSphere,
      hAB, hBA]
    simp
  · simp only [collisionCheck, coplanar_spheres_intersect, if_true,
      doTrianglesIntersect_createBoundingSphere, hAB, hBA, Bool.false_eq_true, if_false]

/-- C15, amended. For every two triangles that lie in a common plane (each one in
the plane of the other), `doTrianglesIntersect` returns false in both directions,
whether or not the triangles overlap, so the collision check never yields
`triangleVerdict = COLLISION_YES` for them, and yields `COLLISION_NO` when their
spheres intersect: running the narrow phase in both directions does not detect
coplanar overlaps. -/
theorem coplanar_triangles_never_intersect (vPoint0 : vector3f ℝ) (A B : triangle ℝ)
    (hB : LiesInPlaneOf B A) (hA : LiesInPlaneOf A B) :
    doTrianglesIntersect Real.sqrt Real.arccos vPoint0 A B = false ∧
    doTrianglesIntersect Real.sqrt Real.arccos vPoint0 B A = false ∧
    (collisionCheck Real.sqrt Real.arccos vPoint0 A B).2.1 ≠ Collision.COLLISION_YES ∧
    (doSpheresIntersect Real.sqrt A B = true →
      (collisionCheck Real.sqrt Real.arccos vPoint0 A B).2.1 = Collision.COLLISION_NO) := by
  have hAB := doTrianglesIntersect_of_liesInPlaneOf hB vPoint0
  have hBA := doTrianglesIntersect_of_liesInPlaneOf hA vPoint0
  refine ⟨hAB, hBA, ?_, ?_⟩
  · simp only [collisionCheck, hAB, hBA, Bool.false_eq_true, if_false]
    split_ifs <;> simp
  · intro hs
    simp only [collisionCheck, hs, if_true, hAB, hBA, Bool.false_eq_true, if_false]

/-- C15, amended, at `coplanarA` and `coplanarB`. -/
theorem coplanar_triangles_never_intersect_witness :
    LiesInPlaneOf (coplanarB : triangle ℝ) coplanarA ∧
    LiesInPlaneOf (coplanarA : triangle ℝ) coplanarB ∧
    doTrianglesIntersect Real.sqrt Real.arccos ⟨0, 0, 0⟩ (coplanarA : triangle ℝ)
      coplanarB = false ∧
    doTrianglesIntersect Real.sqrt Real.arccos ⟨0, 0, 0⟩ (coplanarB : triangle ℝ)
      coplanarA = false :=
  ⟨coplanarB_liesInPlaneOf, coplanarA_liesInPlaneOf,
    (coplanar_triangles_never_intersect ⟨0, 0, 0⟩ coplanarA coplanarB
      coplanarB_liesInPlaneOf coplanarA_liesInPlaneOf).1,
    (coplanar_triangles_never_intersect ⟨0, 0, 0⟩ coplanarA coplanarB
      coplanarB_liesInPlaneOf coplanarA_liesInPlaneOf).2.1⟩

/-! ### What a negative broad phase rules out -/

lemma running_max_le {α : Type} [LinearOrderedField α] (a b c M : α) (ha : a ≤ M)
    (hb : b ≤ M) (hc : c ≤ M) :
    (if (if a < b then b else a) < c then c else (if a < b then b else a)) ≤ M := by
  split_ifs <;> assumption

/-- An upper bound on the three squared distances from the centre bounds the radius
chosen by `createBoundingSphere`. -/
lemma createBoundingSphere_radius_le (tri : triangle ℝ) (M : ℝ) (hM : 0 ≤ M)
    (h0 : distSq (createBoundingSphere Real.sqrt tri).vCenter tri.v0 ≤ M ^ 2)
    (h1 : distSq (createBoundingSphere Real.sqrt tri).vCenter tri.v1 ≤ M ^ 2)
    (h2 : distSq (createBoundingSphere Real.sqrt tri).vCenter tri.v2 ≤ M ^ 2) :
    (createBoundingSphere Real.sqrt tri).fRadius ≤ M := by
  rw [distSq_eq_mul] at h0 h1 h2
  exact running_max_le _ _ _ M ((Real.sqrt_le_left hM).2 h0) ((Real.sqrt_le_left hM).2 h1)
    ((Real.sqrt_le_left hM).2 h2)

lemma sqrt_distSq_eq_norm (a b : vector3f ℝ) :
    Real.sqrt (distSq a b) = ‖toE a - toE b‖ := by
  rw [← toE_sub, norm_toE, distSq_eq_dotProduct]

lemma toE_combination {P : vector3f ℝ} {tri : triangle ℝ} {a b c : ℝ}
    (h : IsCombination P tri a b c) :
    toE P = a • toE tri.v0 + b • toE tri.v1 + c • toE tri.v2 := by
  obtain ⟨-, hx, hy, hz⟩ := h
  ext i
  fin_cases i
  · simp [toE, hx]
  · simp [toE, hy]
  · simp [toE, hz]

/-- Every point of the closed triangle lies in the closed ball built by
`createBoundingSphere`. -/
lemma sqrt_distSq_le_radius_of_inClosedTriangle {P : vector3f ℝ} {tri : triangle ℝ}
    (h : InClosedTriangle P tri) :
    Real.sqrt (distSq P (createBoundingSphere Real.sqrt tri).vCenter) ≤
      (createBoundingSphere Real.sqrt tri).fRadius := by
  obtain ⟨a, b, c, ha, hb, hc, hcomb⟩ := h
  obtain ⟨h0, h1, h2⟩ := createBoundingSphere_radius_ge Real.sqrt tri
  rw [← distSq_eq_mul, distSq_comm, sqrt_distSq_eq_norm] at h0 h1 h2
  rw [createBoundingSphere_v0] at h0
  rw [createBoundingSphere_v1] at h1
  rw [createBoundingSphere_v2] at h2
  rw [sqrt_distSq_eq_norm, toE_combination hcomb]
  have hsum := hcomb.1
  have e : a • toE tri.v0 + b • toE tri.v1 + c • toE tri.v2 -
      toE (createBoundingSphere Real.sqrt tri).vCenter =
      a • (toE tri.v0 - toE (createBoundingSphere Real.sqrt tri).vCenter) +
      b • (toE tri.v1 - toE (createBoundingSphere Real.sqrt tri).vCenter) +
      c • (toE tri.v2 - toE (createBoundingSphere Real.sqrt tri).vCenter) := by
    have e1 : toE (createBoundingSphere Real.sqrt tri).vCenter =
        (a + b + c) • toE (createBoundingSphere Real.sqrt tri).vCenter := by
      rw [hsum, one_smul]
    nth_rewrite 1 [e1]
    simp only [add_smul, smul_sub]
    abel
  rw [e]
  calc ‖a • (toE tri.v0 - toE (createBoundingSphere Real.sqrt tri).vCenter) +
        b • (toE tri.v1 - toE (createBoundingSphere Real.sqrt tri).vCenter) +
        c • (toE tri.v2 - toE (createBoundingSphere Real.sqrt tri).vCenter)‖
      ≤ ‖a • (toE tri.v0 - toE (createBoundingSphere Real.sqrt tri).vCenter)‖ +
        ‖b • (toE tri.v1 - toE (createBoundingSphere Real.sqrt tri).vCenter)‖ +
        ‖c • (toE tri.v2 - toE (createBoundingSphere Real.sqrt tri).vCenter)‖ :=
        norm_add₃_le
    _ = a * ‖toE tri.v0 - toE (createBoundingSphere Real.sqrt tri).vCenter‖ +
        b * ‖toE tri.v1 - toE (createBoundingSphere Real.sqrt tri).vCenter‖ +
        c * ‖toE tri.v2 - toE (createBoundingSphere Real.sqrt tri).vCenter‖ := by
        rw [norm_smul, norm_smul, norm_smul, Real.norm_of_nonneg ha, Real.norm_of_nonneg hb,
          Real.norm_of_nonneg hc]
    _ ≤ a * (createBoundingSphere Real.sqrt tri).fRadius +
        b * (createBoundingSphere Real.sqrt tri).fRadius +
        c * (createBoundingSphere Real.sqrt tri).fRadius := by
        gcongr
    _ = (createBoundingSphere Real.sqrt tri).fRadius := by
        rw [← add_mul, ← add_mul, hsum, one_mul]

/-- The point `grazingPoint` passes the angle test of `farTriangle`: it sees the
vertices of `farTriangle` in the same three directions as those of
`grazingTriangle`. -/
lemma far_point_accepted :
    isPointInsideTriangle Real.sqrt Real.arccos (grazingPoint : vector3f ℝ) farTriangle
      = true := by
  have hs : Real.sqrt ((0 : ℝ) * 0 + (-1000002000) * (-1000002000) + 0 * 0) = 1000002000 := by
    rw [show (0 : ℝ) * 0 + (-1000002000) * (-1000002000) + 0 * 0 = 1000002000 * 1000002000
      by norm_num]
    exact Real.sqrt_mul_self (by norm_num)
  have hv : (grazingPoint : vector3f ℝ) - (farTriangle : triangle ℝ).v2 =
      ⟨0, -1000002000, 0⟩ := by
    apply vector3f_ext <;> norm_num [grazingPoint, farTriangle, triangleOf]
  have n2 : normalize Real.sqrt ((grazingPoint : vector3f ℝ) - (farTriangle : triangle ℝ).v2) =
      normalize Real.sqrt ((grazingPoint : vector3f ℝ) - (grazingTriangle : triangle ℝ).v2) := by
    rw [normalize_grazing2, hv]
    simp only [normalize, length, hs, zero_div]
    norm_num
  have e0 : (farTriangle : triangle ℝ).v0 = (grazingTriangle : triangle ℝ).v0 := rfl
  have e1 : (farTriangle : triangle ℝ).v1 = (grazingTriangle : triangle ℝ).v1 := rfl
  rw [isPointInsideTriangle_eq_true_iff, n2, e0, e1]
  exact grazing_angle_sum

/-- The edge `v0 v1` of `tinyTriangle` crosses the plane of `farTriangle` at
`grazingPoint`. -/
lemma tiny_edge_crossing (v : vector3f ℝ) :
    getLinePlaneIntersectionPoint (tinyTriangle : triangle ℝ).v0
        (tinyTriangle : triangle ℝ).v1 (farTriangle : triangle ℝ).v0
        (crossProduct ((farTriangle : triangle ℝ).v1 - (farTriangle : triangle ℝ).v0)
          ((farTriangle : triangle ℝ).v2 - (farTriangle : triangle ℝ).v0)) v =
      (true, grazingPoint) := by
  rw [getLinePlaneIntersectionPoint_eq]
  norm_num [tinyTriangle, farTriangle, grazingPoint, triangleOf, dotProduct, crossProduct]

/-- The freshly built spheres of `farTriangle` and `tinyTriangle` are more than the
sum of their radii apart. -/
lemma far_tiny_spheres_disjoint :
    doSpheresIntersect Real.sqrt (createBoundingSphere Real.sqrt (farTriangle : triangle ℝ))
      (createBoundingSphere Real.sqrt (tinyTriangle : triangle ℝ)) = false := by
  have hA : (createBoundingSphere Real.sqrt (farTriangle : triangle ℝ)).fRadius ≤ 500001000 := by
    apply createBoundingSphere_radius_le _ _ (by norm_num) <;>
      rw [createBoundingSphere_vCenter] <;>
      norm_num [farTriangle, triangleOf, distSq]
  have hB : (createBoundingSphere Real.sqrt (tinyTriangle : triangle ℝ)).fRadius ≤ 2 := by
    apply createBoundingSphere_radius_le _ _ (by norm_num) <;>
      rw [createBoundingSphere_vCenter] <;>
      norm_num [tinyTriangle, triangleOf, distSq]
  have hd : (500002000 : ℝ) ≤ Real.sqrt (distSq
      (createBoundingSphere Real.sqrt (farTriangle : triangle ℝ)).vCenter
      (createBoundingSphere Real.sqrt (tinyTriangle : triangle ℝ)).vCenter) := by
    apply Real.le_sqrt_of_sq_le
    rw [createBoundingSphere_vCenter, createBoundingSphere_vCenter]
    norm_num [farTriangle, tinyTriangle, triangleOf, distSq]
  rw [← Bool.not_eq_true, doSpheresIntersect_real_iff, not_lt]
  linarith

/-- C14, counterexample. `farTriangle` and `tinyTriangle` are non-degenerate, their
freshly built bounding spheres do not intersect (`doSpheresIntersect` returns false
and the check reports `COLLISION_NOT_CHECKED`), and yet
`doTrianglesIntersect farTriangle tinyTriangle` returns true: the edge `v0 v1` of
`tinyTriangle` crosses the plane of `farTriangle` at `grazingPoint`, a point outside
`farTriangle` and outside its sphere that the angle test accepts. -/
theorem broad_phase_hides_narrow_yes :
    NonDegenerate (farTriangle : triangle ℝ) ∧ NonDegenerate (tinyTriangle : triangle ℝ) ∧
    doSpheresIntersect Real.sqrt (createBoundingSphere Real.sqrt (farTriangle : triangle ℝ))
      (createBoundingSphere Real.sqrt (tinyTriangle : triangle ℝ)) = false ∧
    (collisionCheck Real.sqrt Real.arccos ⟨0, 0, 0⟩
      (createBoundingSphere Real.sqrt (farTriangle : triangle ℝ))
      (createBoundingSphere Real.sqrt (tinyTriangle : triangle ℝ))).2.1 =
      Collision.COLLISION_NOT_CHECKED ∧
    doTrianglesIntersect Real.sqrt Real.arccos ⟨0, 0, 0⟩
      (createBoundingSphere Real.sqrt (farTriangle : triangle ℝ))
      (createBoundingSphere Real.sqrt (tinyTriangle : triangle ℝ)) = true ∧
    ¬ InClosedTriangle (grazingPoint : vector3f ℝ) farTriangle := by
  refine ⟨?_, ?_, far_tiny_spheres_disjoint, ?_, ?_, ?_⟩
  · norm_num [NonDegenerate, farTriangle, triangleOf, crossProduct]
  · norm_num [NonDegenerate, tinyTriangle, triangleOf, crossProduct]
  · rw [collisionCheck_of_spheres_false _ _ _ _ _ far_tiny_spheres_disjoint]
  · rw [doTrianglesIntersect_createBoundingSphere,
      doTrianglesIntersect_eq_or Real.sqrt Real.arccos ⟨0, 0, 0⟩ ⟨0, 0, 0⟩, tiny_edge_crossing]
    simp only [far_point_accepted, Bool.and_self, Bool.true_or]
  · rintro ⟨a, b, c, ha, hb, hc, -, -, hy, -⟩
    simp only [grazingPoint, farTriangle, triangleOf] at hy
    nlinarith

/-- C14, amended. For every pair of triangles whose bounding spheres were built by
`createBoundingSphere` from their current vertices, if `doSpheresIntersect` returns
false then every point common to the two closed triangles lies on both spheres (at
distance exactly `fRadius` from each centre: it is a point where the spheres touch);
so the two triangles share no point strictly inside either sphere, and skipping the
narrow phase hides no crossing of one triangle through the inside of the other. -/
theorem broad_phase_conservative (A B : triangle ℝ) (P : vector3f ℝ)
    (h : doSpheresIntersect Real.sqrt (createBoundingSphere Real.sqrt A)
      (createBoundingSphere Real.sqrt B) = false)
    (hA : InClosedTriangle P A) (hB : InClosedTriangle P B) :
    Real.sqrt (distSq P (createBoundingSphere Real.sqrt A).vCenter) =
      (createBoundingSphere Real.sqrt A).fRadius ∧
    Real.sqrt (distSq P (createBoundingSphere Real.sqrt B).vCenter) =
      (createBoundingSphere Real.sqrt B).fRadius := by
  rw [← Bool.not_eq_true, doSpheresIntersect_real_iff, not_lt] at h
  have h1 := sqrt_distSq_le_radius_of_inClosedTriangle hA
  have h2 := sqrt_distSq_le_radius_of_inClosedTriangle hB
  have htri : Real.sqrt (distSq (createBoundingSphere Real.sqrt A).vCenter
      (createBoundingSphere Real.sqrt B).vCenter) ≤
      Real.sqrt (distSq P (createBoundingSphere Real.sqrt A).vCenter) +
      Real.sqrt (distSq P (createBoundingSphere Real.sqrt B).vCenter) := by
    rw [distSq_comm P (createBoundingSphere Real.sqrt A).vCenter, sqrt_distSq_eq_norm,
      sqrt_distSq_eq_norm, sqrt_distSq_eq_norm]
    exact norm_sub_le_norm_sub_add_norm_sub _ _ _
  constructor <;> linarith

/-- C14, amended, at `rightTriangleNeg` and `rightTrianglePos`, whose spheres of
radius 5 around `(-3,-4,0)` and `(3,4,0)` touch at the common vertex `(0,0,0)`. -/
theorem broad_phase_conservative_witness :
    doSpheresIntersect Real.sqrt (createBoundingSphere Real.sqrt (rightTriangleNeg : triangle ℝ))
      (createBoundingSphere Real.sqrt (rightTrianglePos : triangle ℝ)) = false ∧
    InClosedTriangle (⟨0, 0, 0⟩ : vector3f ℝ) rightTriangleNeg ∧
    InClosedTriangle (⟨0, 0, 0⟩ : vector3f ℝ) rightTrianglePos ∧
    Real.sqrt (distSq (⟨0, 0, 0⟩ : vector3f ℝ)
      (createBoundingSphere Real.sqrt (rightTriangleNeg : triangle ℝ)).vCenter) =
      (createBoundingSphere Real.sqrt (rightTriangleNeg : triangle ℝ)).fRadius :=
  have hA : (createBoundingSphere Real.sqrt (rightTriangleNeg : triangle ℝ)).fRadius ≤ 5 := by
    apply createBoundingSphere_radius_le _ _ (by norm_num) <;>
      rw [createBoundingSphere_vCenter] <;>
      norm_num [rightTriangleNeg, triangleOf, distSq]
  have hB : (createBoundingSphere Real.sqrt (rightTrianglePos : triangle ℝ)).fRadius ≤ 5 := by
    apply createBoundingSphere_radius_le _ _ (by norm_num) <;>
      rw [createBoundingSphere_vCenter] <;>
      norm_num [rightTrianglePos, triangleOf, distSq]
  have hd : (10 : ℝ) ≤ Real.sqrt (distSq
      (createBoundingSphere Real.sqrt (rightTriangleNeg : triangle ℝ)).vCenter
      (createBoundingSphere Real.sqrt (rightTrianglePos : triangle ℝ)).vCenter) := by
    apply Real.le_sqrt_of_sq_le
    rw [createBoundingSphere_vCenter, createBoundingSphere_vCenter]
    norm_num [rightTriangleNeg, rightTrianglePos, triangleOf, distSq]
  have hs : doSpheresIntersect Real.sqrt
      (createBoundingSphere Real.sqrt (rightTriangleNeg : triangle ℝ))
      (createBoundingSphere Real.sqrt (rightTrianglePos : triangle ℝ)) = false := by
    rw [← Bool.not_eq_true, doSpheresIntersect_real_iff, not_lt]
    linarith
  have iA : InClosedTriangle (⟨0, 0, 0⟩ : vector3f ℝ) rightTriangleNeg :=
    ⟨1, 0, 0, by norm_num, le_refl _, le_refl _,
      by norm_num [IsCombination, rightTriangleNeg, triangleOf]⟩
  have iB : InClosedTriangle (⟨0, 0, 0⟩ : vector3f ℝ) rightTrianglePos :=
    ⟨1, 0, 0, by norm_num, le_refl _, le_refl _,
      by norm_num [IsCombination, rightTrianglePos, triangleOf]⟩
  ⟨hs, iA, iB, (broad_phase_conservative _ _ _ hs iA iB).1⟩

/-! ## The bounding sphere: radius, frame and motion -/

lemma ite_lt_eq_max {α : Type} [LinearOrderedField α] (a b : α) :
    (if a < b then b else a) = max a b := by
  rw [max_def]
  split_ifs with h1 h2 h2
  · rfl
  · exact absurd h1.le h2
  · exact le_antisymm h2 (not_lt.1 h1)
  · rfl

/-- The radius chosen by `createBoundingSphere`, for any `sqrt`, in terms of the
centre it chose. -/
lemma createBoundingSphere_fRadius {α : Type} [LinearOrderedField α] (sqrt : α → α)
    (tri : triangle α) :
    (createBoundingSphere sqrt tri).fRadius =
      max (max
        (sqrt (((createBoundingSphere sqrt tri).vCenter.x - tri.v0.x) *
            ((createBoundingSphere sqrt tri).vCenter.x - tri.v0.x) +
          ((createBoundingSphere sqrt tri).vCenter.y - tri.v0.y) *
            ((createBoundingSphere sqrt tri).vCenter.y - tri.v0.y) +
          ((createBoundingSphere sqrt tri).vCenter.z - tri.v0.z) *
            ((createBoundingSphere sqrt tri).vCenter.z - tri.v0.z)))
        (sqrt (((createBoundingSphere sqrt tri).vCenter.x - tri.v1.x) *
            ((createBoundingSphere sqrt tri).vCenter.x - tri.v1.x) +
          ((createBoundingSphere sqrt tri).vCenter.y - tri.v1.y) *
            ((createBoundingSphere sqrt tri).vCenter.y - tri.v1.y) +
          ((createBoundingSphere sqrt tri).vCenter.z - tri.v1.z) *
            ((createBoundingSphere sqrt tri).vCenter.z - tri.v1.z))))
        (sqrt (((createBoundingSphere sqrt tri).vCenter.x - tri.v2.x) *
            ((createBoundingSphere sqrt tri).vCenter.x - tri.v2.x) +
          ((createBoundingSphere sqrt tri).vCenter.y - tri.v2.y) *
            ((createBoundingSphere sqrt tri).vCenter.y - tri.v2.y) +
          ((createBoundingSphere sqrt tri).vCenter.z - tri.v2.z) *
            ((createBoundingSphere sqrt tri).vCenter.z - tri.v2.z))) := by
  rw [← ite_lt_eq_max, ← ite_lt_eq_max]
  rfl

/-- C21. `createBoundingSphere` sets `fRadius` to the maximum of the three Euclidean
distances from the computed `vCenter` to `v0`, `v1` and `v2`. -/
theorem createBoundingSphere_radius_is_max (tri : triangle ℝ) :
    (createBoundingSphere Real.sqrt tri).fRadius =
      max (max (Real.sqrt (distSq (createBoundingSphere Real.sqrt tri).vCenter tri.v0))
          (Real.sqrt (distSq (createBoundingSphere Real.sqrt tri).vCenter tri.v1)))
        (Real.sqrt (distSq (createBoundingSphere Real.sqrt tri).vCenter tri.v2)) := by
  rw [distSq_eq_mul, distSq_eq_mul, distSq_eq_mul]
  exact createBoundingSphere_fRadius Real.sqrt tri

/-- C22. `createBoundingSphere` changes only `vCenter` and `fRadius`: the fields
`v0`, `v1`, `v2` and `vNormal` of the result are those of the argument, and a
triangle that agrees with the result on `vCenter` and `fRadius` and with the argument
on the other fields is the result. -/
theorem createBoundingSphere_frame {α : Type} [LinearOrderedField α] (sqrt : α → α)
    (tri : triangle α) :
    (createBoundingSphere sqrt tri).v0 = tri.v0 ∧
    (createBoundingSphere sqrt tri).v1 = tri.v1 ∧
    (createBoundingSphere sqrt tri).v2 = tri.v2 ∧
    (createBoundingSphere sqrt tri).vNormal = tri.vNormal ∧
    createBoundingSphere sqrt tri =
      { tri with vCenter := (createBoundingSphere sqrt tri).vCenter,
                 fRadius := (createBoundingSphere sqrt tri).fRadius } :=
  ⟨rfl, rfl, rfl, rfl, rfl⟩

lemma translateX_zero {α : Type} [LinearOrderedField α] (tri : triangle α) :
    translateX 0 tri = tri := by
  cases tri
  simp [translateX]

/-- The triangle left by the motion step is the old one moved along the x-axis. -/
lemma motionStep_fst {α : Type} [LinearOrderedField α] (g_bMoveSpheres : Bool)
    (g_fElapsedTime : α) (tri : triangle α) (bMoveBack : Bool) :
    (motionStep g_bMoveSpheres g_fElapsedTime tri bMoveBack).1 =
      translateX (if g_bMoveSpheres = true then
          (if bMoveBack = true then -(2 * g_fElapsedTime) else 2 * g_fElapsedTime)
        else 0) tri := by
  cases g_bMoveSpheres
  · simp only [motionStep, Bool.false_eq_true, if_false, translateX_zero]
  · cases bMoveBack
    · simp only [motionStep, Bool.false_eq_true, if_true, if_false]
      split_ifs <;> simp only [translateX]
    · simp only [motionStep, if_true]
      split_ifs <;> simp only [translateX, sub_eq_add_neg]

/-- Moving the vertices along the x-axis moves the centre computed by
`createBoundingSphere` by the same offset. -/
lemma createBoundingSphere_vCenter_translateX {α : Type} [LinearOrderedField α]
    (sqrt : α → α) (d : α) (tri : triangle α) :
    (createBoundingSphere sqrt (translateX d tri)).vCenter =
      ⟨(createBoundingSphere sqrt tri).vCenter.x + d, (createBoundingSphere sqrt tri).vCenter.y,
        (createBoundingSphere sqrt tri).vCenter.z⟩ := by
  rw [createBoundingSphere_vCenter, createBoundingSphere_vCenter]
  simp only [translateX, min_add_add_right, max_add_add_right]
  apply vector3f_ext
  · show _ = _ + d
    ring
  · rfl
  · rfl

/-- Moving the vertices along the x-axis does not change the radius computed by
`createBoundingSphere`. -/
lemma createBoundingSphere_fRadius_translateX {α : Type} [LinearOrderedField α]
    (sqrt : α → α) (d : α) (tri : triangle α) :
    (createBoundingSphere sqrt (translateX d tri)).fRadius =
      (createBoundingSphere sqrt tri).fRadius := by
  rw [createBoundingSphere_fRadius, createBoundingSphere_fRadius,
    createBoundingSphere_vCenter_translateX]
  have e : ∀ c v : α, c + d - (v + d) = c - v := fun c v => by ring
  simp only [translateX, e]

lemma isFresh_createBoundingSphere {α : Type} [LinearOrderedField α] (sqrt : α → α)
    (tri : triangle α) : IsFresh sqrt (createBoundingSphere sqrt tri) :=
  ⟨rfl, rfl⟩

lemma isFresh_translateX {α : Type} [LinearOrderedField α] (sqrt : α → α) (d : α)
    {tri : triangle α} (h : IsFresh sqrt tri) : IsFresh sqrt (translateX d tri) := by
  obtain ⟨hc, hr⟩ := h
  constructor
  · rw [createBoundingSphere_vCenter_translateX, ← hc]
    rfl
  · rw [createBoundingSphere_fRadius_translateX, ← hr]
    rfl

lemma isFresh_motionSteps {α : Type} [LinearOrderedField α] (sqrt : α → α)
    (frames : List (Bool × α)) :
    ∀ st : triangle α × Bool, IsFresh sqrt st.1 → IsFresh sqrt (motionSteps frames st).1 := by
  induction frames with
  | nil => intro st h; exact h
  | cons f fs ih =>
    intro st h
    show IsFresh sqrt (motionSteps fs (motionStep f.1 f.2 st.1 st.2)).1
    apply ih
    rw [motionStep_fst]
    exact isFresh_translateX sqrt _ h

/-- C23. The motion step of `render` adds one offset `d` to the `x` coordinate of
`v0`, `v1`, `v2` and `vCenter` and leaves `fRadius` (and every other field) unchanged;
for a triangle whose sphere was built by `createBoundingSphere` and every offset, the
moved `vCenter` and `fRadius` are what `createBoundingSphere` computes from the moved
vertices; so after any sequence of frames that starts from a freshly built sphere, the
cached sphere is the one of the current vertices. -/
theorem motion_keeps_sphere_fresh {α : Type} [LinearOrderedField α] (sqrt : α → α)
    (tri : triangle α) (bMoveBack : Bool) :
    (∀ (g_bMoveSpheres : Bool) (g_fElapsedTime : α), ∃ d : α,
      (motionStep g_bMoveSpheres g_fElapsedTime tri bMoveBack).1 = translateX d tri) ∧
    (∀ d : α,
      (translateX d (createBoundingSphere sqrt tri)).vCenter =
        (createBoundingSphere sqrt (translateX d (createBoundingSphere sqrt tri))).vCenter ∧
      (translateX d (createBoundingSphere sqrt tri)).fRadius =
        (createBoundingSphere sqrt (translateX d (createBoundingSphere sqrt tri))).fRadius ∧
      (translateX d (createBoundingSphere sqrt tri)).fRadius =
        (createBoundingSphere sqrt tri).fRadius) ∧
    (∀ frames : List (Bool × α),
      IsFresh sqrt (motionSteps frames (createBoundingSphere sqrt tri, bMoveBack)).1) := by
  refine ⟨fun m e => ⟨_, motionStep_fst m e tri bMoveBack⟩, fun d => ?_, fun frames => ?_⟩
  · obtain ⟨h1, h2⟩ := isFresh_translateX sqrt d (isFresh_createBoundingSphere sqrt tri)
    exact ⟨h1, h2, rfl⟩
  · exact isFresh_motionSteps sqrt frames _ (isFresh_createBoundingSphere sqrt tri)

/-! ## The magnitude of the plane normal -/

lemma dotProduct_scale {α : Type} [LinearOrderedField α] (k : α) (a n : vector3f α) :
    dotProduct a (scale k n) = k * dotProduct a n := by
  simp only [dotProduct, scale]
  ring

/-- The flag returned by `getLinePlaneIntersectionPoint` for the normal `k * n`, with
`k > 0`, in terms of the quantities computed for `n`. -/
lemma getLinePlaneIntersectionPoint_scale_fst (s e p n v : vector3f ℝ) {k : ℝ} (hk : 0 < k) :
    (getLinePlaneIntersectionPoint s e p (scale k n) v).1 = true ↔
      (0.001 ≤ k * |dotProduct (e - s) n| ∧
        0 ≤ dotProduct (p - s) n / dotProduct (e - s) n ∧
        dotProduct (p - s) n / dotProduct (e - s) n ≤ 1) := by
  rw [getLinePlaneIntersectionPoint_fst_iff, dotProduct_scale, dotProduct_scale,
    mul_div_mul_left _ _ hk.ne', abs_mul, abs_of_pos hk, not_lt, not_or, not_lt, not_lt]

/-- C24, counterexample. For the segment from `(0,0,-1)` to `(0,0,1)`, the plane point
`(0,0,0)`, the non-zero normal `n = (0,0,1)` and `k = 1/10000 > 0`,
`getLinePlaneIntersectionPoint` returns true with the normal `n` and false with the
normal `k * n`. -/
theorem getLinePlaneIntersectionPoint_scale_changes_verdict :
    (0 : ℝ) < 1 / 10000 ∧ (⟨0, 0, 1⟩ : vector3f ℝ) ≠ ⟨0, 0, 0⟩ ∧
    (getLinePlaneIntersectionPoint (⟨0, 0, -1⟩ : vector3f ℝ) ⟨0, 0, 1⟩ ⟨0, 0, 0⟩ ⟨0, 0, 1⟩
      ⟨0, 0, 0⟩).1 = true ∧
    (getLinePlaneIntersectionPoint (⟨0, 0, -1⟩ : vector3f ℝ) ⟨0, 0, 1⟩ ⟨0, 0, 0⟩
      (scale (1 / 10000) ⟨0, 0, 1⟩) ⟨0, 0, 0⟩).1 = false := by
  refine ⟨by norm_num, by simp, ?_, ?_⟩
  · rw [getLinePlaneIntersectionPoint_fst_iff]
    norm_num [dotProduct]
  · rw [← Bool.not_eq_true, getLinePlaneIntersectionPoint_fst_iff]
    norm_num [dotProduct, scale, abs_lt]

/-- C24, amended. For every segment, plane point, normal `n` and scalar `k > 0`,
`getLinePlaneIntersectionPoint` called with the normal `k * n` returns true exactly
when `k * |denom| ≥ 0.001` and `0 ≤ t ≤ 1`, with `denom` and `t` the denominator and
the fraction computed for `n`; so it returns the same flag and leaves the same point
as the call with `n` whenever both `|denom| ≥ 0.001` and `k * |denom| ≥ 0.001`, and
whenever both calls return true they leave the same point. -/
theorem getLinePlaneIntersectionPoint_scale (s e p n v : vector3f ℝ) (k : ℝ) (hk : 0 < k) :
    ((getLinePlaneIntersectionPoint s e p (scale k n) v).1 = true ↔
      (0.001 ≤ k * |dotProduct (e - s) n| ∧
        0 ≤ dotProduct (p - s) n / dotProduct (e - s) n ∧
        dotProduct (p - s) n / dotProduct (e - s) n ≤ 1)) ∧
    (0.001 ≤ |dotProduct (e - s) n| → 0.001 ≤ k * |dotProduct (e - s) n| →
      getLinePlaneIntersectionPoint s e p (scale k n) v =
        getLinePlaneIntersectionPoint s e p n v) ∧
    ((getLinePlaneIntersectionPoint s e p (scale k n) v).1 = true →
      (getLinePlaneIntersectionPoint s e p n v).1 = true →
      (getLinePlaneIntersectionPoint s e p (scale k n) v).2 =
        (getLinePlaneIntersectionPoint s e p n v).2) := by
  have hpt : ∀ h1 : (getLinePlaneIntersectionPoint s e p (scale k n) v).1 = true,
      ∀ h2 : (getLinePlaneIntersectionPoint s e p n v).1 = true,
      (getLinePlaneIntersectionPoint s e p (scale k n) v).2 =
        (getLinePlaneIntersectionPoint s e p n v).2 := by
    intro h1 h2
    rw [getLinePlaneIntersectionPoint_snd _ _ _ _ _ h1,
      getLinePlaneIntersectionPoint_snd _ _ _ _ _ h2, dotProduct_scale, dotProduct_scale,
      mul_div_mul_left _ _ hk.ne']
  refine ⟨getLinePlaneIntersectionPoint_scale_fst s e p n v hk, ?_, hpt⟩
  intro hd hkd
  rw [getLinePlaneIntersectionPoint_eq, getLinePlaneIntersectionPoint_eq, dotProduct_scale,
    dotProduct_scale, mul_div_mul_left _ _ hk.ne', abs_mul, abs_of_pos hk,
    if_neg (not_lt.2 hkd), if_neg (not_lt.2 hd)]

/-- C24, amended, at the segment from `(0,0,-1)` to `(0,0,1)`, the plane `z = 0` and
`k = 2`. -/
theorem getLinePlaneIntersectionPoint_scale_witness :
    (0 : ℝ) < 2 ∧
    getLinePlaneIntersectionPoint (⟨0, 0, -1⟩ : vector3f ℝ) ⟨0, 0, 1⟩ ⟨0, 0, 0⟩
        (scale 2 ⟨0, 0, 1⟩) ⟨0, 0, 0⟩ =
      getLinePlaneIntersectionPoint (⟨0, 0, -1⟩ : vector3f ℝ) ⟨0, 0, 1⟩ ⟨0, 0, 0⟩ ⟨0, 0, 1⟩
        ⟨0, 0, 0⟩ :=
  ⟨by norm_num, (getLinePlaneIntersectionPoint_scale _ _ _ _ _ 2 (by norm_num)).2.1
    (by norm_num [dotProduct]) (by norm_num [dotProduct])⟩

/-! ## Safety and symmetries of the classifier and of the check -/

/-- C25. When `P` differs from the three vertices, the three magnitudes by which
`isPointInsideTriangle` divides are positive, and each of the three dot products of
the normalized vectors lies in `[-1, 1]`, the domain of `arccos`. -/
theorem isPointInsideTriangle_safe (P : vector3f ℝ) (tri : triangle ℝ)
    (h0 : P ≠ tri.v0) (h1 : P ≠ tri.v1) (h2 : P ≠ tri.v2) :
    (0 < length Real.sqrt (P - tri.v0) ∧ 0 < length Real.sqrt (P - tri.v1) ∧
      0 < length Real.sqrt (P - tri.v2)) ∧
    (-1 ≤ dotProduct (normalize Real.sqrt (P - tri.v0)) (normalize Real.sqrt (P - tri.v1)) ∧
      dotProduct (normalize Real.sqrt (P - tri.v0)) (normalize Real.sqrt (P - tri.v1)) ≤ 1) ∧
    (-1 ≤ dotProduct (normalize Real.sqrt (P - tri.v1)) (normalize Real.sqrt (P - tri.v2)) ∧
      dotProduct (normalize Real.sqrt (P - tri.v1)) (normalize Real.sqrt (P - tri.v2)) ≤ 1) ∧
    (-1 ≤ dotProduct (normalize Real.sqrt (P - tri.v2)) (normalize Real.sqrt (P - tri.v0)) ∧
      dotProduct (normalize Real.sqrt (P - tri.v2)) (normalize Real.sqrt (P - tri.v0)) ≤ 1) := by
  have hb : ∀ a b : vector3f ℝ,
      -1 ≤ dotProduct (normalize Real.sqrt a) (normalize Real.sqrt b) ∧
      dotProduct (normalize Real.sqrt a) (normalize Real.sqrt b) ≤ 1 := by
    intro a b
    rw [dotProduct_normalize, ← inner_toE, ← norm_toE, ← norm_toE]
    exact abs_le.1 (abs_real_inner_div_norm_mul_norm_le_one (toE a) (toE b))
  refine ⟨⟨?_, ?_, ?_⟩, hb _ _, hb _ _, hb _ _⟩
  · rw [length_real]; exact Real.sqrt_pos.2 (dotProduct_sub_self_pos h0)
  · rw [length_real]; exact Real.sqrt_pos.2 (dotProduct_sub_self_pos h1)
  · rw [length_real]; exact Real.sqrt_pos.2 (dotProduct_sub_self_pos h2)

/-- C25 at the first default triangle of the sample and the point `(0,0,1)`. -/
theorem isPointInsideTriangle_safe_witness :
    ((⟨0, 0, 1⟩ : vector3f ℝ) ≠ (sampleTriangle1 : triangle ℝ).v0 ∧
      (⟨0, 0, 1⟩ : vector3f ℝ) ≠ (sampleTriangle1 : triangle ℝ).v1 ∧
      (⟨0, 0, 1⟩ : vector3f ℝ) ≠ (sampleTriangle1 : triangle ℝ).v2) ∧
    0 < length Real.sqrt ((⟨0, 0, 1⟩ : vector3f ℝ) - (sampleTriangle1 : triangle ℝ).v0) :=
  have h0 : (⟨0, 0, 1⟩ : vector3f ℝ) ≠ (sampleTriangle1 : triangle ℝ).v0 := by
    norm_num [sampleTriangle1, triangleOf]
  have h1 : (⟨0, 0, 1⟩ : vector3f ℝ) ≠ (sampleTriangle1 : triangle ℝ).v1 := by
    norm_num [sampleTriangle1, triangleOf]
  have h2 : (⟨0, 0, 1⟩ : vector3f ℝ) ≠ (sampleTriangle1 : triangle ℝ).v2 := by
    norm_num [sampleTriangle1, triangleOf]
  ⟨⟨h0, h1, h2⟩, (isPointInsideTriangle_safe _ _ h0 h1 h2).1.1⟩

/-- The broad phase does not depend on the order of its two triangles. -/
lemma doSpheresIntersect_swap {α : Type} [LinearOrderedField α] (sqrt : α → α)
    (A B : triangle α) : doSpheresIntersect sqrt A B = doSpheresIntersect sqrt B A := by
  have h : (B.vCenter.x - A.vCenter.x) * (B.vCenter.x - A.vCenter.x) +
      (B.vCenter.y - A.vCenter.y) * (B.vCenter.y - A.vCenter.y) +
      (B.vCenter.z - A.vCenter.z) * (B.vCenter.z - A.vCenter.z) =
      (A.vCenter.x - B.vCenter.x) * (A.vCenter.x - B.vCenter.x) +
      (A.vCenter.y - B.vCenter.y) * (A.vCenter.y - B.vCenter.y) +
      (A.vCenter.z - B.vCenter.z) * (A.vCenter.z - B.vCenter.z) := by ring
  simp only [doSpheresIntersect, h, add_comm A.fRadius B.fRadius]

/-- C26. The collision check is symmetric in its two triangles: on `(A, B)` and on
`(B, A)` it yields the same `(sphereVerdict, triangleVerdict)` pair. -/
theorem collisionCheck_symm {α : Type} [LinearOrderedField α] (sqrt acos : α → α)
    (vPoint0 : vector3f α) (A B : triangle α) :
    ((collisionCheck sqrt acos vPoint0 A B).1, (collisionCheck sqrt acos vPoint0 A B).2.1) =
      ((collisionCheck sqrt acos vPoint0 B A).1, (collisionCheck sqrt acos vPoint0 B A).2.1) := by
  simp only [collisionCheck, doSpheresIntersect_swap sqrt B A]
  by_cases hs : doSpheresIntersect sqrt A B = true
  · by_cases h1 : doTrianglesIntersect sqrt acos vPoint0 A B = true
    · by_cases h2 : doTrianglesIntersect sqrt acos vPoint0 B A = true
      · simp [hs, h1, h2]
      · simp [hs, h1, h2]
    · by_cases h2 : doTrianglesIntersect sqrt acos vPoint0 B A = true
      · simp [hs, h1, h2]
      · simp [hs, h1, h2]
  · simp [hs]

/-- C27. `isPointInsideTriangle` does not depend on the order of the vertices: for
every point `P` (distinct from the vertices or not) and every permutation of
`(v0, v1, v2)` the result is the same. -/
theorem isPointInsideTriangle_permuteVertices {α : Type} [LinearOrderedField α]
    (sqrt acos : α → α) (σ : Equiv.Perm (Fin 3)) (P : vector3f α) (tri : triangle α) :
    isPointInsideTriangle sqrt acos P (permuteVertices σ tri) =
      isPointInsideTriangle sqrt acos P tri := by
  have hf : ∀ x y : vector3f α,
      acos (dotProduct (normalize sqrt (P - x)) (normalize sqrt (P - y))) =
        acos (dotProduct (normalize sqrt (P - y)) (normalize sqrt (P - x))) :=
    fun x y => by rw [dotProduct_comm]
  have h01 : σ 0 ≠ σ 1 := fun h => absurd (σ.injective h) (by decide)
  have h02 : σ 0 ≠ σ 2 := fun h => absurd (σ.injective h) (by decide)
  have h12 : σ 1 ≠ σ 2 := fun h => absurd (σ.injective h) (by decide)
  rw [Bool.eq_iff_iff, isPointInsideTriangle_eq_true_iff, isPointInsideTriangle_eq_true_iff]
  have hS : acos (dotProduct (normalize sqrt (P - (permuteVertices σ tri).v0))
        (normalize sqrt (P - (permuteVertices σ tri).v1))) +
      acos (dotProduct (normalize sqrt (P - (permuteVertices σ tri).v1))
        (normalize sqrt (P - (permuteVertices σ tri).v2))) +
      acos (dotProduct (normalize sqrt (P - (permuteVertices σ tri).v2))
        (normalize sqrt (P - (permuteVertices σ tri).v0))) =
      acos (dotProduct (normalize sqrt (P - tri.v0)) (normalize sqrt (P - tri.v1))) +
      acos (dotProduct (normalize sqrt (P - tri.v1)) (normalize sqrt (P - tri.v2))) +
      acos (dotProduct (normalize sqrt (P - tri.v2)) (normalize sqrt (P - tri.v0))) := by
    simp only [permuteVertices]
    generalize σ 0 = a at h01 h02 ⊢
    generalize σ 1 = b at h01 h12 ⊢
    generalize σ 2 = c at h02 h12 ⊢
    have e01 := hf tri.v0 tri.v1
    have e12 := hf tri.v1 tri.v2
    have e20 := hf tri.v2 tri.v0
    fin_cases a <;> fin_cases b <;> fin_cases c <;>
      first
      | exact absurd rfl h01
      | exact absurd rfl h02
      | exact absurd rfl h12
      | (simp only [vertex] <;> linarith)
  rw [hS]

/-! ## Degenerate first triangle -/

/-- The flag of the traced narrow phase is the one of `doTrianglesIntersect`. -/
lemma doTrianglesIntersectTraced_fst {α : Type} [LinearOrderedField α] (sqrt acos : α → α)
    (vPoint0 : vector3f α) (tri1 tri2 : triangle α) :
    (doTrianglesIntersectTraced sqrt acos vPoint0 tri1 tri2).1 =
      doTrianglesIntersect sqrt acos vPoint0 tri1 tri2 := by
  simp only [doTrianglesIntersectTraced, doTrianglesIntersect, Bool.and_eq_true]
  split_ifs <;> rfl

/-- Against a plane whose normal is the zero vector, every segment is rejected and
`vIntersection` is left as it was. -/
lemma getLinePlaneIntersectionPoint_zero_normal (s e p v : vector3f ℝ) :
    getLinePlaneIntersectionPoint s e p ⟨0, 0, 0⟩ v = (false, v) := by
  have hd : dotProduct (e - s) (⟨0, 0, 0⟩ : vector3f ℝ) = 0 := by
    simp only [dotProduct, mul_zero, add_zero]
  rw [getLinePlaneIntersectionPoint_eq, hd, if_pos (by norm_num)]

/-- C28. If the vertices of `tri1` are collinear or coincident
(`cross (v1 - v0) (v2 - v0)` is the zero vector), then `doTrianglesIntersect tri1 tri2`
returns false for every `tri2`, each of the three calls of
`getLinePlaneIntersectionPoint` returns false, and `isPointInsideTriangle` is not
called on any edge. -/
theorem doTrianglesIntersect_degenerate (vPoint0 : vector3f ℝ) (tri1 tri2 : triangle ℝ)
    (h : crossProduct (tri1.v1 - tri1.v0) (tri1.v2 - tri1.v0) = ⟨0, 0, 0⟩) :
    doTrianglesIntersect Real.sqrt Real.arccos vPoint0 tri1 tri2 = false ∧
    (∀ v : vector3f ℝ,
      (getLinePlaneIntersectionPoint tri2.v0 tri2.v1 tri1.v0
        (crossProduct (tri1.v1 - tri1.v0) (tri1.v2 - tri1.v0)) v).1 = false ∧
      (getLinePlaneIntersectionPoint tri2.v1 tri2.v2 tri1.v0
        (crossProduct (tri1.v1 - tri1.v0) (tri1.v2 - tri1.v0)) v).1 = false ∧
      (getLinePlaneIntersectionPoint tri2.v2 tri2.v0 tri1.v0
        (crossProduct (tri1.v1 - tri1.v0) (tri1.v2 - tri1.v0)) v).1 = false) ∧
    doTrianglesIntersectTraced Real.sqrt Real.arccos vPoint0 tri1 tri2 = (false, 0) := by
  have ht : doTrianglesIntersectTraced Real.sqrt Real.arccos vPoint0 tri1 tri2 = (false, 0) := by
    simp only [doTrianglesIntersectTraced, h, getLinePlaneIntersectionPoint_zero_normal,
      Bool.false_eq_true, false_and, if_false]
  refine ⟨?_, fun v => ?_, ht⟩
  · rw [← doTrianglesIntersectTraced_fst, ht]
  · rw [h]
    simp only [getLinePlaneIntersectionPoint_zero_normal, and_self]

/-- C28 at a triangle with three vertices on the x-axis, against the second default
triangle of the sample. -/
theorem doTrianglesIntersect_degenerate_witness :
    crossProduct ((collinearTriangle : triangle ℝ).v1 - (collinearTriangle : triangle ℝ).v0)
      ((collinearTriangle : triangle ℝ).v2 - (collinearTriangle : triangle ℝ).v0) = ⟨0, 0, 0⟩ ∧
    doTrianglesIntersectTraced Real.sqrt Real.arccos ⟨0, 0, 0⟩ (collinearTriangle : triangle ℝ)
      sampleTriangle2 = (false, 0) :=
  have h : crossProduct
      ((collinearTriangle : triangle ℝ).v1 - (collinearTriangle : triangle ℝ).v0)
      ((collinearTriangle : triangle ℝ).v2 - (collinearTriangle : triangle ℝ).v0) =
      ⟨0, 0, 0⟩ := by
    norm_num [collinearTriangle, triangleOf, crossProduct]
  ⟨h, (doTrianglesIntersect_degenerate ⟨0, 0, 0⟩ _ sampleTriangle2 h).2.2⟩

end BasicCollision

/-! ## SDL_Blit_Sprite: invariants of the frame counters -/

namespace SDLBlitSprite

lemma afterCalls_succ (n : Nat) : afterCalls (n + 1) = render (afterCalls n) := by
  unfold afterCalls
  exact Function.iterate_succ_apply' render n _

/-- The static locals after `n` calls, in closed form. -/
lemma afterCalls_eq (n : Nat) :
    (afterCalls n).nFrame = ((n % 30 : Nat) : Int) ∧
    (afterCalls n).nPosition = ((n % 641 : Nat) : Int) := by
  induction n with
  | zero => exact ⟨rfl, rfl⟩
  | succ n ih =>
    obtain ⟨hf, hp⟩ := ih
    rw [afterCalls_succ]
    simp only [render, hf, hp]
    constructor
    · split_ifs <;> omega
    · split_ifs <;> omega

/-- C29. After any number `n` of `render` calls from `nFrame = 0`, `nPosition = 0`:
`0 ≤ nFrame ≤ 29` and `0 ≤ nPosition ≤ 640`; the next call takes `nFrame` to
`(nFrame + 1) mod 30`; and the source rectangle built from `nFrame`, with
`x = (nFrame % 5) * 64`, `y = (nFrame / 5) * 64`, `w = h = 64`, lies inside the sheet
region `320 x 384`. -/
theorem render_counters_invariant (n : Nat) :
    (0 ≤ (afterCalls n).nFrame ∧ (afterCalls n).nFrame ≤ 29) ∧
    (0 ≤ (afterCalls n).nPosition ∧ (afterCalls n).nPosition ≤ 640) ∧
    (afterCalls (n + 1)).nFrame = ((afterCalls n).nFrame + 1) % 30 ∧
    ((srcRect (afterCalls n).nFrame).x = ((afterCalls n).nFrame % 5) * 64 ∧
      (srcRect (afterCalls n).nFrame).y = ((afterCalls n).nFrame / 5) * 64 ∧
      (srcRect (afterCalls n).nFrame).w = 64 ∧ (srcRect (afterCalls n).nFrame).h = 64) ∧
    (0 ≤ (srcRect (afterCalls n).nFrame).x ∧
      (srcRect (afterCalls n).nFrame).x + (srcRect (afterCalls n).nFrame).w ≤ 320 ∧
      0 ≤ (srcRect (afterCalls n).nFrame).y ∧
      (srcRect (afterCalls n).nFrame).y + (srcRect (afterCalls n).nFrame).h ≤ 384) := by
  obtain ⟨hf, hp⟩ := afterCalls_eq n
  obtain ⟨hf1, -⟩ := afterCalls_eq (n + 1)
  have h0 : 0 ≤ (afterCalls n).nFrame := by omega
  have hx : (srcRect (afterCalls n).nFrame).x = ((afterCalls n).nFrame % 5) * 64 := by
    simp only [srcRect, Int.tmod_eq_emod h0 (by norm_num : (0 : Int) ≤ 5)]
  have hy : (srcRect (afterCalls n).nFrame).y = ((afterCalls n).nFrame / 5) * 64 := by
    simp only [srcRect, Int.tdiv_eq_ediv h0 (by norm_num : (0 : Int) ≤ 5)]
  have hw : (srcRect (afterCalls n).nFrame).w = 64 := rfl
  have hh : (srcRect (afterCalls n).nFrame).h = 64 := rfl
  refine ⟨by omega, by omega, by omega, ⟨hx, hy, hw, hh⟩, ?_⟩
  rw [hx, hy, hw, hh]
  omega

end SDLBlitSprite

/-! ## GLX_Sample: the BGR to RGB loop -/

namespace GLXSample

/-- The loop started at the pixel `j` of a buffer of `n` pixels: it returns a buffer
of the same length that agrees with `data` below the index `3 * j` and has the first
and third byte of every pixel from `j` on exchanged. -/
lemma getBitmapImageData_loop_from {β : Type} (n : Nat) :
    ∀ (d j : Nat) (data : List β), j + d = n → data.length = 3 * n →
      ∃ out : List β, getBitmapImageData_loop (3 * n) (3 * j) data = some out ∧
        out.length = 3 * n ∧
        (∀ m, m < 3 * j → out[m]? = data[m]?) ∧
        (∀ k, j ≤ k → k < n →
          out[3 * k]? = data[3 * k + 2]? ∧ out[3 * k + 1]? = data[3 * k + 1]? ∧
          out[3 * k + 2]? = data[3 * k]?) := by
  intro d
  induction d with
  | zero =>
    intro j data hj hlen
    have hjn : j = n := by omega
    subst hjn
    refine ⟨data, ?_, hlen, fun m _ => rfl, fun k h1 h2 => absurd h2 (by omega)⟩
    rw [getBitmapImageData_loop, if_neg (lt_irrefl _)]
  | succ d ih =>
    intro j data hj hlen
    have hi : 3 * j < 3 * n := by omega
    have h0 : 3 * j < data.length := by omega
    have h2 : 3 * j + 2 < data.length := by omega
    obtain ⟨out, hout, holen, hlow, hhigh⟩ :=
      ih (j + 1) ((data.set (3 * j) data[3 * j + 2]).set (3 * j + 2) data[3 * j])
        (by omega) (by rw [List.length_set, List.length_set]; exact hlen)
    refine ⟨out, ?_, holen, ?_, ?_⟩
    · rw [getBitmapImageData_loop, if_pos hi, List.getElem?_eq_getElem h0,
        List.getElem?_eq_getElem h2]
      exact hout
    · intro m hm
      rw [hlow m (by omega), List.getElem?_set_ne (by omega), List.getElem?_set_ne (by omega)]
    · intro k hjk hkn
      rcases Nat.eq_or_lt_of_le hjk with hk | hk
      · subst hk
        refine ⟨?_, ?_, ?_⟩
        · rw [hlow (3 * j) (by omega), List.getElem?_set_ne (by omega),
            List.getElem?_set_self h0, List.getElem?_eq_getElem h2]
        · rw [hlow (3 * j + 1) (by omega), List.getElem?_set_ne (by omega),
            List.getElem?_set_ne (by omega)]
        · rw [hlow (3 * j + 2) (by omega),
            List.getElem?_set_self (by rw [List.length_set]; exact h2),
            List.getElem?_eq_getElem h0]
      · obtain ⟨e0, e1, e2⟩ := hhigh k (by omega) hkn
        refine ⟨?_, ?_, ?_⟩
        · rw [e0, List.getElem?_set_ne (by omega), List.getElem?_set_ne (by omega)]
        · rw [e1, List.getElem?_set_ne (by omega), List.getElem?_set_ne (by omega)]
        · rw [e2, List.getElem?_set_ne (by omega), List.getElem?_set_ne (by omega)]

/-- C30. On a pixel buffer of `3 * n` bytes the BGR to RGB loop of
`getBitmapImageData` finishes without an access outside the buffer (its result is
not `none`), leaves the buffer length unchanged, and for every pixel `k < n` gives
`out[3k] = in[3k+2]`, `out[3k+1] = in[3k+1]`, `out[3k+2] = in[3k]`. -/
theorem getBitmapImageData_loop_swaps {β : Type} (n : Nat) (data : List β)
    (hlen : data.length = 3 * n) :
    ∃ out : List β, getBitmapImageData_loop (3 * n) 0 data = some out ∧
      out.length = data.length ∧
      ∀ k, k < n →
        out[3 * k]? = data[3 * k + 2]? ∧ out[3 * k + 1]? = data[3 * k + 1]? ∧
        out[3 * k + 2]? = data[3 * k]? := by
  obtain ⟨out, hout, holen, -, hhigh⟩ :=
    getBitmapImageData_loop_from n n 0 data (by omega) hlen
  exact ⟨out, hout, by rw [holen, hlen], fun k hk => hhigh k (Nat.zero_le k) hk⟩

/-- C30 at a buffer of two pixels. -/
theorem getBitmapImageData_loop_swaps_witness :
    [10, 20, 30, 40, 50, 60].length = 3 * 2 ∧
    ∃ out : List Nat, getBitmapImageData_loop (3 * 2) 0 [10, 20, 30, 40, 50, 60] = some out ∧
      out.length = [10, 20, 30, 40, 50, 60].length ∧
      ∀ k, k < 2 →
        out[3 * k]? = [10, 20, 30, 40, 50, 60][3 * k + 2]? ∧
        out[3 * k + 1]? = [10, 20, 30, 40, 50, 60][3 * k + 1]? ∧
        out[3 * k + 2]? = [10, 20, 30, 40, 50, 60][3 * k]? :=
  ⟨rfl, getBitmapImageData_loop_swaps 2 [10, 20, 30, 40, 50, 60] rfl⟩

end GLXSample
